import Mathlib

/-!
# MCP79412 real-time-clock driver: embedding and verified properties

A shallow embedding of `src/src/MCP79412.cpp` (class `MCP79412`).

Conventions of the embedding

* The target is the Particle platform named by the header (`#include <Particle.h>`),
  a 32-bit ARM ABI: `int` and `unsigned int` are 32 bits wide, `unsigned long` is
  32 bits wide, `uint8_t` is 8 bits wide.
* C `int` values are modelled by `Int`; C division and remainder on `int` are
  `Int.tdiv` and `Int.tmod` (truncation toward zero).  Signed overflow is undefined
  behaviour in C++ and is not modelled: the results on the driver are stated for
  arguments on which no `int` intermediate leaves the 32-bit range.
* Unsigned values are modelled by `Nat`, reduced modulo `2 ^ w` wherever the code
  converts to, or computes in, an unsigned type of width `w`.
* The device is a register file `Nat → Nat` reached through the I2C bus.  A write
  transaction returns the status of `Wire.endTransmission()`; the status of the
  k-th write transaction is taken from an oracle carried by the bus state, so that
  both succeeding and failing transfers can be described.  Read transactions
  are modelled in their succeeding case (the byte held by the register is
  delivered).
-/

namespace MCP79412

/-! ## Register map (`enum Regs`, `AlarmOffset`, `BlockOffset`, `Control`) -/

/-- Time register `Regs::Seconds`. -/
def Regs.Seconds : Nat := 0x00
/-- Time register `Regs::Minutes`. -/
def Regs.Minutes : Nat := 0x01
/-- Time register `Regs::Hours`. -/
def Regs.Hours : Nat := 0x02
/-- Time register `Regs::WeekDay`. -/
def Regs.WeekDay : Nat := 0x03
/-- Time register `Regs::Date`. -/
def Regs.Date : Nat := 0x04
/-- Time register `Regs::Month`. -/
def Regs.Month : Nat := 0x05
/-- Time register `Regs::Year`. -/
def Regs.Year : Nat := 0x06

/-- Offset between the ALM0 and ALM1 register blocks. -/
def AlarmOffset : Nat := 0x07
/-- Offset from the time registers to the ALM0 register block. -/
def BlockOffset : Nat := 0x0A
/-- Address of the control register. -/
def Control : Nat := 0x07

/-! ## Bus and register helpers -/

/-- The device behind the I2C bus: its register file, the number of write
transactions performed so far and the status each write transaction returns. -/
structure Bus where
  /-- Register file: the byte held at each register address. -/
  regs : Nat → Nat
  /-- Number of write transactions (`writeByte` calls) performed so far. -/
  nWrites : Nat
  /-- Status `Wire.endTransmission()` returns for the k-th write transaction
  (0 = success). -/
  status : Nat → Int

/-- All write transactions on this bus succeed. -/
def Bus.allOk (b : Bus) : Prop := ∀ k, b.status k = 0

/-- Conversion of an `int` to `uint8_t`. -/
def toU8 (x : Int) : Nat := (x % 256).toNat

/-- `uint8_t MCP79412::readByte(int Reg)`, in the case where the byte arrives. -/
def readByte (b : Bus) (Reg : Nat) : Nat := b.regs Reg % 256

/-- `int MCP79412::writeByte(int Reg, uint8_t Val)`: returns the I2C status and the
new bus state.  A transaction whose status is non-zero leaves the register as it was. -/
def writeByte (b : Bus) (Reg : Nat) (Val : Nat) : Int × Bus :=
  let st := b.status b.nWrites
  (st, { regs := if st = 0 then (fun r => if r = Reg then Val % 256 else b.regs r) else b.regs,
         nWrites := b.nWrites + 1,
         status := b.status })

/-- `bool MCP79412::readBit(int Reg, uint8_t Pos)`. -/
def readBit (b : Bus) (Reg : Nat) (Pos : Nat) : Bool :=
  ((readByte b Reg >>> Pos) &&& 0x01) != 0

/-- `int MCP79412::setBit(int Reg, uint8_t Pos)`. -/
def setBit (b : Bus) (Reg : Nat) (Pos : Nat) : Int × Bus :=
  let ValTemp := readByte b Reg
  let ValTemp := (ValTemp ||| (1 <<< Pos)) % 256
  writeByte b Reg ValTemp

/-- `int MCP79412::clearBit(int Reg, uint8_t Pos)`.  The mask is the `uint8_t`
conversion of `~(1 << Pos)`. -/
def clearBit (b : Bus) (Reg : Nat) (Pos : Nat) : Int × Bus :=
  let ValTemp := readByte b Reg
  let Mask := 255 ^^^ ((1 <<< Pos) % 256)
  let ValTemp := ValTemp &&& Mask
  writeByte b Reg ValTemp

/-! ## Time registers: `setTime` and `getRawTime` -/

/-- `struct Timestamp` of the header. -/
structure Timestamp where
  /-- Year, e.g. 2020 (`uint16_t`). -/
  year : Nat
  /-- Month, 1-12. -/
  month : Nat
  /-- Day of the month, 1-31. -/
  mday : Nat
  /-- Day of the week, 1-7. -/
  wday : Nat
  /-- Hour, 0-23. -/
  hour : Nat
  /-- Minute, 0-59. -/
  min : Nat
  /-- Second, 0-59. -/
  sec : Nat
deriving DecidableEq, Repr

/-- The packing `b = v/10; a = v - b*10; a + (b << 4)` used by `setTime` and
`setAlarm` to turn a decimal field into a BCD byte. -/
def packBCD (v : Int) : Int :=
  let b := v.tdiv 10
  let a := v - b * 10
  a + b * 16

/-- Body of the `for(int i=0; i<=6; i++)` loop of `setTime` for index `i`: computes the
byte for register `i` and writes it; the error is replaced by every non-zero status. -/
def setTimeStep (stVal : Bool) (DoW : Int) (TimeDate : List Int) (acc : Int × Bus) (i : Nat) :
    Int × Bus :=
  let b := acc.2
  let v : Int :=
    if i = 3 then
      let DoW_Temp := readByte b Regs.WeekDay
      let DoW_Temp := DoW_Temp &&& 0xF8
      let DoW_Temp := toU8 (Int.lor (DoW_Temp : Int) (Int.land DoW 0x07))
      (DoW_Temp : Int)
    else
      let t := packBCD (TimeDate.getD i 0)
      if i = 0 ∧ stVal = true then Int.lor t 0x80 else t
  let r := writeByte b i (toU8 v)
  (if r.1 ≠ 0 then r.1 else acc.1, r.2)

/-- `int MCP79412::setTime(int Year, int Month, int Day, int DoW, int Hour, int Min, int Sec)`:
returns the error value and the new bus state. -/
def setTime (b : Bus) (Year Month Day DoW Hour Min Sec : Int) : Int × Bus :=
  let stVal := readBit b 0x00 7
  let Year := if Year > 999 then Year - 2000 else Year
  let TimeDate : List Int := [Sec, Min, Hour, DoW, Day, Month, Year]
  (List.range 7).foldl (setTimeStep stVal DoW TimeDate) (0, b)

/-- Decoding of the byte `n` read from time register `i` in `getRawTime`
(the `switch (i)` of the read loop). -/
def decodeField (i : Nat) (n : Nat) : Nat :=
  let a := n &&& 0x0F
  let high := (n >>> 4) &&& 0x0F
  if i = 0 ∨ i = 1 then a + (high &&& 0x07) * 10
  else if i = 2 ∨ i = 4 then a + (high &&& 0x03) * 10
  else if i = 3 then a &&& 0x07
  else if i = 5 then a + (high &&& 0x01) * 10
  else a + high * 10

/-- `MCP79412::Timestamp MCP79412::getRawTime()`: the seven time registers are read
in one sequential transfer starting at register 0 and decoded. -/
def getRawTime (b : Bus) : Timestamp :=
  let TimeDate : Nat → Nat := fun i => decodeField i (b.regs i % 256)
  { year := (TimeDate 6 + 2000) % 65536,
    month := TimeDate 5 % 256,
    mday := TimeDate 4 % 256,
    wday := TimeDate 3 % 256,
    hour := TimeDate 2 % 256,
    min := TimeDate 1 % 256,
    sec := TimeDate 0 % 256 }

/-! ## Alarm configuration: `enableAlarm`, `clearAlarm`, `setAlarm` -/

/-- `int MCP79412::enableAlarm(bool State, bool AlarmVal)`. -/
def enableAlarm (b : Bus) (State : Bool) (AlarmVal : Bool) : Int × Bus :=
  let b := (clearBit b Control 6).2
  if State then setBit b Control (4 + AlarmVal.toNat)
  else clearBit b Control (4 + AlarmVal.toNat)

/-- `int MCP79412::clearAlarm(bool AlarmVal)`. -/
def clearAlarm (b : Bus) (AlarmVal : Bool) : Int × Bus :=
  let RegOffset := if AlarmVal then AlarmOffset + BlockOffset else BlockOffset
  clearBit b (Regs.WeekDay + RegOffset) 3

/-- `bool MCP79412::readAlarm(bool AlarmVal)`. -/
def readAlarm (b : Bus) (AlarmVal : Bool) : Bool :=
  let RegOffset := if AlarmVal then AlarmOffset + BlockOffset else BlockOffset
  readBit b (Regs.WeekDay + RegOffset) 3

/-- The local array `int AlarmTime[7]` of `setAlarm`, one field per index:
`sec` = `AlarmTime[0]`, `min` = `[1]`, `hour` = `[2]`, `wday` = `[3]`, `mday` = `[4]`,
`month` = `[5]`, `year` = `[6]`. -/
structure AlarmTime where
  /-- `AlarmTime[0]`. -/
  sec : Int
  /-- `AlarmTime[1]`. -/
  min : Int
  /-- `AlarmTime[2]`. -/
  hour : Int
  /-- `AlarmTime[3]`. -/
  wday : Int
  /-- `AlarmTime[4]`. -/
  mday : Int
  /-- `AlarmTime[5]`. -/
  month : Int
  /-- `AlarmTime[6]`. -/
  year : Int
deriving DecidableEq, Repr

/-- The local table `int MonthDay[13]` of `setAlarm`, after the adjustment
`if(readBit(Regs::Month, 5)) MonthDay[2] = 29`. -/
def MonthDay (lpyr : Bool) : List Int :=
  [0, 31, if lpyr then 29 else 28, 31, 30, 31, 30, 31, 31, 30, 31, 30, 31]

/-- Array read `tbl[i]` with an `int` index; `none` when the index is outside the array. -/
def tableAt (tbl : List Int) (i : Int) : Option Int :=
  if 0 ≤ i then tbl.get? i.toNat else none

/-- The alarm-time computation of `setAlarm` (source lines 433-502): from the time `t`
read from the device, the leap flag `lpyr` read from bit 5 of the month register and
the `unsigned int Delta`, the array `AlarmTime` as it stands before it is encoded.
The result is `none` when `MonthDay` is indexed outside its 13 entries. -/
def alarmTarget (t : Timestamp) (lpyr : Bool) (Delta : Nat) : Option AlarmTime :=
  let AlarmTime0 : Int := t.sec
  let AlarmTime1 : Int := t.min
  let AlarmTime2 : Int := t.hour
  let AlarmTime3 : Int := t.wday
  let AlarmTime4 : Int := t.mday
  let AlarmTime5 : Int := t.month
  let AlarmTime6 : Int := t.year
  let AlarmVal0 : Int := ((Delta % 60 : Nat) : Int)
  let AlarmVal1 : Int := ((((Delta - (Delta % 60)) / 60) % 60 : Nat) : Int)
  let AlarmVal2 : Int := ((((Delta - (Delta % 3600)) / 3600) % 24 : Nat) : Int)
  let AlarmVal3 : Int := (((Delta - (Delta % 86400)) / 86400 : Nat) : Int)
  let AlarmVal4 : Int := (((Delta - (Delta % 86400)) / 86400 : Nat) : Int)
  -- Calc seconds
  let CarryOut : Int := if AlarmTime0 + AlarmVal0 ≥ 60 then 1 else 0
  let AlarmTime0 := (AlarmTime0 + AlarmVal0).tmod 60
  let CarryIn := CarryOut
  -- Calc minutes
  let CarryOut : Int := if AlarmTime1 + AlarmVal1 + CarryIn ≥ 60 then 1 else 0
  let AlarmTime1 := (AlarmTime1 + AlarmVal1 + CarryIn).tmod 60
  let CarryIn := CarryOut
  -- Calc hours
  let CarryOut : Int := if AlarmTime2 + AlarmVal2 + CarryIn ≥ 24 then 1 else 0
  let AlarmTime2 := (AlarmTime2 + AlarmVal2 + CarryIn).tmod 24
  let CarryIn := CarryOut
  -- Calc DoW
  let AlarmTime3 := (AlarmTime3 + AlarmVal3 + CarryIn - 1).tmod 7 + 1
  -- Calc days
  match tableAt (MonthDay lpyr) AlarmTime5 with
  | none => none
  | some maxDay =>
    let CarryOut : Int := if AlarmTime4 + AlarmVal4 + CarryIn > maxDay then 1 else 0
    let AlarmTime4 := (AlarmTime4 + AlarmVal4 + CarryIn).tmod (maxDay + 1)
    let AlarmTime4 := if AlarmTime4 = 0 then 1 else AlarmTime4
    -- Calc months
    let AlarmTime5 := (AlarmTime5 + CarryOut - 1).tmod 12 + 1
    some { sec := AlarmTime0, min := AlarmTime1, hour := AlarmTime2, wday := AlarmTime3,
           mday := AlarmTime4, month := AlarmTime5, year := AlarmTime6 }

/-- Body of the write loop `for(int i=0; i<=5; i++)` of `setAlarm` for index `i`. -/
def setAlarmStep (RegOffset : Nat) (AlarmTime : List Int) (b : Bus) (i : Nat) : Bus :=
  let v : Int :=
    if i = 3 then
      let DoW_Temp := readByte b (Regs.WeekDay + RegOffset)
      let DoW_Temp := DoW_Temp &&& 0xF8
      let DoW_Temp :=
        toU8 (Int.lor (Int.lor (DoW_Temp : Int) 0x70) (Int.land (AlarmTime.getD i 0) 0x07))
      (DoW_Temp : Int)
    else
      let bb := (AlarmTime.getD i 0).tdiv 10
      let a := AlarmTime.getD i 0 - bb * 10
      let bb := if i = 2 then (if bb = 2 then 2 else if bb = 1 then 1 else bb) else bb
      a + bb * 16
  (writeByte b (Regs.Seconds + RegOffset + i) (toU8 v)).2

/-- `int MCP79412::setAlarm(unsigned int Delta, bool AlarmNum)`: the error value and
the new bus state; `none` when the alarm-time computation indexes outside `MonthDay`. -/
def setAlarm (b : Bus) (Delta : Nat) (AlarmNum : Bool) : Option (Int × Bus) :=
  let Delta := Delta % 4294967296
  let RegOffset := if AlarmNum then AlarmOffset + BlockOffset else BlockOffset
  let b := (enableAlarm b false AlarmNum).2
  let t := getRawTime b
  match alarmTarget t (readBit b Regs.Month 5) Delta with
  | none => none
  | some a =>
    let AlarmTime : List Int := [a.sec, a.min, a.hour, a.wday, a.mday, a.month, a.year]
    let b := (List.range 6).foldl (setAlarmStep RegOffset AlarmTime) b
    let r := enableAlarm b true AlarmNum
    let b := (clearAlarm r.2 AlarmNum).2
    some (r.1, b)

/-- The conversion `(Offset % 0x0A) | (uint8_t(floor(Offset/10)) << 4)` of the periodic
alarm functions, stored in a `uint8_t`.  `Offset/10` is an unsigned division, `floor`
leaves it as it is, and the result of the expression is reduced to 8 bits. -/
def offsetBCD (Offset : Nat) : Nat :=
  ((Offset % 0x0A) ||| (((Offset / 10) % 256) <<< 4)) % 256

/-- `int MCP79412::setMinuteAlarm(unsigned int Offset, bool AlarmVal)`: alarm once a
minute, at the given second. -/
def setMinuteAlarm (b : Bus) (Offset : Nat) (AlarmVal : Bool) : Int × Bus :=
  let Offset := Offset % 4294967296
  let RegOffset := if AlarmVal then AlarmOffset + BlockOffset else BlockOffset
  let b := (enableAlarm b false AlarmVal).2
  let AlarmRegTemp := readByte b (Regs.WeekDay + RegOffset)
  let AlarmRegTemp := AlarmRegTemp &&& 0x8F
  let b := (writeByte b (Regs.WeekDay + RegOffset) AlarmRegTemp).2
  let SecondsOffset := offsetBCD Offset
  let b := (writeByte b (Regs.Seconds + RegOffset) SecondsOffset).2
  let r := enableAlarm b true AlarmVal
  let b := (clearAlarm r.2 AlarmVal).2
  (r.1, b)

/-- `int MCP79412::setHourAlarm(unsigned int Offset, bool AlarmVal)`: alarm once an
hour, at the given minute. -/
def setHourAlarm (b : Bus) (Offset : Nat) (AlarmVal : Bool) : Int × Bus :=
  let Offset := Offset % 4294967296
  let RegOffset := if AlarmVal then AlarmOffset + BlockOffset else BlockOffset
  let b := (enableAlarm b false AlarmVal).2
  let AlarmRegTemp := readByte b (Regs.WeekDay + RegOffset)
  let AlarmRegTemp := AlarmRegTemp &&& 0x8F
  let AlarmRegTemp := AlarmRegTemp ||| 0x10
  let b := (writeByte b (Regs.WeekDay + RegOffset) AlarmRegTemp).2
  let MinuteOffset := offsetBCD Offset
  let b := (writeByte b (Regs.Minutes + RegOffset) MinuteOffset).2
  let r := enableAlarm b true AlarmVal
  let b := (clearAlarm r.2 AlarmVal).2
  (r.1, b)

/-- `int MCP79412::setDayAlarm(unsigned int Offset, bool AlarmVal)`: alarm once a day,
at the given hour. -/
def setDayAlarm (b : Bus) (Offset : Nat) (AlarmVal : Bool) : Int × Bus :=
  let Offset := Offset % 4294967296
  let RegOffset := if AlarmVal then AlarmOffset + BlockOffset else BlockOffset
  let b := (enableAlarm b false AlarmVal).2
  let AlarmRegTemp := readByte b (Regs.WeekDay + RegOffset)
  let AlarmRegTemp := AlarmRegTemp &&& 0x8F
  let AlarmRegTemp := AlarmRegTemp ||| 0x20
  let b := (writeByte b (Regs.WeekDay + RegOffset) AlarmRegTemp).2
  let HourOffset := offsetBCD Offset
  let b := (writeByte b (Regs.Hours + RegOffset) HourOffset).2
  let r := enableAlarm b true AlarmVal
  let b := (clearAlarm r.2 AlarmVal).2
  (r.1, b)

/-- Register offset of an alarm slot: `BlockOffset` for ALM0, `AlarmOffset + BlockOffset`
for ALM1 (the local `RegOffset` of the alarm functions). -/
def slotOffset (AlarmVal : Bool) : Nat :=
  if AlarmVal then AlarmOffset + BlockOffset else BlockOffset

/-! ## Day of year of `getTime` (format `Stardate`) -/

/-- The leap-year test of `getTime`, `t.year % 4 == 0`. -/
def stardateLeap (year : Nat) : Bool := year % 4 == 0

/-- The local table `int MonthDay[13]` of `getTime`, after the adjustment
`if (t.year % 4 == 0) MonthDay[2] = 29`. -/
def stardateMonthDay (year : Nat) : List Int :=
  [0, 31, if stardateLeap year then 29 else 28, 31, 30, 31, 30, 31, 31, 30, 31, 30, 31]

/-- The loop `for(int m = 1; m < t.month; m++) DayOfYear += MonthDay[m]` of `getTime`:
`k` iterations remain, `m` is the loop index; `none` when the table is indexed outside
its 13 entries. -/
def dayOfYearLoop (tbl : List Int) : Nat → Nat → Int → Option Int
  | 0, _, DayOfYear => some DayOfYear
  | k + 1, m, DayOfYear =>
    match tableAt tbl (m : Int) with
    | none => none
    | some len => dayOfYearLoop tbl k (m + 1) (DayOfYear + len)

/-- The value `DayOfYear` printed by `getTime` in the format `Stardate`. -/
def stardateDayOfYear (t : Timestamp) : Option Int :=
  dayOfYearLoop (stardateMonthDay t.year) (t.month - 1) 1 (t.mday : Int)

/-! ## Error log: `throwErr` and `getErrorsArray` -/

/-- Capacity of the error buffer, `MAX_NUM_ERRORS`. -/
def MAX_NUM_ERRORS : Nat := 10

/-- The members `uint32_t errors[MAX_NUM_ERRORS]` and `uint8_t numErrors`. -/
structure ErrorLog where
  /-- Buffer slots; only the indices below `MAX_NUM_ERRORS` are slots of the array. -/
  errors : Nat → Nat
  /-- The `uint8_t` counter, used both as write cursor and as count. -/
  numErrors : Nat

/-- The log of a freshly constructed object: `errors = {0}`, `numErrors = 0`. -/
def ErrorLog.init : ErrorLog := { errors := fun _ => 0, numErrors := 0 }

/-- `int MCP79412::throwError(uint32_t error)` (named `throwErr` here, the source name
being a reserved word of Lean): the slot `numErrors % MAX_NUM_ERRORS` is written, the
`uint8_t` counter is incremented, and its new value is returned. -/
def throwErr (s : ErrorLog) (error : Nat) : Int × ErrorLog :=
  let idx := s.numErrors % MAX_NUM_ERRORS
  let numErrors := (s.numErrors + 1) % 256
  ((numErrors : Int),
   { errors := fun j => if j = idx then error % 4294967296 else s.errors j,
     numErrors := numErrors })

/-- The copy loop of `getErrorsArray`: `k` iterations remain, `i` is the loop index;
each iteration copies slot `i` to `errors_[i]` and clears the slot. -/
def copyLoop : Nat → Nat → (Nat → Nat) → (Nat → Nat) → (Nat → Nat) × (Nat → Nat)
  | 0, _, errors, errors_ => (errors, errors_)
  | k + 1, i, errors, errors_ =>
    copyLoop k (i + 1) (fun j => if j = i then 0 else errors j)
      (fun j => if j = i then errors i else errors_ j)

/-- `uint8_t MCP79412::getErrorsArray(uint32_t errors_[])`: returns the count before
the drain, the new log and the caller's array after the copy. -/
def getErrorsArray (s : ErrorLog) (errors_ : Nat → Nat) : Nat × ErrorLog × (Nat → Nat) :=
  let r := copyLoop (min MAX_NUM_ERRORS s.numErrors) 0 s.errors errors_
  let numErrorsCurrent := s.numErrors % 256
  (numErrorsCurrent, { errors := r.1, numErrors := 0 }, r.2)

/-- The log after recording the codes of `cs` one after the other with `throwErr`. -/
def throwAll (s : ErrorLog) (cs : List Nat) : ErrorLog :=
  cs.foldl (fun s c => (throwErr s c).2) s

/-- One call on the error log: `throwError(code)` or `getErrorsArray`. -/
inductive LogOp where
  /-- A call `throwError(code)`. -/
  | record (code : Nat)
  /-- A call `getErrorsArray(out)`. -/
  | drain
deriving DecidableEq, Repr

/-- The log after one call.  The log left by `getErrorsArray` does not depend on the
caller's array. -/
def applyOp (s : ErrorLog) : LogOp → ErrorLog
  | LogOp.record code => (throwErr s code).2
  | LogOp.drain => (getErrorsArray s (fun _ => 0)).2.1

/-- The log after a sequence of calls. -/
def runOps (s : ErrorLog) (ops : List LogOp) : ErrorLog :=
  ops.foldl applyOp s

/-- A sequence of calls in which, counting from `n` recorded codes already pending, no
more than 255 codes are pending at any time. -/
def pacedFrom : Nat → List LogOp → Prop
  | _, [] => True
  | n, LogOp.record _ :: rest => n + 1 ≤ 255 ∧ pacedFrom (n + 1) rest
  | _, LogOp.drain :: rest => pacedFrom 0 rest

/-- The bits `i < 8` of `w` other than `p` and `q` are those of `v`. -/
def sameBitsExcept (p q : Nat) (v w : Nat) : Prop :=
  ∀ i, i < 8 → i ≠ p → i ≠ q → w.testBit i = v.testBit i

instance pacedFromDecidable : (n : Nat) → (ops : List LogOp) → Decidable (pacedFrom n ops)
  | _, [] => isTrue trivial
  | n, LogOp.record _ :: rest =>
    have := pacedFromDecidable (n + 1) rest
    inferInstanceAs (Decidable (n + 1 ≤ 255 ∧ pacedFrom (n + 1) rest))
  | _, LogOp.drain :: rest =>
    have := pacedFromDecidable 0 rest
    inferInstanceAs (Decidable (pacedFrom 0 rest))

/-- Frame of an operation on alarm slot `n` taking the device from `b` to `c`: the time
registers 0x00..0x06 and the six registers of the other slot are unchanged, and the
control register differs at most in bit 6 and in the enable bit `4 + n` of the slot. -/
def slotFrame (n : Bool) (b c : Bus) : Prop :=
  (∀ r, r < 7 → c.regs r = b.regs r) ∧
  (∀ r, Regs.Seconds + slotOffset (!n) ≤ r → r ≤ Regs.Month + slotOffset (!n) →
    c.regs r = b.regs r) ∧
  sameBitsExcept 6 (4 + n.toNat) (readByte b Control) (readByte c Control)

/-- The match mask (bits 6..4) of the weekday alarm register of slot `n` in `c` is
`mask`, and bit 7 of that register is as in `b`. -/
def maskConfigured (mask : Nat) (n : Bool) (b c : Bus) : Prop :=
  (readByte c (Regs.WeekDay + slotOffset n) >>> 4) &&& 7 = mask ∧
  (readByte c (Regs.WeekDay + slotOffset n)).testBit 7
    = (readByte b (Regs.WeekDay + slotOffset n)).testBit 7

/-- Alarm slot `n` is armed in `c`: its enable bit `4 + n` of the control register is
set, the square-wave bit 6 is clear, and the triggered flag (bit 3 of the weekday alarm
register of the slot) is clear, so that `readAlarm` gives `false`. -/
def armed (n : Bool) (c : Bus) : Prop :=
  (readByte c Control).testBit (4 + n.toNat) = true ∧
  (readByte c Control).testBit 6 = false ∧
  (readByte c (Regs.WeekDay + slotOffset n)).testBit 3 = false ∧
  readAlarm c n = false

/-! ## Initialization: `begin` and `startOsc` -/

/-- Error code `NONREAL_TIME` of the header. -/
def NONREAL_TIME : Nat := 0x500101F5

/-- Error code `ANCIENT_TIME` of the header. -/
def ANCIENT_TIME : Nat := 0x500201F5

/-- `bool MCP79412::startOsc()`: the oscillator status read back and the new bus state. -/
def startOsc (b : Bus) : Bool × Bus :=
  let ControlTemp := readByte b Control
  let ControlTemp := ControlTemp &&& 0xF7
  let SecTemp := readByte b Regs.Seconds
  let SecTemp := (SecTemp ||| 0x80) % 256
  let b := (writeByte b Control ControlTemp).2
  let b := (writeByte b Regs.Seconds SecTemp).2
  (readBit b Regs.WeekDay 5, b)

/-- The overload `int MCP79412::setTime(int Year, int Month, int Day, int Hour, int Min,
int Sec)`, which passes 0 as the day of the week. -/
def setTimeNoDoW (b : Bus) (Year Month Day Hour Min Sec : Int) : Int × Bus :=
  setTime b Year Month Day 0 Hour Min Sec

/-- `int MCP79412::begin(bool UseExtOsc)` on the bus and the error log of the object:
the value returned, the new bus state and the new log.  The error code
`RTC_POWER_LOSS`, which the sources at hand do not declare, is a parameter. -/
def begin (RTC_POWER_LOSS : Nat) (b : Bus) (log : ErrorLog) (UseExtOsc : Bool) :
    Int × Bus × ErrorLog :=
  let initTime := getRawTime b
  let log := if initTime.year < 2022 then (throwErr log ANCIENT_TIME).2 else log
  let nonReal : Bool := initTime.year == 2000 || initTime.month == 0 || initTime.mday == 0
  let log := if nonReal then (throwErr log NONREAL_TIME).2 else log
  let b := if nonReal then (setTimeNoDoW b 2001 1 1 0 0 0).2 else b
  let log := if readBit b Regs.WeekDay 3 = false then (throwErr log RTC_POWER_LOSS).2 else log
  let b := (setBit b Regs.WeekDay 3).2
  let b := (writeByte b Control 0x00).2
  let b := (writeByte b (Control + 1) 0x00).2
  if UseExtOsc = false then
    let r := startOsc b
    ((if r.1 then 1 else 0), r.2, log)
  else
    let b := (clearBit b 0 7).2
    let r := setBit b Control 3
    ((if r.1 = 0 then 1 else 0), r.2, log)

/-- The codes `begin` records, in the order of its `throwError` calls, for the time
read at entry and the power-loss test. -/
def beginCodes (RTC_POWER_LOSS : Nat) (initTime : Timestamp) (powerLost : Bool) : List Nat :=
  (if initTime.year < 2022 then [ANCIENT_TIME] else []) ++
  (if initTime.year = 2000 ∨ initTime.month = 0 ∨ initTime.mday = 0 then [NONREAL_TIME] else []) ++
  (if powerLost then [RTC_POWER_LOSS] else [])

/-! ## Parts of the delta in `setAlarm` -/

/-- The local array `int AlarmVal[7]` of `setAlarm` (source line 444), computed in
`unsigned int` from `Delta`. -/
def AlarmVal (Delta : Nat) : List Int :=
  [((Delta % 60 : Nat) : Int),
   ((((Delta - (Delta % 60)) / 60) % 60 : Nat) : Int),
   ((((Delta - (Delta % 3600)) / 3600) % 24 : Nat) : Int),
   (((Delta - (Delta % 86400)) / 86400 : Nat) : Int),
   (((Delta - (Delta % 86400)) / 86400 : Nat) : Int),
   0, 0]

/-! ## Julian epoch conversion: `cstToUnix` -/

/-- Conversion of an integer value to `unsigned long` (32 bits on the target). -/
def toULong (x : Int) : Int := x % 4294967296

/-- `time_t MCP79412::cstToUnix(int year, int month, int day, int hour, int minute, int second)`.
`unixDate` is an `unsigned long`, and the returned expression is computed in
`unsigned long`; the result is the value of that expression (a `time_t` at least as
wide as `unsigned long` keeps it). -/
def cstToUnix (year month day hour minute second : Int) : Int :=
  let unixDate : Int :=
    toULong (day - 32075 + (1461 * (year + 4800 + (month - 14).tdiv 12)).tdiv 4
      + (367 * (month - 2 - (month - 14).tdiv 12 * 12)).tdiv 12
      - (3 * ((year + 4900 + (month - 14).tdiv 12).tdiv 100)).tdiv 4 - 2440588)
  toULong (unixDate * 86400 + hour * 3600 + minute * 60 + second)

/-! ## Reference definitions (calendar facts the code is compared with) -/

/-- Gregorian leap-year rule. -/
def isLeapYear (year : Nat) : Bool :=
  year % 4 = 0 ∧ (year % 100 ≠ 0 ∨ year % 400 = 0)

/-- Gregorian month lengths. -/
def daysInMonth (month : Nat) (leap : Bool) : Nat :=
  match month with
  | 1 => 31
  | 2 => if leap then 29 else 28
  | 3 => 31
  | 4 => 30
  | 5 => 31
  | 6 => 30
  | 7 => 31
  | 8 => 31
  | 9 => 30
  | 10 => 31
  | 11 => 30
  | 12 => 31
  | _ => 0

/-- Number of days of a year. -/
def daysInYear (year : Nat) : Nat := if isLeapYear year then 366 else 365

/-- Number of days from 1970-01-01 to January 1 of `year`, counted year by year. -/
def daysBeforeYear : Nat → Nat
  | 0 => 0
  | y + 1 => if 1970 ≤ y then daysBeforeYear y + daysInYear y else 0

/-- Number of days from January 1 to the first day of `month`, counted month by month. -/
def daysBeforeMonth (leap : Bool) : Nat → Nat
  | 0 => 0
  | m + 1 => if 1 ≤ m then daysBeforeMonth leap m + daysInMonth m leap else 0

/-- Number of days from 1970-01-01 to the date `year`-`month`-`day`. -/
def daysFromEpoch (year month day : Nat) : Nat :=
  daysBeforeYear year + daysBeforeMonth (isLeapYear year) month + (day - 1)

/-- A date of the Gregorian calendar. -/
def validDate (year month day : Nat) : Prop :=
  1 ≤ month ∧ month ≤ 12 ∧ 1 ≤ day ∧ day ≤ daysInMonth month (isLeapYear year)

instance (year month day : Nat) : Decidable (validDate year month day) := by
  unfold validDate; infer_instance

/-- The Unix time of a calendar instant, from the day count. -/
def unixTime (year month day hour minute second : Nat) : Nat :=
  86400 * daysFromEpoch year month day + hour * 3600 + minute * 60 + second

/-- A calendar instant given by six fields, the arguments of `cstToUnix`. -/
structure CivilTime where
  /-- Year. -/
  year : Nat
  /-- Month, 1-12. -/
  month : Nat
  /-- Day of the month. -/
  day : Nat
  /-- Hour, 0-23. -/
  hour : Nat
  /-- Minute, 0-59. -/
  minute : Nat
  /-- Second, 0-59. -/
  second : Nat
deriving DecidableEq, Repr

/-- A valid timestamp from year 2000 onward. -/
def CivilTime.valid (c : CivilTime) : Prop :=
  2000 ≤ c.year ∧ validDate c.year c.month c.day ∧ c.hour ≤ 23 ∧ c.minute ≤ 59 ∧ c.second ≤ 59

instance (c : CivilTime) : Decidable c.valid := by
  unfold CivilTime.valid; infer_instance

/-- The result of `cstToUnix` on the six fields of `c`. -/
def CivilTime.cst (c : CivilTime) : Int :=
  cstToUnix c.year c.month c.day c.hour c.minute c.second

/-- The Unix time of `c`, from the day count. -/
def CivilTime.unix (c : CivilTime) : Nat :=
  unixTime c.year c.month c.day c.hour c.minute c.second

/-- The instants `a` and `b` differ in exactly one field, which is larger in `b`. -/
def increasedInOneField (a b : CivilTime) : Prop :=
  (a.year < b.year ∧ a.month = b.month ∧ a.day = b.day ∧ a.hour = b.hour ∧
    a.minute = b.minute ∧ a.second = b.second) ∨
  (a.year = b.year ∧ a.month < b.month ∧ a.day = b.day ∧ a.hour = b.hour ∧
    a.minute = b.minute ∧ a.second = b.second) ∨
  (a.year = b.year ∧ a.month = b.month ∧ a.day < b.day ∧ a.hour = b.hour ∧
    a.minute = b.minute ∧ a.second = b.second) ∨
  (a.year = b.year ∧ a.month = b.month ∧ a.day = b.day ∧ a.hour < b.hour ∧
    a.minute = b.minute ∧ a.second = b.second) ∨
  (a.year = b.year ∧ a.month = b.month ∧ a.day = b.day ∧ a.hour = b.hour ∧
    a.minute < b.minute ∧ a.second = b.second) ∨
  (a.year = b.year ∧ a.month = b.month ∧ a.day = b.day ∧ a.hour = b.hour ∧
    a.minute = b.minute ∧ a.second < b.second)

instance (a b : CivilTime) : Decidable (increasedInOneField a b) := by
  unfold increasedInOneField; infer_instance

/-- A valid Timestamp: a Gregorian date from year 2000 onward, day-of-week in 1..7 and
a time of day. -/
def Timestamp.valid (t : Timestamp) : Prop :=
  2000 ≤ t.year ∧ validDate t.year t.month t.mday ∧ 1 ≤ t.wday ∧ t.wday ≤ 7 ∧
  t.hour ≤ 23 ∧ t.min ≤ 59 ∧ t.sec ≤ 59

instance (t : Timestamp) : Decidable t.valid := by
  unfold Timestamp.valid; infer_instance

/-- The calendar day after the day of `t` (date and day-of-week), time of day kept. -/
def nextDay (t : Timestamp) : Timestamp :=
  let wday := t.wday % 7 + 1
  if t.mday < daysInMonth t.month (isLeapYear t.year) then
    { t with mday := t.mday + 1, wday := wday }
  else if t.month < 12 then
    { t with month := t.month + 1, mday := 1, wday := wday }
  else
    { t with year := t.year + 1, month := 1, mday := 1, wday := wday }

/-- The calendar instant `delta` seconds after `t`: the seconds are added to the time
of day and every full day carried is one step of `nextDay`. -/
def civilAdd (t : Timestamp) (delta : Nat) : Timestamp :=
  let total := t.hour * 3600 + t.min * 60 + t.sec + delta
  let d := Nat.iterate nextDay (total / 86400) t
  { d with hour := total % 86400 / 3600, min := total % 3600 / 60, sec := total % 60 }

/-- The day of the week `k` days after the day of the week `w` (1..7). -/
def weekdayAfter (w : Nat) : Nat → Nat
  | 0 => w
  | k + 1 => weekdayAfter w k % 7 + 1

/-- Day of the year of a date: the lengths of the months before it, plus the day of the
month. -/
def dayOfYear (year month day : Nat) : Nat :=
  daysBeforeMonth (isLeapYear year) month + day

/-- The date `month1`-`day1` precedes the date `month2`-`day2` in a year. -/
def dateBefore (month1 day1 month2 day2 : Nat) : Prop :=
  month1 < month2 ∨ (month1 = month2 ∧ day1 < day2)

instance (month1 day1 month2 day2 : Nat) : Decidable (dateBefore month1 day1 month2 day2) := by
  unfold dateBefore; infer_instance

/-! ## Time-field bits of the time registers -/

/-- The bytes `v` and `w` have the same bits below position `k`. -/
def agreeBelow (k : Nat) (v w : Nat) : Prop :=
  ∀ i, i < k → w.testBit i = v.testBit i

instance (k v w : Nat) : Decidable (agreeBelow k v w) := by
  unfold agreeBelow; infer_instance

/-- The time registers of `b` and `c` hold the same time-field bits: they differ at most
in bit 7 of seconds, bit 7 of minutes, bits 7..6 of hours, bits 7..3 of weekday,
bits 7..6 of date and bits 7..5 of month. -/
def sameTimeBits (b c : Bus) : Prop :=
  agreeBelow 7 (readByte b Regs.Seconds) (readByte c Regs.Seconds) ∧
  agreeBelow 7 (readByte b Regs.Minutes) (readByte c Regs.Minutes) ∧
  agreeBelow 6 (readByte b Regs.Hours) (readByte c Regs.Hours) ∧
  agreeBelow 3 (readByte b Regs.WeekDay) (readByte c Regs.WeekDay) ∧
  agreeBelow 6 (readByte b Regs.Date) (readByte c Regs.Date) ∧
  agreeBelow 5 (readByte b Regs.Month) (readByte c Regs.Month) ∧
  agreeBelow 8 (readByte b Regs.Year) (readByte c Regs.Year)

instance (b c : Bus) : Decidable (sameTimeBits b c) := by
  unfold sameTimeBits; infer_instance

/-- The decoding of a packed field as the specification words it: the units nibble plus
ten times the tens bits, masked to `tensBitWidth` bits. -/
def decode (byte : Nat) (tensBitWidth : Nat) : Nat :=
  ((byte >>> 4) &&& (2 ^ tensBitWidth - 1)) * 10 + (byte &&& 0x0F)

/-! ## Carries of the alarm-time computation -/

/-- Carry out of the seconds in `setAlarm`: `AlarmTime[0] + AlarmVal[0] >= 60`. -/
def secCarry (t : Timestamp) (Delta : Nat) : Nat :=
  if 60 ≤ t.sec + Delta % 60 then 1 else 0

/-- Carry out of the minutes in `setAlarm`: `AlarmTime[1] + AlarmVal[1] + CarryIn >= 60`. -/
def minCarry (t : Timestamp) (Delta : Nat) : Nat :=
  if 60 ≤ t.min + (Delta - Delta % 60) / 60 % 60 + secCarry t Delta then 1 else 0

/-- Carry out of the hours in `setAlarm`, passed to the day-of-week and day-of-month
steps: `AlarmTime[2] + AlarmVal[2] + CarryIn >= 24`. -/
def hourCarry (t : Timestamp) (Delta : Nat) : Nat :=
  if 24 ≤ t.hour + (Delta - Delta % 3600) / 3600 % 24 + minCarry t Delta then 1 else 0

/-! ## Round trip of the time registers -/

theorem range7 : List.range 7 = [0, 1, 2, 3, 4, 5, 6] := by decide

theorem roundtrip_sec : ∀ v : Nat, v < 60 → ∀ st : Bool,
    decodeField 0 (toU8 (if st = true then (packBCD v).lor 128 else packBCD v) % 256 % 256)
      % 256 = v := by
  decide

theorem roundtrip_min : ∀ v : Nat, v < 60 →
    decodeField 1 (toU8 (packBCD v) % 256 % 256) % 256 = v := by
  decide

theorem roundtrip_hour : ∀ v : Nat, v < 24 →
    decodeField 2 (toU8 (packBCD v) % 256 % 256) % 256 = v := by
  decide

set_option maxRecDepth 100000 in
theorem roundtrip_wday : ∀ o : Nat, o < 256 → ∀ d : Nat, d < 8 →
    decodeField 3 (toU8 ((toU8 ((((o &&& 248 : Nat)) : Int).lor ((d : Int).land 7)) : Nat) : Int)
      % 256 % 256) % 256 = d := by
  decide

theorem roundtrip_mday : ∀ v : Nat, v < 32 →
    decodeField 4 (toU8 (packBCD v) % 256 % 256) % 256 = v := by
  decide

theorem roundtrip_month : ∀ v : Nat, v < 13 →
    decodeField 5 (toU8 (packBCD v) % 256 % 256) % 256 = v := by
  decide

theorem roundtrip_year : ∀ v : Nat, v < 100 →
    (decodeField 6 (toU8 (packBCD v) % 256 % 256) + 2000) % 65536 = v + 2000 := by
  decide

/-- Registers of the time block after `setTime`, read back by `getRawTime`, when every
write transaction succeeds: the seven decoded fields as functions of the arguments. -/
theorem getRawTime_setTime (b : Bus) (hb : b.allOk) (Year Month Day DoW Hour Min Sec : Int) :
    getRawTime (setTime b Year Month Day DoW Hour Min Sec).2 =
      { year := (decodeField 6
            (toU8 (packBCD (if Year > 999 then Year - 2000 else Year)) % 256 % 256) + 2000)
            % 65536,
        month := decodeField 5 (toU8 (packBCD Month) % 256 % 256) % 256,
        mday := decodeField 4 (toU8 (packBCD Day) % 256 % 256) % 256,
        wday := decodeField 3 (toU8 ((toU8 ((((b.regs 3 % 256 &&& 248 : Nat)) : Int).lor
            (DoW.land 7)) : Nat) : Int) % 256 % 256) % 256,
        hour := decodeField 2 (toU8 (packBCD Hour) % 256 % 256) % 256,
        min := decodeField 1 (toU8 (packBCD Min) % 256 % 256) % 256,
        sec := decodeField 0 (toU8 (if readBit b 0 7 = true then (packBCD Sec).lor 128
            else packBCD Sec) % 256 % 256) % 256 } := by
  have h0 : ∀ k, b.status k = 0 := hb
  simp only [getRawTime, setTime, range7, List.foldl, setTimeStep, writeByte, h0, if_true,
    readByte, Regs.WeekDay]
  simp only [Nat.reduceEqDiff, if_true, if_false, OfNat.ofNat_ne_zero, OfNat.zero_ne_ofNat,
    OfNat.ofNat_ne_one, OfNat.one_ne_ofNat, false_and, true_and, List.getD_cons_succ,
    List.getD_cons_zero]

/-- The error value of `setTime` is 0 when every write transaction succeeds. -/
theorem setTime_status_ok (b : Bus) (hb : b.allOk) (Year Month Day DoW Hour Min Sec : Int) :
    (setTime b Year Month Day DoW Hour Min Sec).1 = 0 := by
  have h0 : ∀ k, b.status k = 0 := hb
  simp [setTime, range7, List.foldl, setTimeStep, writeByte, h0]

/-- C1. BCD round trip through the time registers: for every year in 2000..2099, month
in 1..12, day in 1..31, day-of-week in 1..7, hour in 0..23, minute in 0..59 and second
in 0..59, and every prior content of the device registers, when all bus transfers
succeed `setTime` returns 0 and a following `getRawTime` returns a Timestamp with
exactly those seven values. -/
theorem setTime_getRawTime_roundtrip (b : Bus) (hb : b.allOk)
    (year month day dow hour min sec : Nat)
    (hy : 2000 ≤ year ∧ year ≤ 2099) (hm : 1 ≤ month ∧ month ≤ 12)
    (hd : 1 ≤ day ∧ day ≤ 31) (hw : 1 ≤ dow ∧ dow ≤ 7)
    (hh : hour ≤ 23) (hmi : min ≤ 59) (hs : sec ≤ 59) :
    (setTime b year month day dow hour min sec).1 = 0 ∧
    getRawTime (setTime b year month day dow hour min sec).2 =
      { year := year, month := month, mday := day, wday := dow,
        hour := hour, min := min, sec := sec } := by
  refine ⟨setTime_status_ok b hb _ _ _ _ _ _ _, ?_⟩
  rw [getRawTime_setTime b hb]
  have hyear : (if (year : Int) > 999 then (year : Int) - 2000 else (year : Int))
      = ((year - 2000 : Nat) : Int) := by
    rw [if_pos (by omega)]; omega
  rw [hyear, roundtrip_year (year - 2000) (by omega), roundtrip_month month (by omega),
    roundtrip_mday day (by omega),
    roundtrip_wday (b.regs 3 % 256) (Nat.mod_lt _ (by decide)) dow (by omega),
    roundtrip_hour hour (by omega), roundtrip_min min (by omega),
    roundtrip_sec sec (by omega) (readBit b 0 7)]
  have : year - 2000 + 2000 = year := by omega
  rw [this]

/-- C1, at a concrete input: on a device whose registers all hold 0xFF, setting
2024-01-31 (day-of-week 3) 23:59:50 and reading back gives the same seven values. -/
theorem setTime_getRawTime_roundtrip_witness :
    (setTime { regs := fun _ => 0xFF, nWrites := 0, status := fun _ => 0 }
        ((2024 : Nat) : Int) ((1 : Nat) : Int) ((31 : Nat) : Int) ((3 : Nat) : Int)
        ((23 : Nat) : Int) ((59 : Nat) : Int) ((50 : Nat) : Int)).1 = 0 ∧
    getRawTime (setTime { regs := fun _ => 0xFF, nWrites := 0, status := fun _ => 0 }
        ((2024 : Nat) : Int) ((1 : Nat) : Int) ((31 : Nat) : Int) ((3 : Nat) : Int)
        ((23 : Nat) : Int) ((59 : Nat) : Int) ((50 : Nat) : Int)).2 =
      { year := 2024, month := 1, mday := 31, wday := 3, hour := 23, min := 59, sec := 50 } :=
  setTime_getRawTime_roundtrip { regs := fun _ => 0xFF, nWrites := 0, status := fun _ => 0 }
    (fun _ => rfl) 2024 1 31 3 23 59 50 (by decide) (by decide) (by decide) (by decide)
    (by decide) (by decide) (by decide)

/-! ## Julian epoch conversion -/

theorem isLeapYear_iff (y : Nat) :
    isLeapYear y = true ↔ (y % 4 = 0 ∧ (y % 100 ≠ 0 ∨ y % 400 = 0)) := by
  simp [isLeapYear]

theorem daysBeforeYear_succ (y : Nat) (h : 1970 ≤ y) :
    daysBeforeYear (y + 1) = daysBeforeYear y + daysInYear y := by
  simp [daysBeforeYear, h]

theorem daysBeforeYear_closed (y : Nat) (h : 1970 ≤ y) :
    daysBeforeYear y + 477 + (y - 1) / 100 = 365 * (y - 1970) + (y - 1) / 4 + (y - 1) / 400 := by
  induction y, h using Nat.le_induction with
  | base => decide
  | succ n hn ih =>
    rw [daysBeforeYear_succ n hn]
    unfold daysInYear
    by_cases hl : isLeapYear n = true
    · rw [if_pos hl]
      rw [isLeapYear_iff] at hl
      omega
    · rw [if_neg hl]
      rw [isLeapYear_iff] at hl
      omega

theorem tdiv_month (m : Nat) (h1 : 1 ≤ m) (h2 : m ≤ 12) :
    ((m : Int) - 14).tdiv 12 = if m ≤ 2 then -1 else 0 := by
  interval_cases m <;> decide

theorem daysBeforeMonth_common :
    daysBeforeMonth false 1 = 0 ∧ daysBeforeMonth false 2 = 31 ∧
    daysBeforeMonth false 3 = 59 ∧ daysBeforeMonth false 4 = 90 ∧
    daysBeforeMonth false 5 = 120 ∧ daysBeforeMonth false 6 = 151 ∧
    daysBeforeMonth false 7 = 181 ∧ daysBeforeMonth false 8 = 212 ∧
    daysBeforeMonth false 9 = 243 ∧ daysBeforeMonth false 10 = 273 ∧
    daysBeforeMonth false 11 = 304 ∧ daysBeforeMonth false 12 = 334 := by
  decide

theorem daysBeforeMonth_leap :
    daysBeforeMonth true 1 = 0 ∧ daysBeforeMonth true 2 = 31 ∧
    daysBeforeMonth true 3 = 60 ∧ daysBeforeMonth true 4 = 91 ∧
    daysBeforeMonth true 5 = 121 ∧ daysBeforeMonth true 6 = 152 ∧
    daysBeforeMonth true 7 = 182 ∧ daysBeforeMonth true 8 = 213 ∧
    daysBeforeMonth true 9 = 244 ∧ daysBeforeMonth true 10 = 274 ∧
    daysBeforeMonth true 11 = 305 ∧ daysBeforeMonth true 12 = 335 := by
  decide

/-- On the values met for a calendar date, the truncating divisions of the day-number
formula are floor divisions. -/
theorem julian_tdiv (y : Nat) (d c mm : Int) (hc : c = -1 ∨ c = 0) (hmm : 0 ≤ mm) :
    d - 32075 + (1461 * ((y : Int) + 4800 + c)).tdiv 4 + (367 * mm).tdiv 12
      - (3 * (((y : Int) + 4900 + c).tdiv 100)).tdiv 4 - 2440588
    = d - 32075 + (1461 * ((y : Int) + 4800 + c)) / 4 + (367 * mm) / 12
      - (3 * (((y : Int) + 4900 + c) / 100)) / 4 - 2440588 := by
  have e1 : (1461 * ((y : Int) + 4800 + c)).tdiv 4 = (1461 * ((y : Int) + 4800 + c)) / 4 :=
    Int.tdiv_eq_ediv (by omega) (by omega)
  have e2 : (367 * mm).tdiv 12 = (367 * mm) / 12 := Int.tdiv_eq_ediv (by omega) (by omega)
  have e3 : ((y : Int) + 4900 + c).tdiv 100 = ((y : Int) + 4900 + c) / 100 :=
    Int.tdiv_eq_ediv (by omega) (by omega)
  have e4 : (3 * (((y : Int) + 4900 + c) / 100)).tdiv 4 = (3 * (((y : Int) + 4900 + c) / 100)) / 4 :=
    Int.tdiv_eq_ediv (by omega) (by omega)
  rw [e1, e2, e3, e4]


theorem julian_year_terms (n : Nat) (Y : Int) (hY : Y = (n : Int)) :
    1461 * (Y + 4800) / 4 - 3 * ((Y + 4900) / 100) / 4
      = 365 * Y + (Y / 4 - Y / 100 + Y / 400) + 1753164 := by
  have h1 : 1461 * (Y + 4800) / 4 = 365 * Y + Y / 4 + 1753200 := by omega
  have h2 : (Y + 4900) / 100 = Y / 100 + 49 := by omega
  have h3 : Y / 100 / 4 = Y / 400 := by
    rw [hY]; exact_mod_cast Nat.div_div_eq_div_mul n 100 4
  have h4 : 3 * (Y / 100 + 49) / 4 = Y / 100 - Y / 100 / 4 + 36 := by omega
  rw [h1, h2, h4, h3]
  omega

theorem leap_count_step (y : Nat) :
    (y : Int) / 4 - (y : Int) / 100 + (y : Int) / 400
      = ((y : Int) - 1) / 4 - ((y : Int) - 1) / 100 + ((y : Int) - 1) / 400
        + (if isLeapYear y = true then 1 else 0) := by
  have b1 : (y : Int) / 4 = ((y : Int) - 1) / 4 + (if (y : Int) % 4 = 0 then 1 else 0) := by
    split <;> omega
  have b2 : (y : Int) / 100 = ((y : Int) - 1) / 100 + (if (y : Int) % 100 = 0 then 1 else 0) := by
    split <;> omega
  have b3 : (y : Int) / 400 = ((y : Int) - 1) / 400 + (if (y : Int) % 400 = 0 then 1 else 0) := by
    split <;> omega
  have a1 : (y : Int) % 100 = 0 → (y : Int) % 4 = 0 := by omega
  have a2 : (y : Int) % 400 = 0 → (y : Int) % 100 = 0 := by omega
  rw [b1, b2, b3]
  by_cases hl : isLeapYear y = true
  · rw [if_pos hl]
    rw [isLeapYear_iff] at hl
    split_ifs <;> omega
  · rw [if_neg hl]
    rw [isLeapYear_iff] at hl
    split_ifs <;> omega

theorem daysBeforeYear_int (y : Nat) (h : 1970 ≤ y) :
    (daysBeforeYear y : Int) = 365 * ((y : Int) - 1970)
      + (((y : Int) - 1) / 4 - ((y : Int) - 1) / 100 + ((y : Int) - 1) / 400) - 477 := by
  have hc := daysBeforeYear_closed y h
  omega

theorem julian_days (y m d : Nat) (hy : 1970 ≤ y) (hv : validDate y m d) :
    ((d : Int) - 32075 + (1461 * ((y : Int) + 4800 + ((m : Int) - 14).tdiv 12)).tdiv 4
      + (367 * ((m : Int) - 2 - ((m : Int) - 14).tdiv 12 * 12)).tdiv 12
      - (3 * (((y : Int) + 4900 + ((m : Int) - 14).tdiv 12).tdiv 100)).tdiv 4 - 2440588)
    = (daysFromEpoch y m d : Int) := by
  obtain ⟨hm1, hm2, hd1, hd2⟩ := hv
  have hc := daysBeforeYear_int y hy
  have hs := leap_count_step y
  obtain ⟨t1, t2, t3, t4, t5, t6, t7, t8, t9, t10, t11, t12⟩ := daysBeforeMonth_common
  obtain ⟨u1, u2, u3, u4, u5, u6, u7, u8, u9, u10, u11, u12⟩ := daysBeforeMonth_leap
  unfold daysFromEpoch
  rw [tdiv_month m hm1 hm2]
  rw [julian_tdiv y d _ _ (by split <;> simp) (by split <;> omega)]
  push_cast
  rw [hc]
  have hd : ((d - 1 : Nat) : Int) = (d : Int) - 1 := by omega
  rw [hd]
  by_cases hm : m ≤ 2
  · rw [if_pos hm]
    have hY := julian_year_terms (y - 1) ((y : Int) - 1) (by omega)
    have e1 : (y : Int) + 4800 + -1 = (y : Int) - 1 + 4800 := by ring
    have e2 : (y : Int) + 4900 + -1 = (y : Int) - 1 + 4900 := by ring
    rw [e1, e2]
    generalize 1461 * ((y : Int) - 1 + 4800) / 4 = A at hY ⊢
    generalize 3 * (((y : Int) - 1 + 4900) / 100) / 4 = B at hY ⊢
    generalize ((y : Int) - 1) / 4 = L4 at hY ⊢
    generalize ((y : Int) - 1) / 100 = L100 at hY ⊢
    generalize ((y : Int) - 1) / 400 = L400 at hY ⊢
    cases hl : isLeapYear y
    · interval_cases m <;>
        simp only [t1, t2, t3, t4, t5, t6, t7, t8, t9, t10, t11, t12] <;> omega
    · interval_cases m <;>
        simp only [u1, u2, u3, u4, u5, u6, u7, u8, u9, u10, u11, u12] <;> omega
  · rw [if_neg hm]
    have hY := julian_year_terms y (y : Int) rfl
    have e1 : (y : Int) + 4800 + 0 = (y : Int) + 4800 := by ring
    have e2 : (y : Int) + 4900 + 0 = (y : Int) + 4900 := by ring
    rw [e1, e2]
    generalize 1461 * ((y : Int) + 4800) / 4 = A at hY ⊢
    generalize 3 * (((y : Int) + 4900) / 100) / 4 = B at hY ⊢
    rw [hs] at hY
    generalize ((y : Int) - 1) / 4 = L4 at hY ⊢
    generalize ((y : Int) - 1) / 100 = L100 at hY ⊢
    generalize ((y : Int) - 1) / 400 = L400 at hY ⊢
    cases hl : isLeapYear y
    · rw [hl] at hY
      simp only [Bool.false_eq_true, if_false] at hY
      interval_cases m <;>
        simp only [t1, t2, t3, t4, t5, t6, t7, t8, t9, t10, t11, t12] <;> omega
    · rw [hl] at hY
      simp only [if_true] at hY
      interval_cases m <;>
        simp only [u1, u2, u3, u4, u5, u6, u7, u8, u9, u10, u11, u12] <;> omega

/-- For every valid date from 1970 onward, `cstToUnix` returns the Unix time of the
instant reduced modulo 2^32, the width of `unsigned long`. -/
theorem cstToUnix_mod (y m d h mi s : Nat) (hy : 1970 ≤ y) (hv : validDate y m d) :
    cstToUnix y m d h mi s = (unixTime y m d h mi s : Int) % 4294967296 := by
  unfold cstToUnix toULong unixTime
  rw [julian_days y m d hy hv]
  push_cast
  omega

/-- Years from 1970 on: a later year starts at least 365 days per year later. -/
theorem daysBeforeYear_mono (y y2 : Nat) (hy : 1970 ≤ y) (h : y ≤ y2) :
    daysBeforeYear y + 365 * (y2 - y) ≤ daysBeforeYear y2 := by
  induction y2, h using Nat.le_induction with
  | base => simp
  | succ n hn ih =>
    rw [daysBeforeYear_succ n (by omega)]
    have : 365 ≤ daysInYear n := by unfold daysInYear; split <;> omega
    omega

theorem daysBeforeMonth_mono : ∀ l l2 : Bool, ∀ m : Nat, m < 13 → ∀ m2 : Nat, m2 < 13 →
    1 ≤ m → m < m2 → daysBeforeMonth l m + 2 ≤ daysBeforeMonth l2 m2 := by
  decide

theorem daysBeforeMonth_bounds : ∀ l l2 : Bool, ∀ m : Nat, m < 13 →
    daysBeforeMonth l m ≤ daysBeforeMonth l2 m + 1 := by
  decide

theorem daysFromEpoch_2106_02_07 : daysFromEpoch 2106 2 7 = 49710 := by
  have h := daysBeforeYear_closed 2106 (by decide)
  have hl : isLeapYear 2106 = false := by decide
  unfold daysFromEpoch
  rw [hl, daysBeforeMonth_common.2.1]
  omega

/-- C3. Julian epoch anchors: `cstToUnix(1970,1,1,0,0,0)` is 0 and
`cstToUnix(2024,3,1,0,0,0)` is 1709251200, the Unix time of 2024-03-01T00:00:00Z, with
C integer division (truncation toward zero). -/
theorem cstToUnix_anchors :
    cstToUnix 1970 1 1 0 0 0 = 0 ∧ cstToUnix 2024 3 1 0 0 0 = 1709251200 := by
  decide

/-- C4 (amended). Julian conversion correctness: for every valid Gregorian date with
year >= 2000 and every hour in 0..23, minute in 0..59, second in 0..59 whose Unix time
is below 2^32 (every instant up to 2106-02-07 06:28:15), `cstToUnix` equals 86400 times
the number of days from 1970-01-01 to the date, plus hour*3600 + minute*60 + second. -/
theorem cstToUnix_correct (y m d h mi s : Nat) (hy : 2000 ≤ y) (hv : validDate y m d)
    (hh : h ≤ 23) (hmi : mi ≤ 59) (hs : s ≤ 59)
    (hr : 86400 * daysFromEpoch y m d + h * 3600 + mi * 60 + s < 4294967296) :
    cstToUnix y m d h mi s
      = ((86400 * daysFromEpoch y m d + h * 3600 + mi * 60 + s : Nat) : Int) := by
  rw [cstToUnix_mod y m d h mi s (by omega) hv]
  unfold unixTime
  omega

/-- C4, at a concrete input: 2024-02-29 23:59:59, the last second of a leap day. -/
theorem cstToUnix_correct_witness :
    cstToUnix ((2024 : Nat) : Int) ((2 : Nat) : Int) ((29 : Nat) : Int) ((23 : Nat) : Int)
        ((59 : Nat) : Int) ((59 : Nat) : Int)
      = ((86400 * daysFromEpoch 2024 2 29 + 23 * 3600 + 59 * 60 + 59 : Nat) : Int) :=
  cstToUnix_correct 2024 2 29 23 59 59 (by decide) (by decide) (by decide) (by decide)
    (by decide) (by decide)

/-- C4 as stated fails: 2106-02-07 06:28:16 is a valid Gregorian date and time with
year >= 2000, its Unix time is 2^32, and `cstToUnix` returns 0. -/
theorem cstToUnix_correct_counterexample :
    validDate 2106 2 7 ∧
    cstToUnix 2106 2 7 6 28 16 = 0 ∧
    ((86400 * daysFromEpoch 2106 2 7 + 6 * 3600 + 28 * 60 + 16 : Nat) : Int) = 4294967296 ∧
    cstToUnix 2106 2 7 6 28 16
      ≠ ((86400 * daysFromEpoch 2106 2 7 + 6 * 3600 + 28 * 60 + 16 : Nat) : Int) := by
  rw [daysFromEpoch_2106_02_07]
  decide

/-- The Unix time computed from the day count is strictly increasing in each field. -/
theorem unix_lt_of_increased (a b : CivilTime) (ha : a.valid) (hb : b.valid)
    (hinc : increasedInOneField a b) : a.unix < b.unix := by
  obtain ⟨hay, ⟨ham1, ham2, had1, had2⟩, hah, hami, has⟩ := ha
  obtain ⟨hby, ⟨hbm1, hbm2, hbd1, hbd2⟩, hbh, hbmi, hbs⟩ := hb
  unfold CivilTime.unix unixTime daysFromEpoch
  rcases hinc with h | h | h | h | h | h
  · obtain ⟨h1, h2, h3, h4, h5, h6⟩ := h
    have k1 := daysBeforeYear_mono a.year b.year (by omega) (by omega)
    have k2 := daysBeforeMonth_bounds (isLeapYear a.year) (isLeapYear b.year) a.month (by omega)
    rw [← h2, ← h3, ← h4, ← h5, ← h6]
    omega
  · obtain ⟨h1, h2, h3, h4, h5, h6⟩ := h
    have k := daysBeforeMonth_mono (isLeapYear a.year) (isLeapYear a.year) a.month (by omega)
      b.month (by omega) ham1 h2
    rw [← h1, ← h3, ← h4, ← h5, ← h6]
    omega
  · obtain ⟨h1, h2, h3, h4, h5, h6⟩ := h
    rw [← h1, ← h2, ← h4, ← h5, ← h6]
    omega
  · obtain ⟨h1, h2, h3, h4, h5, h6⟩ := h
    rw [← h1, ← h2, ← h3, ← h5, ← h6]
    omega
  · obtain ⟨h1, h2, h3, h4, h5, h6⟩ := h
    rw [← h1, ← h2, ← h3, ← h4, ← h6]
    omega
  · obtain ⟨h1, h2, h3, h4, h5, h6⟩ := h
    rw [← h1, ← h2, ← h3, ← h4, ← h5]
    omega

/-- C5 (amended). Julian conversion is monotonic below 2^32: for every pair of valid
timestamps (year >= 2000) that differ in exactly one of year, month, day, hour, minute,
second, when the Unix time of the one with the larger value in that field is below
2^32, that one has the strictly larger `cstToUnix` result. -/
theorem cstToUnix_strictMono (a b : CivilTime) (ha : a.valid) (hb : b.valid)
    (hinc : increasedInOneField a b) (hr : b.unix < 4294967296) : a.cst < b.cst := by
  have hlt := unix_lt_of_increased a b ha hb hinc
  have e1 := cstToUnix_mod a.year a.month a.day a.hour a.minute a.second
    (by have := ha.1; omega) ha.2.1
  have e2 := cstToUnix_mod b.year b.month b.day b.hour b.minute b.second
    (by have := hb.1; omega) hb.2.1
  unfold CivilTime.cst
  unfold CivilTime.unix at hlt hr
  rw [e1, e2]
  omega

/-- C5, at a concrete input: 2024-02-29 12:00:00 against 2024-03-29 12:00:00, which
differ in the month only. -/
theorem cstToUnix_strictMono_witness :
    CivilTime.cst { year := 2024, month := 2, day := 29, hour := 12, minute := 0, second := 0 }
      < CivilTime.cst
          { year := 2024, month := 3, day := 29, hour := 12, minute := 0, second := 0 } :=
  cstToUnix_strictMono
    { year := 2024, month := 2, day := 29, hour := 12, minute := 0, second := 0 }
    { year := 2024, month := 3, day := 29, hour := 12, minute := 0, second := 0 }
    (by decide) (by decide) (by decide) (by decide)

/-- C5 as stated fails: 2105-02-07 06:28:16 and 2106-02-07 06:28:16 are valid
timestamps that differ in the year only, and the later one has the smaller `cstToUnix`
result (0, the Unix time 2^32 reduced to `unsigned long`). -/
theorem cstToUnix_strictMono_counterexample :
    CivilTime.valid
      { year := 2105, month := 2, day := 7, hour := 6, minute := 28, second := 16 } ∧
    CivilTime.valid
      { year := 2106, month := 2, day := 7, hour := 6, minute := 28, second := 16 } ∧
    increasedInOneField
      { year := 2105, month := 2, day := 7, hour := 6, minute := 28, second := 16 }
      { year := 2106, month := 2, day := 7, hour := 6, minute := 28, second := 16 } ∧
    ¬ (CivilTime.cst
        { year := 2105, month := 2, day := 7, hour := 6, minute := 28, second := 16 }
      < CivilTime.cst
        { year := 2106, month := 2, day := 7, hour := 6, minute := 28, second := 16 }) := by
  decide

/-! ## Alarm-time computation -/

theorem tableAt_MonthDay (lpyr : Bool) (m : Nat) (h1 : 1 ≤ m) (h2 : m ≤ 12) :
    tableAt (MonthDay lpyr) (m : Int) = some ((daysInMonth m lpyr : Nat) : Int) := by
  interval_cases m <;> cases lpyr <;> rfl

theorem daysInMonth_bounds (lpyr : Bool) (m : Nat) (h1 : 1 ≤ m) (h2 : m ≤ 12) :
    28 ≤ daysInMonth m lpyr ∧ daysInMonth m lpyr ≤ 31 := by
  interval_cases m <;> cases lpyr <;> decide

/-- The array `AlarmTime` computed by `setAlarm`, field by field, with the four carries
named: `c1` out of the seconds, `c2` out of the minutes, `c3` out of the hours and `c4`
out of the day of the month. -/
theorem alarmTarget_fields_aux (t : Timestamp) (lpyr : Bool) (Delta : Nat)
    (hm1 : 1 ≤ t.month) (hm2 : t.month ≤ 12) (hw : 1 ≤ t.wday) (c1 c2 c3 c4 : Nat)
    (h1 : c1 = (if 60 ≤ t.sec + Delta % 60 then 1 else 0))
    (h2 : c2 = (if 60 ≤ t.min + Delta / 60 % 60 + c1 then 1 else 0))
    (h3 : c3 = (if 24 ≤ t.hour + Delta / 3600 % 24 + c2 then 1 else 0))
    (h4 : c4 = (if daysInMonth t.month lpyr < t.mday + Delta / 86400 + c3 then 1 else 0)) :
    alarmTarget t lpyr Delta = some
      { sec := (((t.sec + Delta % 60) % 60 : Nat) : Int),
        min := (((t.min + Delta / 60 % 60 + c1) % 60 : Nat) : Int),
        hour := (((t.hour + Delta / 3600 % 24 + c2) % 24 : Nat) : Int),
        wday := (((t.wday + Delta / 86400 + c3 - 1) % 7 + 1 : Nat) : Int),
        mday := (((if (t.mday + Delta / 86400 + c3) % (daysInMonth t.month lpyr + 1) = 0 then 1
                  else (t.mday + Delta / 86400 + c3) % (daysInMonth t.month lpyr + 1) : Nat)) : Int),
        month := (((t.month + c4 - 1) % 12 + 1 : Nat) : Int),
        year := (t.year : Int) } := by
  unfold alarmTarget
  simp only [tableAt_MonthDay lpyr t.month hm1 hm2]
  simp only [Option.some.injEq, AlarmTime.mk.injEq]
  generalize daysInMonth t.month lpyr = M at h4 ⊢
  have d1 : (Delta - Delta % 60) / 60 = Delta / 60 := by omega
  have d2 : (Delta - Delta % 3600) / 3600 = Delta / 3600 := by omega
  have d3 : (Delta - Delta % 86400) / 86400 = Delta / 86400 := by omega
  rw [d1, d2, d3]
  have e1 : (if (t.sec : Int) + ((Delta % 60 : Nat) : Int) ≥ 60 then (1 : Int) else 0)
      = (c1 : Int) := by
    rw [h1]; split_ifs <;> omega
  rw [e1]
  have e2 : (if (t.min : Int) + ((Delta / 60 % 60 : Nat) : Int) + (c1 : Int) ≥ 60
      then (1 : Int) else 0) = (c2 : Int) := by
    rw [h2]; split_ifs <;> omega
  rw [e2]
  have e3 : (if (t.hour : Int) + ((Delta / 3600 % 24 : Nat) : Int) + (c2 : Int) ≥ 24
      then (1 : Int) else 0) = (c3 : Int) := by
    rw [h3]; split_ifs <;> omega
  rw [e3]
  have e4 : (if (t.mday : Int) + ((Delta / 86400 : Nat) : Int) + (c3 : Int) > (M : Int)
      then (1 : Int) else 0) = (c4 : Int) := by
    rw [h4]; split_ifs <;> omega
  rw [e4]
  have b3 : c3 ≤ 1 := by rw [h3]; split_ifs <;> omega
  have b4 : c4 ≤ 1 := by rw [h4]; split_ifs <;> omega
  have key : ((t.mday : Int) + ((Delta / 86400 : Nat) : Int) + (c3 : Int)).tmod ((M : Int) + 1)
      = (((t.mday + Delta / 86400 + c3) % (M + 1) : Nat) : Int) := by
    rw [Int.tmod_eq_emod (by omega) (by omega)]
    push_cast
    rfl
  rw [key]
  refine ⟨?_, ?_, ?_, ?_, ?_, ?_, trivial⟩
  · rw [Int.tmod_eq_emod (by omega) (by omega)]; omega
  · rw [Int.tmod_eq_emod (by omega) (by omega)]; omega
  · rw [Int.tmod_eq_emod (by omega) (by omega)]; omega
  · rw [Int.tmod_eq_emod (by omega) (by omega)]; omega
  · generalize (t.mday + Delta / 86400 + c3) % (M + 1) = r
    split_ifs <;> omega
  · rw [Int.tmod_eq_emod (by omega) (by omega)]; omega

/-- Time-of-day addition for a delta below one day: the three fields and the carry into
the day, against the seconds of the day added as one number. -/
theorem tod_carry (h m s D c1 c2 c3 : Nat) (hh : h ≤ 23) (hm : m ≤ 59) (hs : s ≤ 59)
    (hD : D < 86400)
    (h1 : c1 = (if 60 ≤ s + D % 60 then 1 else 0))
    (h2 : c2 = (if 60 ≤ m + D / 60 % 60 + c1 then 1 else 0))
    (h3 : c3 = (if 24 ≤ h + D / 3600 % 24 + c2 then 1 else 0)) :
    (s + D % 60) % 60 = (h * 3600 + m * 60 + s + D) % 60 ∧
    (m + D / 60 % 60 + c1) % 60 = (h * 3600 + m * 60 + s + D) % 3600 / 60 ∧
    (h + D / 3600 % 24 + c2) % 24 = (h * 3600 + m * 60 + s + D) % 86400 / 3600 ∧
    c3 = (h * 3600 + m * 60 + s + D) / 86400 := by
  subst h1
  subst h2
  subst h3
  split_ifs <;> omega


theorem civilAdd_zero_days (t : Timestamp) (delta : Nat)
    (h : (t.hour * 3600 + t.min * 60 + t.sec + delta) / 86400 = 0) :
    civilAdd t delta =
      { t with hour := (t.hour * 3600 + t.min * 60 + t.sec + delta) % 86400 / 3600,
               min := (t.hour * 3600 + t.min * 60 + t.sec + delta) % 3600 / 60,
               sec := (t.hour * 3600 + t.min * 60 + t.sec + delta) % 60 } := by
  unfold civilAdd
  simp only [h, Function.iterate_zero, id_eq]

theorem civilAdd_one_day (t : Timestamp) (delta : Nat)
    (h : (t.hour * 3600 + t.min * 60 + t.sec + delta) / 86400 = 1) :
    civilAdd t delta =
      { nextDay t with hour := (t.hour * 3600 + t.min * 60 + t.sec + delta) % 86400 / 3600,
                       min := (t.hour * 3600 + t.min * 60 + t.sec + delta) % 3600 / 60,
                       sec := (t.hour * 3600 + t.min * 60 + t.sec + delta) % 60 } := by
  unfold civilAdd
  simp only [h, Function.iterate_succ, Function.iterate_zero, Function.comp_apply, id_eq]

/-- C2. Alarm carry: for every valid current Timestamp, with the leap flag equal to the
Gregorian leap status of the current year, and every delta below 86400 seconds, the
second, minute, hour, day-of-week, day-of-month and month that `setAlarm` computes as
the alarm target are those of the calendar instant current + delta. -/
theorem alarmTarget_matches_calendar (t : Timestamp) (ht : t.valid) (Delta : Nat) (hD : Delta < 86400) :
    ∃ a, alarmTarget t (isLeapYear t.year) Delta = some a ∧
      a.sec = (civilAdd t Delta).sec ∧ a.min = (civilAdd t Delta).min ∧
      a.hour = (civilAdd t Delta).hour ∧ a.wday = (civilAdd t Delta).wday ∧
      a.mday = (civilAdd t Delta).mday ∧ a.month = (civilAdd t Delta).month := by
  obtain ⟨hy, ⟨hm1, hm2, hd1, hd2⟩, hw1, hw2, hh, hmi, hs⟩ := ht
  obtain ⟨c1, h1⟩ : ∃ c1 : Nat, c1 = (if 60 ≤ t.sec + Delta % 60 then 1 else 0) := ⟨_, rfl⟩
  obtain ⟨c2, h2⟩ : ∃ c2 : Nat, c2 = (if 60 ≤ t.min + Delta / 60 % 60 + c1 then 1 else 0) :=
    ⟨_, rfl⟩
  obtain ⟨c3, h3⟩ : ∃ c3 : Nat, c3 = (if 24 ≤ t.hour + Delta / 3600 % 24 + c2 then 1 else 0) :=
    ⟨_, rfl⟩
  have hf := alarmTarget_fields_aux t (isLeapYear t.year) Delta hm1 hm2 hw1 c1 c2 c3 _
    h1 h2 h3 rfl
  obtain ⟨k1, k2, k3, k4⟩ := tod_carry t.hour t.min t.sec Delta c1 c2 c3 hh hmi hs hD h1 h2 h3
  have hdays : Delta / 86400 = 0 := by omega
  have hM := daysInMonth_bounds (isLeapYear t.year) t.month hm1 hm2
  refine ⟨_, hf, ?_⟩
  have hnd : (nextDay t).wday = t.wday % 7 + 1 ∧
      (nextDay t).mday = (if t.mday < daysInMonth t.month (isLeapYear t.year)
        then t.mday + 1 else 1) ∧
      (nextDay t).month = (if t.mday < daysInMonth t.month (isLeapYear t.year)
        then t.month else if t.month < 12 then t.month + 1 else 1) := by
    unfold nextDay
    split_ifs <;> simp
  simp only [hdays, Nat.add_zero]
  generalize daysInMonth t.month (isLeapYear t.year) = M at hd2 hM hnd ⊢
  have hc3 : c3 = 0 ∨ c3 = 1 := by rw [h3]; split_ifs <;> simp
  rcases hc3 with hc | hc
  · rw [civilAdd_zero_days t Delta (by omega)]
    have r1 : t.mday % (M + 1) = t.mday := Nat.mod_eq_of_lt (by omega)
    simp only [hc, Nat.add_zero, r1, k1, k2, k3]
    refine ⟨trivial, trivial, trivial, ?_, ?_, ?_⟩
    · norm_cast; omega
    · norm_cast; split_ifs <;> omega
    · norm_cast; split_ifs <;> omega
  · rw [civilAdd_one_day t Delta (by omega)]
    obtain ⟨n1, n2, n3⟩ := hnd
    simp only [hc, k1, k2, k3, n1, n2, n3]
    refine ⟨trivial, trivial, trivial, ?_, ?_, ?_⟩
    · norm_cast
    · by_cases hlt : t.mday < M
      · have r1 : (t.mday + 1) % (M + 1) = t.mday + 1 := Nat.mod_eq_of_lt (by omega)
        rw [r1, if_pos hlt, if_neg (by omega)]
      · have e : t.mday = M := by omega
        rw [e, Nat.mod_self, if_pos rfl, if_neg (by omega)]
    · by_cases hlt : t.mday < M
      · rw [if_pos hlt, if_neg (by omega)]
        norm_cast
        omega
      · rw [if_neg hlt, if_pos (by omega)]
        norm_cast
        split_ifs <;> omega

/-- C2, at the input of the specification: 2024-01-31 (day-of-week 3) 23:59:50 plus 15
seconds gives 02-01 (day-of-week 4) 00:00:05, with carries out of the seconds, the
minutes, the hours and the day. -/
theorem alarmTarget_matches_calendar_witness :
    (alarmTarget
        { year := 2024, month := 1, mday := 31, wday := 3, hour := 23, min := 59, sec := 50 }
        true 15
      = some { sec := 5, min := 0, hour := 0, wday := 4, mday := 1, month := 2, year := 2024 } ∧
     civilAdd
        { year := 2024, month := 1, mday := 31, wday := 3, hour := 23, min := 59, sec := 50 } 15
      = { year := 2024, month := 2, mday := 1, wday := 4, hour := 0, min := 0, sec := 5 }) ∧
    ∃ a, alarmTarget
        { year := 2024, month := 1, mday := 31, wday := 3, hour := 23, min := 59, sec := 50 }
        (isLeapYear 2024) 15 = some a ∧
      a.sec = (civilAdd
        { year := 2024, month := 1, mday := 31, wday := 3, hour := 23, min := 59, sec := 50 }
        15).sec ∧
      a.min = (civilAdd
        { year := 2024, month := 1, mday := 31, wday := 3, hour := 23, min := 59, sec := 50 }
        15).min ∧
      a.hour = (civilAdd
        { year := 2024, month := 1, mday := 31, wday := 3, hour := 23, min := 59, sec := 50 }
        15).hour ∧
      a.wday = (civilAdd
        { year := 2024, month := 1, mday := 31, wday := 3, hour := 23, min := 59, sec := 50 }
        15).wday ∧
      a.mday = (civilAdd
        { year := 2024, month := 1, mday := 31, wday := 3, hour := 23, min := 59, sec := 50 }
        15).mday ∧
      a.month = (civilAdd
        { year := 2024, month := 1, mday := 31, wday := 3, hour := 23, min := 59, sec := 50 }
        15).month :=
  ⟨by decide,
   alarmTarget_matches_calendar
    { year := 2024, month := 1, mday := 31, wday := 3, hour := 23, min := 59, sec := 50 }
    (by decide) 15 (by decide)⟩

/-- C6 (amended). The alarm target has a valid day of the month for deltas up to 29 days:
for every valid current Timestamp, every value of the leap flag and every delta of at
most 2505600 seconds, the day-of-month computed by `setAlarm` is at least 1 and at most
days-in-month of the month computed by `setAlarm` (February length from the leap flag). -/
theorem alarmTarget_mday_valid (t : Timestamp) (ht : t.valid) (lpyr : Bool) (Delta : Nat)
    (hD : Delta ≤ 2505600) :
    ∃ a, alarmTarget t lpyr Delta = some a ∧ 1 ≤ a.mday ∧
      a.mday ≤ ((daysInMonth a.month.toNat lpyr : Nat) : Int) := by
  obtain ⟨hy, ⟨hm1, hm2, hd1, hd2⟩, hw1, hw2, hh, hmi, hs⟩ := ht
  have hf := alarmTarget_fields_aux t lpyr Delta hm1 hm2 hw1 _ _ _ _ rfl rfl rfl rfl
  refine ⟨_, hf, ?_, ?_⟩
  · simp only
    split_ifs <;> omega
  · simp only [Int.toNat_ofNat]
    have hc3 : (if 24 ≤ t.hour + Delta / 3600 % 24 +
        (if 60 ≤ t.min + Delta / 60 % 60 + (if 60 ≤ t.sec + Delta % 60 then 1 else 0)
          then 1 else 0) then 1 else 0) + Delta / 86400 ≤ 29 := by
      split_ifs <;> omega
    generalize (if 24 ≤ t.hour + Delta / 3600 % 24 +
        (if 60 ≤ t.min + Delta / 60 % 60 + (if 60 ≤ t.sec + Delta % 60 then 1 else 0)
          then 1 else 0) then 1 else 0) = c3 at hc3 ⊢
    generalize Delta / 86400 = days at hc3 ⊢
    generalize isLeapYear t.year = ly at hd2
    generalize t.mday = md at hd1 hd2 ⊢
    generalize t.month = mo at hm1 hm2 hd2 ⊢
    norm_cast
    interval_cases mo <;> cases lpyr <;> cases ly <;>
      simp only [daysInMonth, if_true, if_false, Bool.false_eq_true] at hd2 ⊢ <;>
      split_ifs <;> simp only [daysInMonth, if_true, if_false, Bool.false_eq_true] <;> omega

/-- C6, at a concrete input: 2023-01-31 23:59:59 plus exactly 29 days, leap flag clear. -/
theorem alarmTarget_mday_valid_witness :
    ∃ a, alarmTarget
        { year := 2023, month := 1, mday := 31, wday := 2, hour := 23, min := 59, sec := 59 }
        false 2505600 = some a ∧ 1 ≤ a.mday ∧
      a.mday ≤ ((daysInMonth a.month.toNat false : Nat) : Int) :=
  alarmTarget_mday_valid
    { year := 2023, month := 1, mday := 31, wday := 2, hour := 23, min := 59, sec := 59 }
    (by decide) false 2505600 (by decide)

/-- C6 as stated fails: from the valid Timestamp 2023-01-31 23:59:59 with the leap flag
clear, a delta of 2505601 seconds (29 days and one second) gives day-of-month 29 in
month 2, whose length is 28. -/
theorem alarmTarget_mday_valid_counterexample :
    Timestamp.valid
      { year := 2023, month := 1, mday := 31, wday := 2, hour := 23, min := 59, sec := 59 } ∧
    alarmTarget
      { year := 2023, month := 1, mday := 31, wday := 2, hour := 23, min := 59, sec := 59 }
      false 2505601
      = some { sec := 0, min := 0, hour := 0, wday := 4, mday := 29, month := 2, year := 2023 } ∧
    daysInMonth 2 false = 28 := by
  decide

/-! ## Error log -/

theorem throwAll_snoc (s : ErrorLog) (l : List Nat) (c : Nat) :
    throwAll s (l ++ [c]) = (throwErr (throwAll s l) c).2 := by
  simp [throwAll, List.foldl_append]

/-- State of the log after recording fewer than 256 codes from a state whose counter
is 0: the counter is the number of codes, and each of the last ten codes sits in the
slot given by its record index modulo 10. -/
theorem throwAll_state (s : ErrorLog) (hs : s.numErrors = 0) (cs : List Nat) :
    cs.length < 256 →
    (throwAll s cs).numErrors = cs.length ∧
    ∀ k, k < cs.length → cs.length ≤ k + 10 →
      (throwAll s cs).errors (k % 10) = cs.getD k 0 % 4294967296 := by
  induction cs using List.reverseRecOn with
  | nil =>
    intro _
    exact ⟨hs, fun k hk => absurd hk (by simp)⟩
  | append_singleton l a ih =>
    intro hlen
    rw [List.length_append, List.length_singleton] at hlen
    obtain ⟨ihn, ihs⟩ := ih (by omega)
    rw [throwAll_snoc]
    refine ⟨?_, ?_⟩
    · simp only [throwErr, ihn, List.length_append, List.length_singleton]
      omega
    · intro k hk hk10
      rw [List.length_append, List.length_singleton] at hk hk10
      simp only [throwErr, ihn, MAX_NUM_ERRORS]
      by_cases hkl : k = l.length
      · subst hkl
        simp
      · have hne : k % 10 ≠ l.length % 10 := by omega
        rw [if_neg hne, ihs k (by omega) (by omega)]
        rw [List.getD_append _ _ _ _ (by omega)]

/-- Counter of the log after recording any number of codes from a state whose counter
is 0: the number of codes modulo 256. -/
theorem throwAll_numErrors (s : ErrorLog) (hs : s.numErrors = 0) (cs : List Nat) :
    (throwAll s cs).numErrors = cs.length % 256 := by
  induction cs using List.reverseRecOn with
  | nil => simpa [throwAll] using hs
  | append_singleton l a ih =>
    rw [throwAll_snoc]
    simp only [throwErr, ih, List.length_append, List.length_singleton]
    omega

/-- Effect of the copy loop: the `k` slots from index `i` on are copied and cleared, every
other entry of both arrays is left as it was. -/
theorem copyLoop_spec (k : Nat) : ∀ (i : Nat) (e o : Nat → Nat) (j : Nat),
    (copyLoop k i e o).1 j = (if i ≤ j ∧ j < i + k then 0 else e j) ∧
    (copyLoop k i e o).2 j = (if i ≤ j ∧ j < i + k then e j else o j) := by
  induction k with
  | zero =>
    intro i e o j
    simp only [copyLoop]
    rw [if_neg (by omega), if_neg (by omega)]
    exact ⟨rfl, rfl⟩
  | succ n ih =>
    intro i e o j
    simp only [copyLoop]
    obtain ⟨h1, h2⟩ := ih (i + 1) (fun j => if j = i then 0 else e j)
      (fun j => if j = i then e i else o j) j
    rw [h1, h2]
    constructor
    · by_cases hj : j = i
      · subst hj; simp
      · simp only [hj, if_false]
        by_cases hc : i + 1 ≤ j ∧ j < i + 1 + n
        · rw [if_pos hc, if_pos (by omega)]
        · rw [if_neg hc, if_neg (by omega)]
    · by_cases hj : j = i
      · subst hj; simp
      · simp only [hj, if_false]
        by_cases hc : i + 1 ≤ j ∧ j < i + 1 + n
        · rw [if_pos hc, if_pos (by omega)]
        · rw [if_neg hc, if_neg (by omega)]


/-- Result of a drain after recording fewer than 256 codes from a state whose counter
is 0: the count, the copied entries and the entries left alone. -/
theorem drain_after_throwAll (s : ErrorLog) (hs : s.numErrors = 0) (cs : List Nat)
    (hlen : cs.length < 256) (out : Nat → Nat) :
    (getErrorsArray (throwAll s cs) out).1 = cs.length ∧
    (getErrorsArray (throwAll s cs) out).2.1.numErrors = 0 ∧
    (∀ k, k < cs.length → cs.length ≤ k + 10 →
      (getErrorsArray (throwAll s cs) out).2.2 (k % 10) = cs.getD k 0 % 4294967296) ∧
    (∀ j, min 10 cs.length ≤ j → (getErrorsArray (throwAll s cs) out).2.2 j = out j) := by
  obtain ⟨hn, hsl⟩ := throwAll_state s hs cs hlen
  refine ⟨?_, rfl, ?_, ?_⟩
  · simp only [getErrorsArray, hn]
    omega
  · intro k hk hk10
    simp only [getErrorsArray, hn, MAX_NUM_ERRORS]
    rw [(copyLoop_spec _ 0 _ out (k % 10)).2, if_pos (by omega)]
    exact hsl k hk hk10
  · intro j hj
    simp only [getErrorsArray, hn, MAX_NUM_ERRORS]
    rw [(copyLoop_spec _ 0 _ out j).2, if_neg (by omega)]

/-- A drain of a log whose counter is 0 returns 0 and changes neither the log nor
the caller's array. -/
theorem drain_empty (s : ErrorLog) (hs : s.numErrors = 0) (out : Nat → Nat) :
    getErrorsArray s out = (0, s, out) := by
  obtain ⟨e, n⟩ := s
  simp only at hs
  subst hs
  simp [getErrorsArray, copyLoop]

/-- C7 (amended). Error log overrun: for a log whose counter is 0 and every n with
10 < n < 256, calling throwError n times and then getErrorsArray returns n, writes
exactly the 10 entries out[0..9] (the last ten codes, each at its record index modulo
10) and no entry beyond them, and an immediately following getErrorsArray returns 0
and writes nothing. -/
theorem overrun_drain (s : ErrorLog) (hs : s.numErrors = 0) (cs : List Nat)
    (h10 : 10 < cs.length) (h256 : cs.length < 256) (out out2 : Nat → Nat) :
    (getErrorsArray (throwAll s cs) out).1 = cs.length ∧
    (∀ j, j < 10 → (getErrorsArray (throwAll s cs) out).2.2 j = (throwAll s cs).errors j) ∧
    (∀ k, k < cs.length → cs.length ≤ k + 10 →
      (getErrorsArray (throwAll s cs) out).2.2 (k % 10) = cs.getD k 0 % 4294967296) ∧
    (∀ j, 10 ≤ j → (getErrorsArray (throwAll s cs) out).2.2 j = out j) ∧
    (getErrorsArray (getErrorsArray (throwAll s cs) out).2.1 out2).1 = 0 ∧
    (getErrorsArray (getErrorsArray (throwAll s cs) out).2.1 out2).2.2 = out2 := by
  obtain ⟨d1, d2, d3, d4⟩ := drain_after_throwAll s hs cs h256 out
  have hn := (throwAll_state s hs cs h256).1
  have he := drain_empty (getErrorsArray (throwAll s cs) out).2.1 d2 out2
  refine ⟨d1, ?_, d3, ?_, ?_, ?_⟩
  · intro j hj
    simp only [getErrorsArray, hn, MAX_NUM_ERRORS]
    rw [(copyLoop_spec _ 0 _ out j).2, if_pos (by omega)]
  · intro j hj
    exact d4 j (by omega)
  · rw [he]
  · rw [he]

/-- C7, at the input of the specification: capacity + 3 = 13 codes recorded into the
log of a fresh object. -/
theorem overrun_drain_witness :
    (getErrorsArray (throwAll ErrorLog.init (List.range 13)) (fun _ => 0)).1
        = (List.range 13).length ∧
    (∀ j, j < 10 → (getErrorsArray (throwAll ErrorLog.init (List.range 13)) (fun _ => 0)).2.2 j
        = (throwAll ErrorLog.init (List.range 13)).errors j) ∧
    (∀ k, k < (List.range 13).length → (List.range 13).length ≤ k + 10 →
      (getErrorsArray (throwAll ErrorLog.init (List.range 13)) (fun _ => 0)).2.2 (k % 10)
        = (List.range 13).getD k 0 % 4294967296) ∧
    (∀ j, 10 ≤ j → (getErrorsArray (throwAll ErrorLog.init (List.range 13)) (fun _ => 0)).2.2 j
        = (fun _ => 0) j) ∧
    (getErrorsArray (getErrorsArray (throwAll ErrorLog.init (List.range 13)) (fun _ => 0)).2.1
        (fun _ => 7)).1 = 0 ∧
    (getErrorsArray (getErrorsArray (throwAll ErrorLog.init (List.range 13)) (fun _ => 0)).2.1
        (fun _ => 7)).2.2 = (fun _ => 7) :=
  overrun_drain ErrorLog.init rfl (List.range 13) (by decide) (by decide) (fun _ => 0)
    (fun _ => 7)

/-- C7 as stated fails: after 256 calls of throwError on the log of a fresh object,
getErrorsArray returns 0, not 256, and leaves out[0] as it was. -/
theorem overrun_drain_counterexample :
    10 < (List.replicate 256 1).length ∧
    (getErrorsArray (throwAll ErrorLog.init (List.replicate 256 1)) (fun _ => 0)).1 = 0 ∧
    (getErrorsArray (throwAll ErrorLog.init (List.replicate 256 1)) (fun _ => 0)).2.2 0 = 0 := by
  have hn := throwAll_numErrors ErrorLog.init rfl (List.replicate 256 1)
  rw [List.length_replicate] at hn
  refine ⟨by rw [List.length_replicate]; decide, ?_, ?_⟩
  · simp only [getErrorsArray, hn]
  · simp only [getErrorsArray, hn, MAX_NUM_ERRORS]
    rfl

/-- C8. Draining an empty log is a no-op: when no error is pending (the counter is 0),
getErrorsArray returns 0, writes no element of the caller's array, and leaves the log
state (all slots and the count) unchanged. -/
theorem drain_empty_noop (s : ErrorLog) (hs : s.numErrors = 0) (out : Nat → Nat) :
    (getErrorsArray s out).1 = 0 ∧ (getErrorsArray s out).2.2 = out ∧
    (getErrorsArray s out).2.1 = s := by
  rw [drain_empty s hs out]
  exact ⟨rfl, rfl, rfl⟩

/-- C8, at a concrete input: the log of a fresh object. -/
theorem drain_empty_noop_witness :
    (getErrorsArray ErrorLog.init (fun _ => 5)).1 = 0 ∧
    (getErrorsArray ErrorLog.init (fun _ => 5)).2.2 = (fun _ => 5) ∧
    (getErrorsArray ErrorLog.init (fun _ => 5)).2.1 = ErrorLog.init :=
  drain_empty_noop ErrorLog.init rfl (fun _ => 5)

/-- C9 (amended). The pending count is kept modulo 256: for every number n <= 255 of
throwError calls made since the last drain, the n-th throwError returns n and the next
getErrorsArray returns n, the pre-drain count. -/
theorem pending_count (s : ErrorLog) (hs : s.numErrors = 0) (cs : List Nat)
    (hlen : cs.length ≤ 255) (out : Nat → Nat) :
    (getErrorsArray (throwAll s cs) out).1 = cs.length ∧
    ∀ l c, cs = l ++ [c] → (throwErr (throwAll s l) c).1 = (cs.length : Int) := by
  have hn := throwAll_numErrors s hs cs
  refine ⟨?_, ?_⟩
  · simp only [getErrorsArray, hn]
    omega
  · intro l c hcs
    subst hcs
    rw [List.length_append, List.length_singleton] at hlen ⊢
    simp only [throwErr, throwAll_numErrors s hs l]
    norm_cast
    omega

/-- C9, at a concrete input: 255 codes recorded into the log of a fresh object. -/
theorem pending_count_witness :
    (getErrorsArray (throwAll ErrorLog.init (List.replicate 255 9)) (fun _ => 0)).1
      = (List.replicate 255 9).length ∧
    ∀ l c, List.replicate 255 9 = l ++ [c] →
      (throwErr (throwAll ErrorLog.init l) c).1 = ((List.replicate 255 9).length : Int) :=
  pending_count ErrorLog.init rfl (List.replicate 255 9)
    (by rw [List.length_replicate]) (fun _ => 0)

/-- C9 as stated fails: the 256th throwError since construction returns 0, and the next
getErrorsArray returns 0. -/
theorem pending_count_counterexample :
    (throwErr (throwAll ErrorLog.init (List.replicate 255 9)) 9).1 = 0 ∧
    (getErrorsArray (throwAll ErrorLog.init (List.replicate 255 9 ++ [9])) (fun _ => 0)).1 = 0 := by
  have h1 := throwAll_numErrors ErrorLog.init rfl (List.replicate 255 9)
  have h2 := throwAll_numErrors ErrorLog.init rfl (List.replicate 255 9 ++ [9])
  rw [List.length_append, List.length_replicate, List.length_singleton] at h2
  rw [List.length_replicate] at h1
  constructor
  · simp only [throwErr, h1]
    rfl
  · simp only [getErrorsArray, h2]

/-- C10 (amended). Drain order: for every sequence of n < 256 codes recorded since the
last drain, getErrorsArray copies the min(10, n) most recently recorded codes and
nothing else, the code with 0-based record index k to out[k mod 10]; for n <= 10 this
is the order in which they were recorded, out[0] being the oldest. -/
theorem drain_order (s : ErrorLog) (hs : s.numErrors = 0) (cs : List Nat)
    (hlen : cs.length < 256) (out : Nat → Nat) :
    (∀ k, k < cs.length → cs.length ≤ k + 10 →
      (getErrorsArray (throwAll s cs) out).2.2 (k % 10) = cs.getD k 0 % 4294967296) ∧
    (∀ j, min 10 cs.length ≤ j → (getErrorsArray (throwAll s cs) out).2.2 j = out j) ∧
    (cs.length ≤ 10 → ∀ k, k < cs.length →
      (getErrorsArray (throwAll s cs) out).2.2 k = cs.getD k 0 % 4294967296) := by
  obtain ⟨_, _, d3, d4⟩ := drain_after_throwAll s hs cs hlen out
  refine ⟨d3, d4, ?_⟩
  intro h10 k hk
  have := d3 k hk (by omega)
  rwa [Nat.mod_eq_of_lt (by omega)] at this

/-- C10, at a concrete input: three codes recorded into the log of a fresh object. -/
theorem drain_order_witness :
    (∀ k, k < [11, 22, 33].length → [11, 22, 33].length ≤ k + 10 →
      (getErrorsArray (throwAll ErrorLog.init [11, 22, 33]) (fun _ => 0)).2.2 (k % 10)
        = [11, 22, 33].getD k 0 % 4294967296) ∧
    (∀ j, min 10 [11, 22, 33].length ≤ j →
      (getErrorsArray (throwAll ErrorLog.init [11, 22, 33]) (fun _ => 0)).2.2 j
        = (fun _ => 0) j) ∧
    ([11, 22, 33].length ≤ 10 → ∀ k, k < [11, 22, 33].length →
      (getErrorsArray (throwAll ErrorLog.init [11, 22, 33]) (fun _ => 0)).2.2 k
        = [11, 22, 33].getD k 0 % 4294967296) :=
  drain_order ErrorLog.init rfl [11, 22, 33] (by decide) (fun _ => 0)

/-- C10 as stated fails: after the eleven codes 100..110 are recorded, out[0] is the
newest code 110 and out[1] is 101, the oldest code still held. -/
theorem drain_order_counterexample :
    (getErrorsArray
      (throwAll ErrorLog.init [100, 101, 102, 103, 104, 105, 106, 107, 108, 109, 110])
      (fun _ => 0)).2.2 0 = 110 ∧
    (getErrorsArray
      (throwAll ErrorLog.init [100, 101, 102, 103, 104, 105, 106, 107, 108, 109, 110])
      (fun _ => 0)).2.2 1 = 101 := by
  decide


/-! ## Alarm configuration on the device -/

/-! ## Frame properties of the bus helpers -/

theorem writeByte_regs_ne (b : Bus) (Reg Val r : Nat) (h : r ≠ Reg) :
    (writeByte b Reg Val).2.regs r = b.regs r := by
  unfold writeByte
  by_cases hs : b.status b.nWrites = 0
  · simp [hs, h]
  · simp [hs]

theorem writeByte_nWrites (b : Bus) (Reg Val : Nat) :
    (writeByte b Reg Val).2.nWrites = b.nWrites + 1 := rfl

theorem writeByte_status (b : Bus) (Reg Val : Nat) :
    (writeByte b Reg Val).2.status = b.status := rfl

theorem writeByte_fst (b : Bus) (Reg Val : Nat) :
    (writeByte b Reg Val).1 = b.status b.nWrites := rfl

theorem writeByte_regs_same (b : Bus) (Reg Val : Nat) :
    (writeByte b Reg Val).2.regs Reg
      = if b.status b.nWrites = 0 then Val % 256 else b.regs Reg := by
  unfold writeByte
  by_cases hs : b.status b.nWrites = 0
  · simp [hs]
  · simp [hs]

theorem readByte_writeByte_ne (b : Bus) (Reg Val r : Nat) (h : r ≠ Reg) :
    readByte (writeByte b Reg Val).2 r = readByte b r := by
  unfold readByte
  rw [writeByte_regs_ne b Reg Val r h]

theorem setBit_regs_ne (b : Bus) (Reg Pos r : Nat) (h : r ≠ Reg) :
    (setBit b Reg Pos).2.regs r = b.regs r :=
  writeByte_regs_ne b Reg _ r h

theorem clearBit_regs_ne (b : Bus) (Reg Pos r : Nat) (h : r ≠ Reg) :
    (clearBit b Reg Pos).2.regs r = b.regs r :=
  writeByte_regs_ne b Reg _ r h

theorem setBit_nWrites (b : Bus) (Reg Pos : Nat) :
    (setBit b Reg Pos).2.nWrites = b.nWrites + 1 := rfl

theorem clearBit_nWrites (b : Bus) (Reg Pos : Nat) :
    (clearBit b Reg Pos).2.nWrites = b.nWrites + 1 := rfl

theorem setBit_status (b : Bus) (Reg Pos : Nat) :
    (setBit b Reg Pos).2.status = b.status := rfl

theorem clearBit_status (b : Bus) (Reg Pos : Nat) :
    (clearBit b Reg Pos).2.status = b.status := rfl

theorem enableAlarm_regs_ne (b : Bus) (State AlarmVal : Bool) (r : Nat) (h : r ≠ Control) :
    (enableAlarm b State AlarmVal).2.regs r = b.regs r := by
  unfold enableAlarm
  cases State
  · simp only [Bool.false_eq_true, if_false]
    rw [clearBit_regs_ne _ _ _ _ h, clearBit_regs_ne _ _ _ _ h]
  · simp only [if_true]
    rw [setBit_regs_ne _ _ _ _ h, clearBit_regs_ne _ _ _ _ h]

theorem enableAlarm_nWrites (b : Bus) (State AlarmVal : Bool) :
    (enableAlarm b State AlarmVal).2.nWrites = b.nWrites + 2 := by
  unfold enableAlarm
  cases State <;> rfl

theorem enableAlarm_status (b : Bus) (State AlarmVal : Bool) :
    (enableAlarm b State AlarmVal).2.status = b.status := by
  unfold enableAlarm
  cases State <;> rfl

theorem clearAlarm_regs_ne (b : Bus) (AlarmVal : Bool) (r : Nat)
    (h : r ≠ Regs.WeekDay + slotOffset AlarmVal) :
    (clearAlarm b AlarmVal).2.regs r = b.regs r :=
  clearBit_regs_ne b _ 3 r h

set_option maxRecDepth 100000 in
theorem byte_clear_keeps : ∀ v : Nat, v < 256 → ∀ p : Nat, p < 8 → ∀ i : Nat, i < 8 → i ≠ p →
    ((v &&& (255 ^^^ ((1 <<< p) % 256))) % 256 % 256).testBit i = v.testBit i := by
  decide

set_option maxRecDepth 100000 in
theorem byte_set_keeps : ∀ v : Nat, v < 256 → ∀ p : Nat, p < 8 → ∀ i : Nat, i < 8 → i ≠ p →
    ((v ||| (1 <<< p)) % 256 % 256 % 256).testBit i = v.testBit i := by
  decide


theorem sameBitsExcept_refl (p q v : Nat) : sameBitsExcept p q v v :=
  fun _ _ _ _ => rfl

theorem sameBitsExcept_trans (p q u v w : Nat) (h1 : sameBitsExcept p q u v)
    (h2 : sameBitsExcept p q v w) : sameBitsExcept p q u w :=
  fun i hi hp hq => (h2 i hi hp hq).trans (h1 i hi hp hq)

theorem readByte_lt (b : Bus) (Reg : Nat) : readByte b Reg < 256 :=
  Nat.mod_lt _ (by decide)

theorem readByte_clearBit_same (b : Bus) (Reg Pos : Nat) :
    readByte (clearBit b Reg Pos).2 Reg =
      if b.status b.nWrites = 0
      then (readByte b Reg &&& (255 ^^^ ((1 <<< Pos) % 256))) % 256 % 256
      else readByte b Reg := by
  unfold clearBit
  simp only [readByte, writeByte_regs_same]
  split_ifs <;> rfl

theorem readByte_setBit_same (b : Bus) (Reg Pos : Nat) :
    readByte (setBit b Reg Pos).2 Reg =
      if b.status b.nWrites = 0
      then (readByte b Reg ||| (1 <<< Pos)) % 256 % 256 % 256
      else readByte b Reg := by
  unfold setBit
  simp only [readByte, writeByte_regs_same]
  split_ifs <;> rfl

/-- `clearBit` changes no bit of the register other than the one it clears. -/
theorem clearBit_sameBits (b : Bus) (Reg Pos q : Nat) (hp : Pos < 8) :
    sameBitsExcept Pos q (readByte b Reg) (readByte (clearBit b Reg Pos).2 Reg) := by
  intro i hi hip _
  rw [readByte_clearBit_same]
  split_ifs
  · exact byte_clear_keeps _ (readByte_lt b Reg) Pos hp i hi hip
  · rfl

/-- `setBit` changes no bit of the register other than the one it sets. -/
theorem setBit_sameBits (b : Bus) (Reg Pos q : Nat) (hp : Pos < 8) :
    sameBitsExcept q Pos (readByte b Reg) (readByte (setBit b Reg Pos).2 Reg) := by
  intro i hi _ hip
  rw [readByte_setBit_same]
  split_ifs
  · exact byte_set_keeps _ (readByte_lt b Reg) Pos hp i hi hip
  · rfl

theorem sameBitsExcept_swap (p q v w : Nat) (h : sameBitsExcept p q v w) :
    sameBitsExcept q p v w :=
  fun i hi hq hp => h i hi hp hq

/-- `enableAlarm` changes no bit of the control register other than bit 6 and the
enable bit of its slot. -/
theorem enableAlarm_control (b : Bus) (State AlarmVal : Bool) :
    sameBitsExcept 6 (4 + AlarmVal.toNat) (readByte b Control)
      (readByte (enableAlarm b State AlarmVal).2 Control) := by
  have hpos : 4 + AlarmVal.toNat < 8 := by cases AlarmVal <;> decide
  unfold enableAlarm
  have h1 := clearBit_sameBits b Control 6 (4 + AlarmVal.toNat) (by decide)
  cases State
  · simp only [Bool.false_eq_true, if_false]
    exact sameBitsExcept_trans _ _ _ _ _ h1
      (sameBitsExcept_swap _ _ _ _ (clearBit_sameBits _ Control (4 + AlarmVal.toNat) 6 hpos))
  · simp only [if_true]
    exact sameBitsExcept_trans _ _ _ _ _ h1 (setBit_sameBits _ Control (4 + AlarmVal.toNat) 6 hpos)

theorem readByte_congr (b1 b2 : Bus) (r : Nat) (h : b1.regs r = b2.regs r) :
    readByte b1 r = readByte b2 r := by
  unfold readByte; rw [h]

theorem slotFrame_refl (n : Bool) (b : Bus) : slotFrame n b b :=
  ⟨fun _ _ => rfl, fun _ _ _ => rfl, sameBitsExcept_refl _ _ _⟩

theorem slotFrame_trans (n : Bool) (a b c : Bus) (h1 : slotFrame n a b) (h2 : slotFrame n b c) :
    slotFrame n a c :=
  ⟨fun r hr => (h2.1 r hr).trans (h1.1 r hr),
   fun r h h' => (h2.2.1 r h h').trans (h1.2.1 r h h'),
   sameBitsExcept_trans _ _ _ _ _ h1.2.2 h2.2.2⟩

theorem slotFrame_enableAlarm (n : Bool) (b : Bus) (State : Bool) :
    slotFrame n b (enableAlarm b State n).2 := by
  refine ⟨?_, ?_, enableAlarm_control b State n⟩
  · intro r hr
    exact enableAlarm_regs_ne b State n r (by simp only [Control]; omega)
  · intro r h1 _
    refine enableAlarm_regs_ne b State n r ?_
    cases n <;>
      simp only [Regs.Seconds, slotOffset, AlarmOffset, BlockOffset, Control, Bool.not_false,
        Bool.not_true, if_true, Bool.false_eq_true, if_false] at h1 ⊢ <;> omega

/-- A write to one of the six registers of slot `n` stays inside the frame of the slot. -/
theorem slotFrame_writeByte (n : Bool) (b : Bus) (Reg Val : Nat)
    (h : slotOffset n ≤ Reg ∧ Reg ≤ slotOffset n + 5) :
    slotFrame n b (writeByte b Reg Val).2 := by
  refine ⟨?_, ?_, ?_⟩
  · intro r hr
    refine writeByte_regs_ne b _ Val r ?_
    cases n <;>
      simp only [slotOffset, AlarmOffset, BlockOffset, if_true, Bool.false_eq_true, if_false]
        at h <;> omega
  · intro r h1 h2
    refine writeByte_regs_ne b _ Val r ?_
    cases n <;>
      simp only [Regs.Seconds, Regs.Month, slotOffset, AlarmOffset, BlockOffset, Bool.not_false,
        Bool.not_true, if_true, Bool.false_eq_true, if_false] at h h1 h2 <;> omega
  · have : readByte (writeByte b Reg Val).2 Control = readByte b Control := by
      refine readByte_writeByte_ne b _ Val Control ?_
      cases n <;>
        simp only [slotOffset, AlarmOffset, BlockOffset, Control, if_true, Bool.false_eq_true,
          if_false] at h ⊢ <;> omega
    rw [this]
    exact sameBitsExcept_refl _ _ _

theorem slotOffset_bounds (n : Bool) (i : Nat) (hi : i ≤ 5) :
    slotOffset n ≤ i + slotOffset n ∧ i + slotOffset n ≤ slotOffset n + 5 := by
  omega

theorem slotFrame_clearAlarm (n : Bool) (b : Bus) : slotFrame n b (clearAlarm b n).2 :=
  slotFrame_writeByte n b (Regs.WeekDay + slotOffset n) _ (slotOffset_bounds n 3 (by decide))

theorem slotFrame_setMinuteAlarm (n : Bool) (b : Bus) (Offset : Nat) :
    slotFrame n b (setMinuteAlarm b Offset n).2 := by
  unfold setMinuteAlarm
  simp only []
  refine slotFrame_trans n _ _ _ ?_ (slotFrame_clearAlarm n _)
  refine slotFrame_trans n _ _ _ ?_ (slotFrame_enableAlarm n _ true)
  refine slotFrame_trans n _ _ _ ?_
    (slotFrame_writeByte n _ _ _ (slotOffset_bounds n Regs.Seconds (by decide)))
  refine slotFrame_trans n _ _ _ ?_
    (slotFrame_writeByte n _ _ _ (slotOffset_bounds n Regs.WeekDay (by decide)))
  exact slotFrame_enableAlarm n b false

theorem slotFrame_setHourAlarm (n : Bool) (b : Bus) (Offset : Nat) :
    slotFrame n b (setHourAlarm b Offset n).2 := by
  unfold setHourAlarm
  simp only []
  refine slotFrame_trans n _ _ _ ?_ (slotFrame_clearAlarm n _)
  refine slotFrame_trans n _ _ _ ?_ (slotFrame_enableAlarm n _ true)
  refine slotFrame_trans n _ _ _ ?_
    (slotFrame_writeByte n _ _ _ (slotOffset_bounds n Regs.Minutes (by decide)))
  refine slotFrame_trans n _ _ _ ?_
    (slotFrame_writeByte n _ _ _ (slotOffset_bounds n Regs.WeekDay (by decide)))
  exact slotFrame_enableAlarm n b false

theorem slotFrame_setDayAlarm (n : Bool) (b : Bus) (Offset : Nat) :
    slotFrame n b (setDayAlarm b Offset n).2 := by
  unfold setDayAlarm
  simp only []
  refine slotFrame_trans n _ _ _ ?_ (slotFrame_clearAlarm n _)
  refine slotFrame_trans n _ _ _ ?_ (slotFrame_enableAlarm n _ true)
  refine slotFrame_trans n _ _ _ ?_
    (slotFrame_writeByte n _ _ _ (slotOffset_bounds n Regs.Hours (by decide)))
  refine slotFrame_trans n _ _ _ ?_
    (slotFrame_writeByte n _ _ _ (slotOffset_bounds n Regs.WeekDay (by decide)))
  exact slotFrame_enableAlarm n b false

theorem range6 : List.range 6 = [0, 1, 2, 3, 4, 5] := by decide

theorem slotFrame_setAlarmStep (n : Bool) (AlarmTime : List Int) (b : Bus) (i : Nat)
    (hi : i ≤ 5) : slotFrame n b (setAlarmStep (slotOffset n) AlarmTime b i) := by
  unfold setAlarmStep
  exact slotFrame_writeByte n b _ _ (by simp only [Regs.Seconds]; omega)

theorem slotFrame_setAlarm (n : Bool) (b : Bus) (Delta : Nat) (r : Int × Bus)
    (h : setAlarm b Delta n = some r) : slotFrame n b r.2 := by
  unfold setAlarm at h
  simp only [] at h
  split at h
  · exact absurd h (by simp)
  · rename_i a _
    simp only [Option.some.injEq] at h
    rw [← h]
    simp only [range6, List.foldl]
    refine slotFrame_trans n _ _ _ ?_ (slotFrame_clearAlarm n _)
    refine slotFrame_trans n _ _ _ ?_ (slotFrame_enableAlarm n _ true)
    refine slotFrame_trans n _ _ _ ?_ (slotFrame_setAlarmStep n _ _ 5 (by decide))
    refine slotFrame_trans n _ _ _ ?_ (slotFrame_setAlarmStep n _ _ 4 (by decide))
    refine slotFrame_trans n _ _ _ ?_ (slotFrame_setAlarmStep n _ _ 3 (by decide))
    refine slotFrame_trans n _ _ _ ?_ (slotFrame_setAlarmStep n _ _ 2 (by decide))
    refine slotFrame_trans n _ _ _ ?_ (slotFrame_setAlarmStep n _ _ 1 (by decide))
    refine slotFrame_trans n _ _ _ ?_ (slotFrame_setAlarmStep n _ _ 0 (by decide))
    exact slotFrame_enableAlarm n b false

theorem getRawTime_congr (b c : Bus) (h : ∀ r, r < 7 → c.regs r = b.regs r) :
    getRawTime c = getRawTime b := by
  unfold getRawTime
  simp only [h 0 (by decide), h 1 (by decide), h 2 (by decide), h 3 (by decide),
    h 4 (by decide), h 5 (by decide), h 6 (by decide)]

theorem readBit_congr (b c : Bus) (Reg Pos : Nat) (h : c.regs Reg = b.regs Reg) :
    readBit c Reg Pos = readBit b Reg Pos := by
  unfold readBit readByte
  rw [h]

/-- What `setAlarm` returns: the alarm time computed from the time and the leap flag
held by the device at the call, written by the loop and followed by the re-enable and
the clearing of the flag. -/
theorem setAlarm_some (b : Bus) (Delta : Nat) (n : Bool) (r : Int × Bus)
    (h : setAlarm b Delta n = some r) :
    ∃ a, alarmTarget (getRawTime b) (readBit b Regs.Month 5) (Delta % 4294967296) = some a ∧
      r = ((enableAlarm ((List.range 6).foldl
              (setAlarmStep (slotOffset n) [a.sec, a.min, a.hour, a.wday, a.mday, a.month, a.year])
              (enableAlarm b false n).2) true n).1,
           (clearAlarm (enableAlarm ((List.range 6).foldl
              (setAlarmStep (slotOffset n) [a.sec, a.min, a.hour, a.wday, a.mday, a.month, a.year])
              (enableAlarm b false n).2) true n).2 n).2) := by
  have hf := (slotFrame_enableAlarm n b false).1
  have e1 : getRawTime (enableAlarm b false n).2 = getRawTime b := getRawTime_congr _ _ hf
  have e2 : readBit (enableAlarm b false n).2 Regs.Month 5 = readBit b Regs.Month 5 :=
    readBit_congr _ _ _ _ (hf 5 (by decide))
  unfold setAlarm at h
  simp only [] at h
  rw [e1, e2] at h
  split at h
  · exact absurd h (by simp)
  · rename_i a ha
    simp only [Option.some.injEq] at h
    exact ⟨a, ha, h.symm⟩

/-- `setAlarm` returns whenever the month read from the device indexes inside the
table `MonthDay`, that is, is at most 12. -/
theorem setAlarm_isSome (b : Bus) (Delta : Nat) (n : Bool) (hm : (getRawTime b).month ≤ 12) :
    ∃ r, setAlarm b Delta n = some r := by
  have hf := (slotFrame_enableAlarm n b false).1
  have e1 : getRawTime (enableAlarm b false n).2 = getRawTime b := getRawTime_congr _ _ hf
  have ht : ∃ v, tableAt (MonthDay (readBit (enableAlarm b false n).2 Regs.Month 5))
      ((getRawTime b).month : Int) = some v := by
    generalize (getRawTime b).month = m at hm
    generalize readBit (enableAlarm b false n).2 Regs.Month 5 = l
    interval_cases m <;> exact ⟨_, rfl⟩
  obtain ⟨v, hv⟩ := ht
  unfold setAlarm
  simp only []
  rw [e1]
  unfold alarmTarget
  simp only [hv]
  exact ⟨_, rfl⟩

/-- The day of the week read from the device is at most 7. -/
theorem getRawTime_wday_le (b : Bus) : (getRawTime b).wday ≤ 7 := by
  unfold getRawTime decodeField
  simp only [Nat.reduceEqDiff, if_true, if_false, OfNat.ofNat_ne_zero, OfNat.ofNat_ne_one,
    false_or, or_false]
  have h : (b.regs 3 % 256 &&& 15 &&& 7) ≤ 7 := Nat.and_le_right
  omega

theorem tmod_seven_range (x : Int) (hx : -1 ≤ x) : 0 ≤ x.tmod 7 + 1 ∧ x.tmod 7 + 1 ≤ 7 := by
  by_cases h : 0 ≤ x
  · rw [Int.tmod_eq_emod h (by decide)]
    omega
  · have : x = -1 := by omega
    subst this
    decide

/-- The day of the week computed by `setAlarm` lies in 0..7. -/
theorem alarmTarget_wday_range (t : Timestamp) (lpyr : Bool) (Delta : Nat) (a : AlarmTime)
    (h : alarmTarget t lpyr Delta = some a) : 0 ≤ a.wday ∧ a.wday ≤ 7 := by
  unfold alarmTarget at h
  simp only [] at h
  split at h
  · exact absurd h (by simp)
  · simp only [Option.some.injEq] at h
    rw [← h]
    simp only []
    apply tmod_seven_range
    split_ifs <;> omega

set_option maxRecDepth 100000 in
/-- State left by `setMinuteAlarm` when every write transaction succeeds. -/
theorem setMinuteAlarm_final (b : Bus) (hb : b.allOk) (Offset : Nat) (n : Bool) :
    (setMinuteAlarm b Offset n).1 = 0 ∧
    maskConfigured 0 n b (setMinuteAlarm b Offset n).2 ∧
    armed n (setMinuteAlarm b Offset n).2 := by
  have h0 : ∀ k, b.status k = 0 := hb
  have h13 : b.regs 13 % 256 < 256 := Nat.mod_lt _ (by decide)
  have h20 : b.regs 20 % 256 < 256 := Nat.mod_lt _ (by decide)
  have h7 : b.regs 7 % 256 < 256 := Nat.mod_lt _ (by decide)
  cases n
  · simp only [maskConfigured, armed, readAlarm, readBit, slotOffset, setMinuteAlarm, enableAlarm,
      clearAlarm, clearBit, setBit, writeByte, readByte, h0, if_true, Control, Regs.WeekDay,
      Regs.Seconds, BlockOffset, AlarmOffset, Bool.toNat_false, Bool.toNat_true,
      Bool.false_eq_true, if_false, Nat.reduceAdd, Nat.reduceEqDiff, true_and]
    clear h20
    generalize b.regs 13 % 256 = v at h13
    generalize b.regs 7 % 256 = c at h7
    refine ⟨⟨?_, ?_⟩, ?_, ?_, ?_, ?_⟩
    all_goals first
      | (clear h7; revert v; decide)
      | (clear h13; revert c; decide)
  · simp only [maskConfigured, armed, readAlarm, readBit, slotOffset, setMinuteAlarm, enableAlarm,
      clearAlarm, clearBit, setBit, writeByte, readByte, h0, if_true, Control, Regs.WeekDay,
      Regs.Seconds, BlockOffset, AlarmOffset, Bool.toNat_false, Bool.toNat_true,
      Bool.false_eq_true, if_false, Nat.reduceAdd, Nat.reduceEqDiff, true_and]
    clear h13
    generalize b.regs 20 % 256 = v at h20
    generalize b.regs 7 % 256 = c at h7
    refine ⟨⟨?_, ?_⟩, ?_, ?_, ?_, ?_⟩
    all_goals first
      | (clear h7; revert v; decide)
      | (clear h20; revert c; decide)

set_option maxRecDepth 100000 in
/-- State left by `setHourAlarm` when every write transaction succeeds. -/
theorem setHourAlarm_final (b : Bus) (hb : b.allOk) (Offset : Nat) (n : Bool) :
    (setHourAlarm b Offset n).1 = 0 ∧
    maskConfigured 1 n b (setHourAlarm b Offset n).2 ∧
    armed n (setHourAlarm b Offset n).2 := by
  have h0 : ∀ k, b.status k = 0 := hb
  have h13 : b.regs 13 % 256 < 256 := Nat.mod_lt _ (by decide)
  have h20 : b.regs 20 % 256 < 256 := Nat.mod_lt _ (by decide)
  have h7 : b.regs 7 % 256 < 256 := Nat.mod_lt _ (by decide)
  cases n
  · simp only [maskConfigured, armed, readAlarm, readBit, slotOffset, setHourAlarm, enableAlarm,
      clearAlarm, clearBit, setBit, writeByte, readByte, h0, if_true, Control, Regs.WeekDay,
      Regs.Minutes, BlockOffset, AlarmOffset, Bool.toNat_false, Bool.toNat_true,
      Bool.false_eq_true, if_false, Nat.reduceAdd, Nat.reduceEqDiff, true_and]
    clear h20
    generalize b.regs 13 % 256 = v at h13
    generalize b.regs 7 % 256 = c at h7
    refine ⟨⟨?_, ?_⟩, ?_, ?_, ?_, ?_⟩
    all_goals first
      | (clear h7; revert v; decide)
      | (clear h13; revert c; decide)
  · simp only [maskConfigured, armed, readAlarm, readBit, slotOffset, setHourAlarm, enableAlarm,
      clearAlarm, clearBit, setBit, writeByte, readByte, h0, if_true, Control, Regs.WeekDay,
      Regs.Minutes, BlockOffset, AlarmOffset, Bool.toNat_false, Bool.toNat_true,
      Bool.false_eq_true, if_false, Nat.reduceAdd, Nat.reduceEqDiff, true_and]
    clear h13
    generalize b.regs 20 % 256 = v at h20
    generalize b.regs 7 % 256 = c at h7
    refine ⟨⟨?_, ?_⟩, ?_, ?_, ?_, ?_⟩
    all_goals first
      | (clear h7; revert v; decide)
      | (clear h20; revert c; decide)

set_option maxRecDepth 100000 in
/-- State left by `setDayAlarm` when every write transaction succeeds. -/
theorem setDayAlarm_final (b : Bus) (hb : b.allOk) (Offset : Nat) (n : Bool) :
    (setDayAlarm b Offset n).1 = 0 ∧
    maskConfigured 2 n b (setDayAlarm b Offset n).2 ∧
    armed n (setDayAlarm b Offset n).2 := by
  have h0 : ∀ k, b.status k = 0 := hb
  have h13 : b.regs 13 % 256 < 256 := Nat.mod_lt _ (by decide)
  have h20 : b.regs 20 % 256 < 256 := Nat.mod_lt _ (by decide)
  have h7 : b.regs 7 % 256 < 256 := Nat.mod_lt _ (by decide)
  cases n
  · simp only [maskConfigured, armed, readAlarm, readBit, slotOffset, setDayAlarm, enableAlarm,
      clearAlarm, clearBit, setBit, writeByte, readByte, h0, if_true, Control, Regs.WeekDay,
      Regs.Hours, BlockOffset, AlarmOffset, Bool.toNat_false, Bool.toNat_true,
      Bool.false_eq_true, if_false, Nat.reduceAdd, Nat.reduceEqDiff, true_and]
    clear h20
    generalize b.regs 13 % 256 = v at h13
    generalize b.regs 7 % 256 = c at h7
    refine ⟨⟨?_, ?_⟩, ?_, ?_, ?_, ?_⟩
    all_goals first
      | (clear h7; revert v; decide)
      | (clear h13; revert c; decide)
  · simp only [maskConfigured, armed, readAlarm, readBit, slotOffset, setDayAlarm, enableAlarm,
      clearAlarm, clearBit, setBit, writeByte, readByte, h0, if_true, Control, Regs.WeekDay,
      Regs.Hours, BlockOffset, AlarmOffset, Bool.toNat_false, Bool.toNat_true,
      Bool.false_eq_true, if_false, Nat.reduceAdd, Nat.reduceEqDiff, true_and]
    clear h13
    generalize b.regs 20 % 256 = v at h20
    generalize b.regs 7 % 256 = c at h7
    refine ⟨⟨?_, ?_⟩, ?_, ?_, ?_, ?_⟩
    all_goals first
      | (clear h7; revert v; decide)
      | (clear h20; revert c; decide)

set_option maxRecDepth 100000 in
/-- State left by `setAlarm` when every write transaction succeeds; `a` is the alarm
time it computed. -/
theorem setAlarm_final (b : Bus) (hb : b.allOk) (Delta : Nat) (n : Bool) (r : Int × Bus)
    (h : setAlarm b Delta n = some r) :
    ∃ a, alarmTarget (getRawTime b) (readBit b Regs.Month 5) (Delta % 4294967296) = some a ∧
      r.1 = 0 ∧ maskConfigured 7 n b r.2 ∧ armed n r.2 ∧
      ((readByte r.2 (Regs.WeekDay + slotOffset n) &&& 7 : Nat) : Int) = a.wday := by
  obtain ⟨a, ha, hr⟩ := setAlarm_some b Delta n r h
  refine ⟨a, ha, ?_⟩
  obtain ⟨w0, w7⟩ := alarmTarget_wday_range _ _ _ a ha
  obtain ⟨k, hk⟩ := Int.eq_ofNat_of_zero_le w0
  have hk8 : k < 8 := by omega
  have h0 : ∀ k, b.status k = 0 := hb
  have h13 : b.regs 13 % 256 < 256 := Nat.mod_lt _ (by decide)
  have h20 : b.regs 20 % 256 < 256 := Nat.mod_lt _ (by decide)
  have h7 : b.regs 7 % 256 < 256 := Nat.mod_lt _ (by decide)
  rw [hr, hk]
  clear hr h ha w0 w7 hk
  cases n
  · simp only [maskConfigured, armed, readAlarm, readBit, slotOffset, range6, List.foldl,
      setAlarmStep, enableAlarm, clearAlarm, clearBit, setBit, writeByte, readByte, h0, if_true,
      Control, Regs.WeekDay, Regs.Seconds, BlockOffset, AlarmOffset, Bool.toNat_false,
      Bool.toNat_true, Bool.false_eq_true, if_false, Nat.reduceAdd, Nat.reduceEqDiff,
      List.getD_cons_succ, List.getD_cons_zero, true_and]
    clear h20
    generalize b.regs 13 % 256 = v at h13
    generalize b.regs 7 % 256 = c at h7
    refine ⟨⟨?_, ?_⟩, ⟨?_, ?_, ?_, ?_⟩, ?_⟩
    all_goals first
      | (clear h7; revert k; revert v; decide)
      | (clear h13 hk8; revert c; decide)
  · simp only [maskConfigured, armed, readAlarm, readBit, slotOffset, range6, List.foldl,
      setAlarmStep, enableAlarm, clearAlarm, clearBit, setBit, writeByte, readByte, h0, if_true,
      Control, Regs.WeekDay, Regs.Seconds, BlockOffset, AlarmOffset, Bool.toNat_false,
      Bool.toNat_true, Bool.false_eq_true, if_false, Nat.reduceAdd, Nat.reduceEqDiff,
      List.getD_cons_succ, List.getD_cons_zero, true_and]
    clear h13
    generalize b.regs 20 % 256 = v at h20
    generalize b.regs 7 % 256 = c at h7
    refine ⟨⟨?_, ?_⟩, ⟨?_, ?_, ?_, ?_⟩, ?_⟩
    all_goals first
      | (clear h7; revert k; revert v; decide)
      | (clear h20 hk8; revert c; decide)

theorem offsetBCD_roundtrip : ∀ v : Nat, v < 60 →
    offsetBCD (v % 4294967296) % 256 = (v % 10) ||| ((v / 10) <<< 4) ∧
    decodeField 0 ((v % 10) ||| ((v / 10) <<< 4)) = v ∧
    decodeField 1 ((v % 10) ||| ((v / 10) <<< 4)) = v := by
  decide

theorem offsetBCD_roundtrip_hours : ∀ v : Nat, v < 24 →
    offsetBCD (v % 4294967296) % 256 = (v % 10) ||| ((v / 10) <<< 4) ∧
    decodeField 2 ((v % 10) ||| ((v / 10) <<< 4)) = v := by
  decide

theorem slot_regs_ne (n : Bool) (i : Nat) (hi : i < 3) :
    i + slotOffset n ≠ Regs.WeekDay + slotOffset n ∧ i + slotOffset n ≠ Control := by
  cases n <;>
    simp only [slotOffset, Regs.WeekDay, Control, AlarmOffset, BlockOffset, if_true,
      Bool.false_eq_true, if_false] <;> omega

/-- The byte held by the field register after `setMinuteAlarm`, when the write
transaction to that register (the fourth of the call) succeeds. -/
theorem setMinuteAlarm_field (b : Bus) (Offset : Nat) (n : Bool)
    (hw : b.status (b.nWrites + 3) = 0) :
    readByte (setMinuteAlarm b Offset n).2 (Regs.Seconds + slotOffset n)
      = offsetBCD (Offset % 4294967296) % 256 := by
  obtain ⟨h1, h2⟩ := slot_regs_ne n Regs.Seconds (by decide)
  unfold setMinuteAlarm
  simp only []
  unfold readByte
  rw [clearAlarm_regs_ne _ _ _ h1, enableAlarm_regs_ne _ _ _ _ h2]
  change (writeByte _ (Regs.Seconds + slotOffset n) _).2.regs (Regs.Seconds + slotOffset n) % 256 = _
  rw [writeByte_regs_same]
  simp only [writeByte_status, writeByte_nWrites, enableAlarm_status, enableAlarm_nWrites, hw,
    if_true, Nat.mod_mod]

/-- The byte held by the field register after `setHourAlarm`, when the write
transaction to that register (the fourth of the call) succeeds. -/
theorem setHourAlarm_field (b : Bus) (Offset : Nat) (n : Bool)
    (hw : b.status (b.nWrites + 3) = 0) :
    readByte (setHourAlarm b Offset n).2 (Regs.Minutes + slotOffset n)
      = offsetBCD (Offset % 4294967296) % 256 := by
  obtain ⟨h1, h2⟩ := slot_regs_ne n Regs.Minutes (by decide)
  unfold setHourAlarm
  simp only []
  unfold readByte
  rw [clearAlarm_regs_ne _ _ _ h1, enableAlarm_regs_ne _ _ _ _ h2]
  change (writeByte _ (Regs.Minutes + slotOffset n) _).2.regs (Regs.Minutes + slotOffset n) % 256 = _
  rw [writeByte_regs_same]
  simp only [writeByte_status, writeByte_nWrites, enableAlarm_status, enableAlarm_nWrites, hw,
    if_true, Nat.mod_mod]

/-- The byte held by the field register after `setDayAlarm`, when the write
transaction to that register (the fourth of the call) succeeds. -/
theorem setDayAlarm_field (b : Bus) (Offset : Nat) (n : Bool)
    (hw : b.status (b.nWrites + 3) = 0) :
    readByte (setDayAlarm b Offset n).2 (Regs.Hours + slotOffset n)
      = offsetBCD (Offset % 4294967296) % 256 := by
  obtain ⟨h1, h2⟩ := slot_regs_ne n Regs.Hours (by decide)
  unfold setDayAlarm
  simp only []
  unfold readByte
  rw [clearAlarm_regs_ne _ _ _ h1, enableAlarm_regs_ne _ _ _ _ h2]
  change (writeByte _ (Regs.Hours + slotOffset n) _).2.regs (Regs.Hours + slotOffset n) % 256 = _
  rw [writeByte_regs_same]
  simp only [writeByte_status, writeByte_nWrites, enableAlarm_status, enableAlarm_nWrites, hw,
    if_true, Nat.mod_mod]

/-- C12. Periodic alarm encoding: for every offset in 0..59, `setHourAlarm` leaves in the
minutes alarm register of the slot the BCD byte (offset % 10) | ((offset / 10) << 4),
which decodes back to the offset; `setMinuteAlarm` leaves that byte in the seconds
alarm register and, for an offset in 0..23, `setDayAlarm` leaves it in the hours alarm
register.  Only the write transaction to that register (the fourth of the call) is
assumed to succeed. -/
theorem periodic_alarm_encoding (b : Bus) (n : Bool) (Offset Hours : Nat)
    (ho : Offset ≤ 59) (hh : Hours ≤ 23) (hw : b.status (b.nWrites + 3) = 0) :
    (readByte (setHourAlarm b Offset n).2 (Regs.Minutes + slotOffset n)
        = (Offset % 10) ||| ((Offset / 10) <<< 4) ∧
      decodeField 1 (readByte (setHourAlarm b Offset n).2 (Regs.Minutes + slotOffset n))
        = Offset) ∧
    (readByte (setMinuteAlarm b Offset n).2 (Regs.Seconds + slotOffset n)
        = (Offset % 10) ||| ((Offset / 10) <<< 4) ∧
      decodeField 0 (readByte (setMinuteAlarm b Offset n).2 (Regs.Seconds + slotOffset n))
        = Offset) ∧
    (readByte (setDayAlarm b Hours n).2 (Regs.Hours + slotOffset n)
        = (Hours % 10) ||| ((Hours / 10) <<< 4) ∧
      decodeField 2 (readByte (setDayAlarm b Hours n).2 (Regs.Hours + slotOffset n))
        = Hours) := by
  obtain ⟨e1, e2, e3⟩ := offsetBCD_roundtrip Offset (by omega)
  obtain ⟨e4, e5⟩ := offsetBCD_roundtrip_hours Hours (by omega)
  rw [setHourAlarm_field b Offset n hw, setMinuteAlarm_field b Offset n hw,
    setDayAlarm_field b Hours n hw, e1, e4]
  exact ⟨⟨rfl, e3⟩, ⟨rfl, e2⟩, ⟨rfl, e5⟩⟩

/-- C12, at the input of the specification: offset 30 on slot 0 gives the byte 0x30 in
the minutes alarm register (0x0B); hour 6 for the daily alarm. -/
theorem periodic_alarm_encoding_witness :
    readByte (setHourAlarm ⟨fun _ => 0xFF, 0, fun _ => 0⟩ 30 false).2 0x0B = 0x30 ∧
    ((readByte (setHourAlarm ⟨fun _ => 0xFF, 0, fun _ => 0⟩ 30 false).2
          (Regs.Minutes + slotOffset false)
        = (30 % 10) ||| ((30 / 10) <<< 4) ∧
      decodeField 1 (readByte (setHourAlarm ⟨fun _ => 0xFF, 0, fun _ => 0⟩ 30 false).2
          (Regs.Minutes + slotOffset false)) = 30) ∧
    (readByte (setMinuteAlarm ⟨fun _ => 0xFF, 0, fun _ => 0⟩ 30 false).2
          (Regs.Seconds + slotOffset false)
        = (30 % 10) ||| ((30 / 10) <<< 4) ∧
      decodeField 0 (readByte (setMinuteAlarm ⟨fun _ => 0xFF, 0, fun _ => 0⟩ 30 false).2
          (Regs.Seconds + slotOffset false)) = 30) ∧
    (readByte (setDayAlarm ⟨fun _ => 0xFF, 0, fun _ => 0⟩ 6 false).2
          (Regs.Hours + slotOffset false)
        = (6 % 10) ||| ((6 / 10) <<< 4) ∧
      decodeField 2 (readByte (setDayAlarm ⟨fun _ => 0xFF, 0, fun _ => 0⟩ 6 false).2
          (Regs.Hours + slotOffset false)) = 6)) :=
  ⟨(periodic_alarm_encoding ⟨fun _ => 0xFF, 0, fun _ => 0⟩ false 30 6 (by decide) (by decide)
      rfl).1.1,
   periodic_alarm_encoding ⟨fun _ => 0xFF, 0, fun _ => 0⟩ false 30 6 (by decide) (by decide)
      rfl⟩

/-- C13. Match-mask configuration: with all bus transfers succeeding, after
`setMinuteAlarm` the mask bits 6..4 of the weekday alarm register of the slot are 000,
after `setHourAlarm` 001, after `setDayAlarm` 010, and after `setAlarm` 111 with the low
three bits holding the computed day-of-week; in all four cases bit 7 of that register
keeps its previous value.  `setAlarm` returns whenever the month read from the device is
at most 12. -/
theorem match_mask_configuration (b : Bus) (hb : b.allOk) (n : Bool) (Offset Delta : Nat) :
    maskConfigured 0 n b (setMinuteAlarm b Offset n).2 ∧
    maskConfigured 1 n b (setHourAlarm b Offset n).2 ∧
    maskConfigured 2 n b (setDayAlarm b Offset n).2 ∧
    (∀ r, setAlarm b Delta n = some r →
      ∃ a, alarmTarget (getRawTime b) (readBit b Regs.Month 5) (Delta % 4294967296) = some a ∧
        maskConfigured 7 n b r.2 ∧
        ((readByte r.2 (Regs.WeekDay + slotOffset n) &&& 7 : Nat) : Int) = a.wday) ∧
    ((getRawTime b).month ≤ 12 → ∃ r, setAlarm b Delta n = some r) := by
  refine ⟨(setMinuteAlarm_final b hb Offset n).2.1, (setHourAlarm_final b hb Offset n).2.1,
    (setDayAlarm_final b hb Offset n).2.1, ?_, setAlarm_isSome b Delta n⟩
  intro r hr
  obtain ⟨a, ha, _, hm, _, hw⟩ := setAlarm_final b hb Delta n r hr
  exact ⟨a, ha, hm, hw⟩

/-- C13, at a concrete input: a device whose registers all hold 0x01 (2001-01-01,
day-of-week 1, 01:01:01), slot 1, delta 86400 seconds: the computed day-of-week is 2. -/
theorem match_mask_configuration_witness :
    maskConfigured 1 true ⟨fun _ => 0x01, 0, fun _ => 0⟩
      (setHourAlarm ⟨fun _ => 0x01, 0, fun _ => 0⟩ 30 true).2 ∧
    ∃ r, setAlarm ⟨fun _ => 0x01, 0, fun _ => 0⟩ 86400 true = some r ∧
      maskConfigured 7 true ⟨fun _ => 0x01, 0, fun _ => 0⟩ r.2 ∧
      readByte r.2 (Regs.WeekDay + slotOffset true) &&& 7 = 2 := by
  have t := match_mask_configuration ⟨fun _ => 0x01, 0, fun _ => 0⟩ (fun _ => rfl) true 30 86400
  obtain ⟨r, hr⟩ := t.2.2.2.2 (by decide)
  obtain ⟨a, ha, hm, hw⟩ := t.2.2.2.1 r hr
  refine ⟨t.2.1, r, hr, hm, ?_⟩
  have ha2 : alarmTarget (getRawTime ⟨fun _ => 0x01, 0, fun _ => 0⟩)
      (readBit ⟨fun _ => 0x01, 0, fun _ => 0⟩ Regs.Month 5) (86400 % 4294967296)
      = some { sec := 1, min := 1, hour := 1, wday := 2, mday := 2, month := 1, year := 2001 } := by
    decide
  rw [ha2] at ha
  simp only [Option.some.injEq] at ha
  rw [← ha] at hw
  simp only at hw
  exact_mod_cast hw

/-- C14. Armed state after configuration: for every prior register content and each of
`setMinuteAlarm`, `setHourAlarm`, `setDayAlarm` and `setAlarm` called on slot n with all
bus transfers succeeding, on return the control register has the enable bit 4+n of the
slot set and the square-wave bit 6 clear, and the triggered flag of the slot (bit 3 of
its weekday alarm register) is clear, so `readAlarm(n)` returns false.  `setAlarm`
returns whenever the month read from the device is at most 12. -/
theorem armed_after_configuration (b : Bus) (hb : b.allOk) (n : Bool) (Offset Delta : Nat) :
    armed n (setMinuteAlarm b Offset n).2 ∧
    armed n (setHourAlarm b Offset n).2 ∧
    armed n (setDayAlarm b Offset n).2 ∧
    (∀ r, setAlarm b Delta n = some r → armed n r.2) ∧
    ((getRawTime b).month ≤ 12 → ∃ r, setAlarm b Delta n = some r) := by
  refine ⟨(setMinuteAlarm_final b hb Offset n).2.2, (setHourAlarm_final b hb Offset n).2.2,
    (setDayAlarm_final b hb Offset n).2.2, ?_, setAlarm_isSome b Delta n⟩
  intro r hr
  obtain ⟨a, _, _, _, harm, _⟩ := setAlarm_final b hb Delta n r hr
  exact harm

/-- C14, at a concrete input: a device whose registers all hold 0xFF (both alarms
enabled, square wave on, both flags raised) for the periodic alarm, and one whose
registers all hold 0x01 for `setAlarm`. -/
theorem armed_after_configuration_witness :
    armed false (setMinuteAlarm ⟨fun _ => 0xFF, 0, fun _ => 0⟩ 30 false).2 ∧
    ∃ r, setAlarm ⟨fun _ => 0x01, 0, fun _ => 0⟩ 15 false = some r ∧ armed false r.2 := by
  have t := armed_after_configuration ⟨fun _ => 0x01, 0, fun _ => 0⟩ (fun _ => rfl) false 30 15
  obtain ⟨r, hr⟩ := t.2.2.2.2 (by decide)
  exact ⟨(armed_after_configuration ⟨fun _ => 0xFF, 0, fun _ => 0⟩ (fun _ => rfl)
    false 30 15).1, r, hr, t.2.2.2.1 r hr⟩

/-- C15. Alarm slots are independent: `enableAlarm`, `clearAlarm`, `setMinuteAlarm`,
`setHourAlarm`, `setDayAlarm` and `setAlarm` applied to slot n, whatever the statuses of
the bus transfers, leave every register of the block of the other slot unchanged, leave
the time registers 0x00..0x06 unchanged, and change no bit of the control register
other than the enable bit 4+n of the slot and the square-wave bit 6. -/
theorem alarm_slots_independent (b : Bus) (n State : Bool) (Offset Delta : Nat) :
    slotFrame n b (enableAlarm b State n).2 ∧
    slotFrame n b (clearAlarm b n).2 ∧
    slotFrame n b (setMinuteAlarm b Offset n).2 ∧
    slotFrame n b (setHourAlarm b Offset n).2 ∧
    slotFrame n b (setDayAlarm b Offset n).2 ∧
    (∀ r, setAlarm b Delta n = some r → slotFrame n b r.2) :=
  ⟨slotFrame_enableAlarm n b State, slotFrame_clearAlarm n b, slotFrame_setMinuteAlarm n b Offset,
   slotFrame_setHourAlarm n b Offset, slotFrame_setDayAlarm n b Offset,
   fun r hr => slotFrame_setAlarm n b Delta r hr⟩

/-- C15, at a concrete input: `setAlarm` on slot 0 of a device whose registers all hold
0x01 returns and stays inside the frame of slot 0. -/
theorem alarm_slots_independent_witness :
    ∃ r, setAlarm ⟨fun _ => 0x01, 0, fun _ => 0⟩ 15 false = some r ∧
      slotFrame false ⟨fun _ => 0x01, 0, fun _ => 0⟩ r.2 := by
  obtain ⟨r, hr⟩ := setAlarm_isSome ⟨fun _ => 0x01, 0, fun _ => 0⟩ 15 false (by decide)
  exact ⟨r, hr, (alarm_slots_independent ⟨fun _ => 0x01, 0, fun _ => 0⟩ false true 30 15).2.2.2.2.2
    r hr⟩

/-- What the periodic alarm functions return: the status of the sixth write transaction
of the call, the `setBit` of the final `enableAlarm`. -/
theorem periodic_return_value (b : Bus) (Offset : Nat) (n : Bool) :
    (setMinuteAlarm b Offset n).1 = b.status (b.nWrites + 5) ∧
    (setHourAlarm b Offset n).1 = b.status (b.nWrites + 5) ∧
    (setDayAlarm b Offset n).1 = b.status (b.nWrites + 5) := by
  refine ⟨?_, ?_, ?_⟩ <;>
    simp only [setMinuteAlarm, setHourAlarm, setDayAlarm, enableAlarm, setBit, clearBit,
      writeByte, Nat.add_assoc, Bool.false_eq_true, if_false, if_true]

/-- What `setAlarm` returns: the status of the tenth write transaction of the call, the
`setBit` of the final `enableAlarm`. -/
theorem setAlarm_return_value (b : Bus) (Delta : Nat) (n : Bool) (r : Int × Bus)
    (h : setAlarm b Delta n = some r) : r.1 = b.status (b.nWrites + 9) := by
  obtain ⟨a, _, hr⟩ := setAlarm_some b Delta n r h
  rw [hr]
  simp only [range6, List.foldl, setAlarmStep, enableAlarm, setBit, clearBit,
    writeByte, Nat.add_assoc, Bool.false_eq_true, if_false, if_true]

/-- C16 fails on the code: on a device whose third write transaction of the call fails
with status 4 while every other one succeeds, the three periodic alarm functions and
`setAlarm` all return 0. -/
theorem alarm_write_failure_not_reported :
    (⟨fun _ => 0x01, 0, fun k => if k = 2 then 4 else 0⟩ : Bus).status 2 ≠ 0 ∧
    (setMinuteAlarm ⟨fun _ => 0x01, 0, fun k => if k = 2 then 4 else 0⟩ 30 false).1 = 0 ∧
    (setHourAlarm ⟨fun _ => 0x01, 0, fun k => if k = 2 then 4 else 0⟩ 30 false).1 = 0 ∧
    (setDayAlarm ⟨fun _ => 0x01, 0, fun k => if k = 2 then 4 else 0⟩ 6 false).1 = 0 ∧
    (setAlarm ⟨fun _ => 0x01, 0, fun k => if k = 2 then 4 else 0⟩ 15 false).map Prod.fst
      = some 0 := by
  decide

/-- Error value of `setTime` as a function of the statuses of its seven write
transactions, and the number of write transactions it performs. -/
theorem setTime_error_value (b : Bus) (Year Month Day DoW Hour Min Sec : Int) :
    (setTime b Year Month Day DoW Hour Min Sec).1 =
      (if b.status (b.nWrites + 6) ≠ 0 then b.status (b.nWrites + 6)
       else if b.status (b.nWrites + 5) ≠ 0 then b.status (b.nWrites + 5)
       else if b.status (b.nWrites + 4) ≠ 0 then b.status (b.nWrites + 4)
       else if b.status (b.nWrites + 3) ≠ 0 then b.status (b.nWrites + 3)
       else if b.status (b.nWrites + 2) ≠ 0 then b.status (b.nWrites + 2)
       else if b.status (b.nWrites + 1) ≠ 0 then b.status (b.nWrites + 1)
       else if b.status (b.nWrites + 0) ≠ 0 then b.status (b.nWrites + 0)
       else 0) ∧
    (setTime b Year Month Day DoW Hour Min Sec).2.nWrites = b.nWrites + 7 := by
  refine ⟨?_, ?_⟩
  · simp only [setTime, range7, List.foldl, setTimeStep, writeByte, Nat.add_assoc,
      Nat.add_zero]
  · rfl

theorem forall_lt_seven (P : Nat → Prop) :
    (∀ k, k < 7 → P k) ↔ (P 0 ∧ P 1 ∧ P 2 ∧ P 3 ∧ P 4 ∧ P 5 ∧ P 6) := by
  constructor
  · intro h
    exact ⟨h 0 (by decide), h 1 (by decide), h 2 (by decide), h 3 (by decide),
      h 4 (by decide), h 5 (by decide), h 6 (by decide)⟩
  · rintro ⟨h0, h1, h2, h3, h4, h5, h6⟩ k hk
    interval_cases k <;> assumption

/-- The value kept by `if(Val != 0) Error = Val` over seven statuses is 0 exactly when
all are 0. -/
theorem lastError_eq_zero (s0 s1 s2 s3 s4 s5 s6 : Int) :
    (if s6 ≠ 0 then s6 else if s5 ≠ 0 then s5 else if s4 ≠ 0 then s4 else if s3 ≠ 0 then s3
      else if s2 ≠ 0 then s2 else if s1 ≠ 0 then s1 else if s0 ≠ 0 then s0 else 0) = 0 ↔
    (s0 = 0 ∧ s1 = 0 ∧ s2 = 0 ∧ s3 = 0 ∧ s4 = 0 ∧ s5 = 0 ∧ s6 = 0) := by
  split_ifs <;> simp_all

/-- The value kept by `if(Val != 0) Error = Val` over seven statuses is the last
non-zero one. -/
theorem lastError_eq_last (st : Nat → Int) (k : Nat) (hk : k < 7) (hne : st k ≠ 0)
    (hl : ∀ j, k < j → j < 7 → st j = 0) :
    (if st 6 ≠ 0 then st 6 else if st 5 ≠ 0 then st 5 else if st 4 ≠ 0 then st 4
      else if st 3 ≠ 0 then st 3 else if st 2 ≠ 0 then st 2 else if st 1 ≠ 0 then st 1
      else if st 0 ≠ 0 then st 0 else 0) = st k := by
  have l1 := hl 1
  have l2 := hl 2
  have l3 := hl 3
  have l4 := hl 4
  have l5 := hl 5
  have l6 := hl 6
  clear hl
  interval_cases k <;> simp_all

/-- C17. `setTime` reports write failures: it performs seven write transactions whatever
their statuses, returns 0 if and only if all seven return status 0, and otherwise
returns the status of the last one that failed. -/
theorem setTime_reports_failures (b : Bus) (Year Month Day DoW Hour Min Sec : Int) :
    (setTime b Year Month Day DoW Hour Min Sec).2.nWrites = b.nWrites + 7 ∧
    ((setTime b Year Month Day DoW Hour Min Sec).1 = 0 ↔
      ∀ k, k < 7 → b.status (b.nWrites + k) = 0) ∧
    (∀ k, k < 7 → b.status (b.nWrites + k) ≠ 0 →
      (∀ j, k < j → j < 7 → b.status (b.nWrites + j) = 0) →
      (setTime b Year Month Day DoW Hour Min Sec).1 = b.status (b.nWrites + k)) := by
  obtain ⟨hv, hn⟩ := setTime_error_value b Year Month Day DoW Hour Min Sec
  refine ⟨hn, ?_, ?_⟩
  · rw [hv, forall_lt_seven (fun k => b.status (b.nWrites + k) = 0)]
    exact lastError_eq_zero _ _ _ _ _ _ _
  · intro k hk hne hlater
    rw [hv]
    exact lastError_eq_last (fun k => b.status (b.nWrites + k)) k hk hne hlater

/-- C17, at a concrete input: the writes of registers 2 and 4 fail with statuses 2 and 3,
the others succeed; `setTime` returns 3 after seven write transactions. -/
theorem setTime_reports_failures_witness :
    (setTime { regs := fun _ => 0, nWrites := 0,
               status := fun k => if k = 2 then 2 else if k = 4 then 3 else 0 }
      2024 1 31 3 23 59 50).2.nWrites = 7 ∧
    (setTime { regs := fun _ => 0, nWrites := 0,
               status := fun k => if k = 2 then 2 else if k = 4 then 3 else 0 }
      2024 1 31 3 23 59 50).1 = 3 :=
  ⟨(setTime_reports_failures
      { regs := fun _ => 0, nWrites := 0,
        status := fun k => if k = 2 then 2 else if k = 4 then 3 else 0 }
      2024 1 31 3 23 59 50).1,
   (setTime_reports_failures
      { regs := fun _ => 0, nWrites := 0,
        status := fun k => if k = 2 then 2 else if k = 4 then 3 else 0 }
      2024 1 31 3 23 59 50).2.2 4 (by decide) (by decide)
      (fun j h1 h2 => by interval_cases j <;> rfl)⟩

/-- C18. Two-digit and four-digit years are interchangeable: for every year Y in
2000..2099, all other arguments and the prior state of the device being equal,
`setTime` called with Y and `setTime` called with Y - 2000 give the same result, so the
same bytes are written to the seven time registers. -/
theorem setTime_year_forms (b : Bus) (Y : Int) (hY : 2000 ≤ Y ∧ Y ≤ 2099)
    (Month Day DoW Hour Min Sec : Int) :
    setTime b Y Month Day DoW Hour Min Sec = setTime b (Y - 2000) Month Day DoW Hour Min Sec ∧
    ∀ i, i < 7 → (setTime b Y Month Day DoW Hour Min Sec).2.regs i
      = (setTime b (Y - 2000) Month Day DoW Hour Min Sec).2.regs i := by
  have h : setTime b Y Month Day DoW Hour Min Sec
      = setTime b (Y - 2000) Month Day DoW Hour Min Sec := by
    unfold setTime
    have e1 : (if Y > 999 then Y - 2000 else Y) = Y - 2000 := by
      rw [if_pos (by omega)]
    have e2 : (if Y - 2000 > 999 then Y - 2000 - 2000 else Y - 2000) = Y - 2000 := by
      rw [if_neg (by omega)]
    simp only [e1, e2]
  exact ⟨h, fun i _ => by rw [h]⟩

/-- C18, at a concrete input: the years 2024 and 24. -/
theorem setTime_year_forms_witness :
    setTime { regs := fun _ => 0xFF, nWrites := 0, status := fun _ => 0 } 2024 1 31 3 23 59 50
      = setTime { regs := fun _ => 0xFF, nWrites := 0, status := fun _ => 0 }
          (2024 - 2000) 1 31 3 23 59 50 ∧
    ∀ i, i < 7 →
      (setTime { regs := fun _ => 0xFF, nWrites := 0, status := fun _ => 0 }
        2024 1 31 3 23 59 50).2.regs i
      = (setTime { regs := fun _ => 0xFF, nWrites := 0, status := fun _ => 0 }
        (2024 - 2000) 1 31 3 23 59 50).2.regs i :=
  setTime_year_forms { regs := fun _ => 0xFF, nWrites := 0, status := fun _ => 0 } 2024
    (by decide) 1 31 3 23 59 50

/-! ## Month lengths and leap years -/

/-- C19. Month-length table: for every month 1..12, the table used by `setAlarm`
(February chosen by the leap flag) and the table used by the day-of-year computation of
`getTime` (February chosen by its leap test) give the Gregorian length of the month,
29 for February when the flag is set and 28 otherwise; the lengths are
31,28|29,31,30,31,30,31,31,30,31,30,31, and daysInMonth(2,true)=29,
daysInMonth(2,false)=28, daysInMonth(4,false)=30. -/
theorem month_length_tables (leap : Bool) (year m : Nat) (h1 : 1 ≤ m) (h2 : m ≤ 12) :
    tableAt (MonthDay leap) (m : Int) = some ((daysInMonth m leap : Nat) : Int) ∧
    tableAt (stardateMonthDay year) (m : Int)
      = some ((daysInMonth m (stardateLeap year) : Nat) : Int) ∧
    (List.range 12).map (fun i => daysInMonth (i + 1) leap)
      = [31, if leap then 29 else 28, 31, 30, 31, 30, 31, 31, 30, 31, 30, 31] ∧
    daysInMonth 2 true = 29 ∧ daysInMonth 2 false = 28 ∧ daysInMonth 4 false = 30 := by
  refine ⟨?_, ?_, ?_, rfl, rfl, rfl⟩
  · interval_cases m <;> cases leap <;> rfl
  · unfold stardateMonthDay
    interval_cases m <;> cases stardateLeap year <;> rfl
  · cases leap <;> decide

/-- C19, at a concrete input: February with the leap flag set, year 2024. -/
theorem month_length_tables_witness :
    tableAt (MonthDay true) ((2 : Nat) : Int) = some ((daysInMonth 2 true : Nat) : Int) ∧
    tableAt (stardateMonthDay 2024) ((2 : Nat) : Int)
      = some ((daysInMonth 2 (stardateLeap 2024) : Nat) : Int) ∧
    (List.range 12).map (fun i => daysInMonth (i + 1) true)
      = [31, if true = true then 29 else 28, 31, 30, 31, 30, 31, 31, 30, 31, 30, 31] ∧
    daysInMonth 2 true = 29 ∧ daysInMonth 2 false = 28 ∧ daysInMonth 4 false = 30 :=
  month_length_tables true 2024 2 (by decide) (by decide)

/-- C20 (amended). Leap-year rule on the range of the device: for every year in
2000..2099, the leap-year test applied by the day-of-year computation of `getTime` is
true exactly when the year is divisible by 4 and (not divisible by 100 or divisible
by 400). -/
theorem stardateLeap_gregorian (year : Nat) (h1 : 2000 ≤ year) (h2 : year ≤ 2099) :
    stardateLeap year = true ↔ (year % 4 = 0 ∧ (year % 100 ≠ 0 ∨ year % 400 = 0)) := by
  unfold stardateLeap
  simp only [beq_iff_eq]
  omega

/-- C20, at a concrete input: the year 2000, divisible by 400. -/
theorem stardateLeap_gregorian_witness :
    stardateLeap 2000 = true ↔ (2000 % 4 = 0 ∧ (2000 % 100 ≠ 0 ∨ 2000 % 400 = 0)) :=
  stardateLeap_gregorian 2000 (by decide) (by decide)

/-- C20 as stated fails: a year register holding 0xA0 is read as the year 2100, for which
the test of `getTime` is true although 2100 is divisible by 100 and not by 400. -/
theorem stardateLeap_gregorian_counterexample :
    (getRawTime { regs := fun r => if r = 6 then 0xA0 else 0x01, nWrites := 0,
                  status := fun _ => 0 }).year = 2100 ∧
    stardateLeap 2100 = true ∧
    ¬ (2100 % 4 = 0 ∧ (2100 % 100 ≠ 0 ∨ 2100 % 400 = 0)) := by
  decide

/-! ## Reachable states of the error log -/

theorem runOps_cons (s : ErrorLog) (op : LogOp) (ops : List LogOp) :
    runOps s (op :: ops) = runOps (applyOp s op) ops := rfl

/-- Invariant of the log while no more than 255 codes are pending: the counter is the
number of pending codes and every slot at or above it is zero. -/
theorem paced_invariant (ops : List LogOp) : ∀ (n : Nat) (s : ErrorLog),
    pacedFrom n ops → n ≤ 255 → s.numErrors = n →
    (∀ j, j < 10 → n ≤ j → s.errors j = 0) →
    (runOps s ops).numErrors ≤ 255 ∧
    ∀ j, j < 10 → (runOps s ops).numErrors ≤ j → (runOps s ops).errors j = 0 := by
  induction ops with
  | nil =>
    intro n s _ hn hs hz
    exact ⟨by simp only [runOps, List.foldl]; omega,
      fun j hj hle => hz j hj (by simp only [runOps, List.foldl] at hle; omega)⟩
  | cons op rest ih =>
    intro n s hp hn hs hz
    rw [runOps_cons]
    cases op with
    | record code =>
      obtain ⟨hn1, hp1⟩ := hp
      refine ih (n + 1) (applyOp s (LogOp.record code)) hp1 hn1 ?_ ?_
      · simp only [applyOp, throwErr, hs]
        omega
      · intro j hj hle
        simp only [applyOp, throwErr, hs, MAX_NUM_ERRORS]
        rw [if_neg (by omega)]
        exact hz j hj (by omega)
    | drain =>
      refine ih 0 (applyOp s LogOp.drain) hp (by omega) rfl ?_
      intro j hj _
      simp only [applyOp, getErrorsArray, hs, MAX_NUM_ERRORS]
      rw [(copyLoop_spec _ 0 _ _ j).1]
      split_ifs with hc
      · rfl
      · exact hz j hj (by omega)

/-- C11 (amended). Drain resets the log: in every state reachable from the initial
(all-zero) log by a sequence of throwError and getErrorsArray calls in which no more
than 255 codes are recorded between two consecutive drains, after getErrorsArray
returns all 10 buffer slots are zero and the count is zero. -/
theorem drain_resets_log (ops : List LogOp) (hp : pacedFrom 0 ops) (out : Nat → Nat) :
    (getErrorsArray (runOps ErrorLog.init ops) out).2.1.numErrors = 0 ∧
    ∀ j, j < 10 → (getErrorsArray (runOps ErrorLog.init ops) out).2.1.errors j = 0 := by
  obtain ⟨hle, hz⟩ := paced_invariant ops 0 ErrorLog.init hp (by omega) rfl (fun _ _ _ => rfl)
  refine ⟨rfl, ?_⟩
  intro j hj
  simp only [getErrorsArray, MAX_NUM_ERRORS]
  rw [(copyLoop_spec _ 0 _ _ j).1]
  split_ifs with hc
  · rfl
  · exact hz j hj (by omega)

/-- C11, at a concrete input: twelve codes, a drain, and two more codes. -/
theorem drain_resets_log_witness :
    (getErrorsArray (runOps ErrorLog.init
        ((List.replicate 12 (LogOp.record 5)) ++ [LogOp.drain, LogOp.record 6, LogOp.record 7]))
      (fun _ => 0)).2.1.numErrors = 0 ∧
    ∀ j, j < 10 → (getErrorsArray (runOps ErrorLog.init
        ((List.replicate 12 (LogOp.record 5)) ++ [LogOp.drain, LogOp.record 6, LogOp.record 7]))
      (fun _ => 0)).2.1.errors j = 0 :=
  drain_resets_log
    ((List.replicate 12 (LogOp.record 5)) ++ [LogOp.drain, LogOp.record 6, LogOp.record 7])
    (by decide) (fun _ => 0)


theorem runOps_records (s : ErrorLog) (cs : List Nat) :
    runOps s (cs.map LogOp.record) = throwAll s cs := by
  induction cs generalizing s with
  | nil => rfl
  | cons c rest ih =>
    rw [List.map_cons, runOps_cons, ih]
    rfl

theorem throwAll_append (s : ErrorLog) (l1 l2 : List Nat) :
    throwAll s (l1 ++ l2) = throwAll (throwAll s l1) l2 := by
  simp [throwAll, List.foldl_append]

/-- Recording the code 1 keeps every slot that holds 1. -/
theorem throwAll_ones (n : Nat) : ∀ (s : ErrorLog) (j : Nat), s.errors j = 1 →
    (throwAll s (List.replicate n 1)).errors j = 1 := by
  induction n with
  | zero => intro s j h; exact h
  | succ k ih =>
    intro s j h
    rw [List.replicate_succ]
    show (throwAll (throwErr s 1).2 (List.replicate k 1)).errors j = 1
    apply ih
    simp only [throwErr]
    split_ifs
    · rfl
    · exact h

theorem getD_replicate_lt (n : Nat) (c : Nat) : ∀ k, k < n →
    (List.replicate n c).getD k 0 = c := by
  induction n with
  | zero => intro k hk; omega
  | succ m ih =>
    intro k hk
    rw [List.replicate_succ]
    cases k with
    | zero => rfl
    | succ i => exact ih i (by omega)

/-- C11 as stated fails: after 260 calls of throwError on the log of a fresh object the
`uint8_t` count is 4, getErrorsArray clears the slots 0..3 only, and slot 4 still holds
a code. -/
theorem drain_resets_log_counterexample :
    (getErrorsArray (runOps ErrorLog.init ((List.replicate 260 1).map LogOp.record))
      (fun _ => 0)).2.1.errors 4 = 1 := by
  rw [runOps_records]
  have hsplit : List.replicate 260 1 = List.replicate 250 1 ++ List.replicate 10 1 := by
    rw [← List.replicate_add]
  have hn := throwAll_numErrors ErrorLog.init rfl (List.replicate 260 1)
  rw [List.length_replicate] at hn
  have h250 := (throwAll_state ErrorLog.init rfl (List.replicate 250 1)
    (by rw [List.length_replicate]; decide)).2 244
    (by rw [List.length_replicate]; decide) (by rw [List.length_replicate]; decide)
  have hslot : (throwAll ErrorLog.init (List.replicate 260 1)).errors 4 = 1 := by
    rw [hsplit, throwAll_append]
    apply throwAll_ones
    rw [show (4 : Nat) = 244 % 10 from rfl, h250, getD_replicate_lt 250 1 244 (by decide)]
  simp only [getErrorsArray, hn, MAX_NUM_ERRORS]
  rw [(copyLoop_spec _ 0 _ _ 4).1, if_neg (by decide)]
  exact hslot

/-! ## Steps of the alarm-time computation -/

/-- The array `AlarmTime` computed by `setAlarm`, for any time read from the device:
the time-of-day fields with the carries `c1`, `c2`, `c3` named, and the day-of-week,
day-of-month and month steps as the source writes them, `maxDay` being the entry of
`MonthDay` for the current month. -/
theorem alarmTarget_steps (t : Timestamp) (lpyr : Bool) (Delta : Nat) (a : AlarmTime)
    (h : alarmTarget t lpyr Delta = some a) (c1 c2 c3 : Nat)
    (h1 : c1 = (if 60 ≤ t.sec + Delta % 60 then 1 else 0))
    (h2 : c2 = (if 60 ≤ t.min + Delta / 60 % 60 + c1 then 1 else 0))
    (h3 : c3 = (if 24 ≤ t.hour + Delta / 3600 % 24 + c2 then 1 else 0)) :
    ∃ maxDay : Int, tableAt (MonthDay lpyr) (t.month : Int) = some maxDay ∧
      a.sec = (((t.sec + Delta % 60) % 60 : Nat) : Int) ∧
      a.min = (((t.min + Delta / 60 % 60 + c1) % 60 : Nat) : Int) ∧
      a.hour = (((t.hour + Delta / 3600 % 24 + c2) % 24 : Nat) : Int) ∧
      a.wday = ((t.wday : Int) + ((Delta / 86400 : Nat) : Int) + (c3 : Int) - 1).tmod 7 + 1 ∧
      a.mday = (if ((t.mday : Int) + ((Delta / 86400 : Nat) : Int) + (c3 : Int)).tmod (maxDay + 1) = 0
                then 1
                else ((t.mday : Int) + ((Delta / 86400 : Nat) : Int) + (c3 : Int)).tmod (maxDay + 1)) ∧
      a.month = ((t.month : Int)
          + (if (t.mday : Int) + ((Delta / 86400 : Nat) : Int) + (c3 : Int) > maxDay then 1 else 0)
          - 1).tmod 12 + 1 ∧
      a.year = (t.year : Int) := by
  unfold alarmTarget at h
  simp only [] at h
  split at h
  · exact absurd h (by simp)
  · rename_i maxDay hmax
    refine ⟨maxDay, hmax, ?_⟩
    simp only [Option.some.injEq] at h
    rw [← h]
    simp only []
    have d1 : (Delta - Delta % 60) / 60 = Delta / 60 := by omega
    have d2 : (Delta - Delta % 3600) / 3600 = Delta / 3600 := by omega
    have d3 : (Delta - Delta % 86400) / 86400 = Delta / 86400 := by omega
    rw [d1, d2, d3]
    have e1 : (if (t.sec : Int) + ((Delta % 60 : Nat) : Int) ≥ 60 then (1 : Int) else 0)
        = (c1 : Int) := by
      rw [h1]; split_ifs <;> omega
    rw [e1]
    have e2 : (if (t.min : Int) + ((Delta / 60 % 60 : Nat) : Int) + (c1 : Int) ≥ 60
        then (1 : Int) else 0) = (c2 : Int) := by
      rw [h2]; split_ifs <;> omega
    rw [e2]
    have e3 : (if (t.hour : Int) + ((Delta / 3600 % 24 : Nat) : Int) + (c2 : Int) ≥ 24
        then (1 : Int) else 0) = (c3 : Int) := by
      rw [h3]; split_ifs <;> omega
    rw [e3]
    refine ⟨?_, ?_, ?_, rfl, rfl, rfl, trivial⟩
    · rw [Int.tmod_eq_emod (by omega) (by omega)]; omega
    · rw [Int.tmod_eq_emod (by omega) (by omega)]; omega
    · rw [Int.tmod_eq_emod (by omega) (by omega)]; omega

/-- The computation of `setAlarm` gives a result whenever the current month is at most
12, that is, indexes inside `MonthDay`. -/
theorem alarmTarget_isSome (t : Timestamp) (lpyr : Bool) (Delta : Nat) (hm : t.month ≤ 12) :
    ∃ a, alarmTarget t lpyr Delta = some a := by
  have ht : ∃ v, tableAt (MonthDay lpyr) (t.month : Int) = some v := by
    generalize t.month = m at hm
    interval_cases m <;> exact ⟨_, rfl⟩
  obtain ⟨v, hv⟩ := ht
  unfold alarmTarget
  simp only [hv]
  exact ⟨_, rfl⟩

/-- C23. Delta decomposition: for every unsigned 32-bit delta, the parts `setAlarm`
computes, written (Delta - Delta % 60)/60 % 60 and so on, are Delta % 60,
(Delta / 60) % 60, (Delta / 3600) % 24 and Delta / 86400 (the last one twice, for the
day of the week and the day of the month), and they recompose exactly:
seconds + 60*minutes + 3600*hours + 86400*days = Delta. -/
theorem delta_decomposition (Delta : Nat) (hD : Delta < 4294967296) :
    AlarmVal Delta =
      [((Delta % 60 : Nat) : Int), ((Delta / 60 % 60 : Nat) : Int),
       ((Delta / 3600 % 24 : Nat) : Int), ((Delta / 86400 : Nat) : Int),
       ((Delta / 86400 : Nat) : Int), 0, 0] ∧
    (AlarmVal Delta).getD 0 0 + 60 * (AlarmVal Delta).getD 1 0
      + 3600 * (AlarmVal Delta).getD 2 0 + 86400 * (AlarmVal Delta).getD 3 0 = (Delta : Int) ∧
    (∀ i, i < 7 → 0 ≤ (AlarmVal Delta).getD i 0 ∧ (AlarmVal Delta).getD i 0 < 2147483648) := by
  have d1 : (Delta - Delta % 60) / 60 = Delta / 60 := by omega
  have d2 : (Delta - Delta % 3600) / 3600 = Delta / 3600 := by omega
  have d3 : (Delta - Delta % 86400) / 86400 = Delta / 86400 := by omega
  unfold AlarmVal
  rw [d1, d2, d3]
  refine ⟨rfl, ?_, ?_⟩
  · simp only [List.getD_cons_zero, List.getD_cons_succ]
    omega
  · intro i hi
    interval_cases i <;> simp only [List.getD_cons_zero, List.getD_cons_succ] <;> omega

/-- C23, at a concrete input: 93784 seconds are 1 day, 2 hours, 3 minutes and 4 seconds. -/
theorem delta_decomposition_witness :
    AlarmVal 93784 = [4, 3, 2, 1, 1, 0, 0] ∧
    (AlarmVal 93784 =
      [((93784 % 60 : Nat) : Int), ((93784 / 60 % 60 : Nat) : Int),
       ((93784 / 3600 % 24 : Nat) : Int), ((93784 / 86400 : Nat) : Int),
       ((93784 / 86400 : Nat) : Int), 0, 0] ∧
    (AlarmVal 93784).getD 0 0 + 60 * (AlarmVal 93784).getD 1 0
      + 3600 * (AlarmVal 93784).getD 2 0 + 86400 * (AlarmVal 93784).getD 3 0
      = ((93784 : Nat) : Int) ∧
    (∀ i, i < 7 → 0 ≤ (AlarmVal 93784).getD i 0 ∧ (AlarmVal 93784).getD i 0 < 2147483648)) :=
  ⟨by decide, delta_decomposition 93784 (by decide)⟩

theorem hourCarry_le (t : Timestamp) (Delta : Nat) : hourCarry t Delta ≤ 1 := by
  unfold hourCarry; split_ifs <;> omega

/-- The fields computed by `setAlarm` in terms of the carries `secCarry`, `minCarry`
and `hourCarry`. -/
theorem alarmTarget_carries (t : Timestamp) (lpyr : Bool) (Delta : Nat) (a : AlarmTime)
    (h : alarmTarget t lpyr Delta = some a) :
    ∃ maxDay : Int, tableAt (MonthDay lpyr) (t.month : Int) = some maxDay ∧
      a.sec = (((t.sec + Delta % 60) % 60 : Nat) : Int) ∧
      a.min = (((t.min + Delta / 60 % 60 + secCarry t Delta) % 60 : Nat) : Int) ∧
      a.hour = (((t.hour + Delta / 3600 % 24 + minCarry t Delta) % 24 : Nat) : Int) ∧
      a.wday = ((t.wday : Int) + ((Delta / 86400 : Nat) : Int) + (hourCarry t Delta : Int) - 1).tmod 7
        + 1 ∧
      a.mday = (if ((t.mday : Int) + ((Delta / 86400 : Nat) : Int)
                    + (hourCarry t Delta : Int)).tmod (maxDay + 1) = 0
                then 1
                else ((t.mday : Int) + ((Delta / 86400 : Nat) : Int)
                    + (hourCarry t Delta : Int)).tmod (maxDay + 1)) ∧
      a.month = ((t.month : Int)
          + (if (t.mday : Int) + ((Delta / 86400 : Nat) : Int) + (hourCarry t Delta : Int) > maxDay
              then 1 else 0)
          - 1).tmod 12 + 1 ∧
      a.year = (t.year : Int) := by
  have d1 : (Delta - Delta % 60) / 60 = Delta / 60 := by omega
  have d2 : (Delta - Delta % 3600) / 3600 = Delta / 3600 := by omega
  exact alarmTarget_steps t lpyr Delta a h (secCarry t Delta) (minCarry t Delta)
    (hourCarry t Delta) rfl (by unfold minCarry; rw [d1]) (by unfold hourCarry; rw [d2])

theorem weekdayAfter_eq (w : Nat) (h1 : 1 ≤ w) (h7 : w ≤ 7) : ∀ k,
    weekdayAfter w k = (w + k - 1) % 7 + 1 := by
  intro k
  induction k with
  | zero =>
    show w = (w + 0 - 1) % 7 + 1
    omega
  | succ n ih =>
    show weekdayAfter w n % 7 + 1 = (w + (n + 1) - 1) % 7 + 1
    rw [ih]
    omega

/-- C24. Day-of-week step: for every current day-of-week in 1..7, every days-part
Delta / 86400 and every hour carry (0 or 1), the day-of-week `setAlarm` computes equals
((dow + days-part + carry - 1) mod 7) + 1, lies in 1..7, and is the weekday that falls
days-part + carry days after the current one.  The computation gives a result whenever
the current month is at most 12. -/
theorem weekday_step (t : Timestamp) (lpyr : Bool) (Delta : Nat)
    (hw1 : 1 ≤ t.wday) (hw7 : t.wday ≤ 7) :
    hourCarry t Delta ≤ 1 ∧
    (∀ a, alarmTarget t lpyr Delta = some a →
      a.wday = (((t.wday + Delta / 86400 + hourCarry t Delta - 1) % 7 + 1 : Nat) : Int) ∧
      1 ≤ a.wday ∧ a.wday ≤ 7 ∧
      a.wday = ((weekdayAfter t.wday (Delta / 86400 + hourCarry t Delta) : Nat) : Int)) ∧
    (t.month ≤ 12 → ∃ a, alarmTarget t lpyr Delta = some a) := by
  refine ⟨hourCarry_le t Delta, ?_, alarmTarget_isSome t lpyr Delta⟩
  intro a h
  obtain ⟨maxDay, _, _, _, _, hwd, _⟩ := alarmTarget_carries t lpyr Delta a h
  have e : a.wday = (((t.wday + Delta / 86400 + hourCarry t Delta - 1) % 7 + 1 : Nat) : Int) := by
    rw [hwd, Int.tmod_eq_emod (by omega) (by omega)]
    omega
  refine ⟨e, by omega, by omega, ?_⟩
  rw [e, weekdayAfter_eq t.wday hw1 hw7, Nat.add_assoc]

/-- C24, at a concrete input: Sunday (7) 23:59:50 plus 15 seconds, with a carry out of
the hours, gives Monday (1). -/
theorem weekday_step_witness :
    hourCarry { year := 2024, month := 2, mday := 4, wday := 7, hour := 23, min := 59, sec := 50 }
      15 = 1 ∧
    ∃ a, alarmTarget
        { year := 2024, month := 2, mday := 4, wday := 7, hour := 23, min := 59, sec := 50 }
        true 15 = some a ∧ a.wday = 1 := by
  have t := weekday_step
    { year := 2024, month := 2, mday := 4, wday := 7, hour := 23, min := 59, sec := 50 }
    true 15 (by decide) (by decide)
  obtain ⟨a, ha⟩ := t.2.2 (by decide)
  refine ⟨by decide, a, ha, ?_⟩
  have := (t.2.1 a ha).1
  rw [this]
  decide

/-- The time-of-day sum for every delta: the three fields add up to the second of the day
of the target, and the carry out of the hours tells whether the target is on the next
day. -/
theorem tod_carry_all (h m s D c1 c2 c3 : Nat) (hh : h ≤ 23) (hm : m ≤ 59) (hs : s ≤ 59)
    (h1 : c1 = (if 60 ≤ s + D % 60 then 1 else 0))
    (h2 : c2 = (if 60 ≤ m + D / 60 % 60 + c1 then 1 else 0))
    (h3 : c3 = (if 24 ≤ h + D / 3600 % 24 + c2 then 1 else 0)) :
    (h + D / 3600 % 24 + c2) % 24 * 3600 + (m + D / 60 % 60 + c1) % 60 * 60 + (s + D % 60) % 60
      = (h * 3600 + m * 60 + s + D) % 86400 ∧
    (c3 = 1 ↔ 86400 ≤ h * 3600 + m * 60 + s + D % 86400) := by
  have e1 : D % 60 = D % 86400 % 60 := by omega
  have e2 : D / 60 % 60 = D % 86400 / 60 % 60 := by omega
  have e3 : D / 3600 % 24 = D % 86400 / 3600 % 24 := by omega
  rw [e1] at h1
  rw [e2] at h2
  rw [e3] at h3
  have hD : D % 86400 < 86400 := Nat.mod_lt _ (by decide)
  obtain ⟨t1, t2, t3, t4⟩ := tod_carry h m s (D % 86400) c1 c2 c3 hh hm hs hD h1 h2 h3
  rw [e1, e2, e3, t1, t2, t3]
  constructor
  · omega
  · have : c3 ≤ 1 := by rw [h3]; split_ifs <;> omega
    omega

/-- C27. Time-of-day addition is exact for every delta: for every current hour in 0..23,
minute in 0..59, second in 0..59 and every delta (every unsigned 32-bit delta among
them), the hour, minute and second `setAlarm` computes satisfy hour*3600 + minute*60 + second =
(currentSecondOfDay + delta) mod 86400 and lie in 0..23, 0..59, 0..59; the carry passed
to the day step (`hourCarry`, which enters the day-of-week and the day-of-month) is 1
exactly when currentSecondOfDay + (delta mod 86400) >= 86400.  The computation gives a
result whenever the current month is at most 12. -/
theorem timeofday_addition_exact (t : Timestamp) (lpyr : Bool) (Delta : Nat)
    (hh : t.hour ≤ 23) (hm : t.min ≤ 59) (hs : t.sec ≤ 59) :
    (∀ a, alarmTarget t lpyr Delta = some a →
      a.hour * 3600 + a.min * 60 + a.sec
        = (((t.hour * 3600 + t.min * 60 + t.sec + Delta) % 86400 : Nat) : Int) ∧
      0 ≤ a.hour ∧ a.hour ≤ 23 ∧ 0 ≤ a.min ∧ a.min ≤ 59 ∧ 0 ≤ a.sec ∧ a.sec ≤ 59 ∧
      a.wday = ((t.wday : Int) + ((Delta / 86400 : Nat) : Int) + (hourCarry t Delta : Int) - 1).tmod 7
        + 1 ∧
      ∃ maxDay : Int, tableAt (MonthDay lpyr) (t.month : Int) = some maxDay ∧
        a.mday = (if ((t.mday : Int) + ((Delta / 86400 : Nat) : Int)
                      + (hourCarry t Delta : Int)).tmod (maxDay + 1) = 0
                  then 1
                  else ((t.mday : Int) + ((Delta / 86400 : Nat) : Int)
                      + (hourCarry t Delta : Int)).tmod (maxDay + 1))) ∧
    (hourCarry t Delta = 1 ↔ 86400 ≤ t.hour * 3600 + t.min * 60 + t.sec + Delta % 86400) ∧
    (hourCarry t Delta = 0 ↔ t.hour * 3600 + t.min * 60 + t.sec + Delta % 86400 < 86400) ∧
    (t.month ≤ 12 → ∃ a, alarmTarget t lpyr Delta = some a) := by
  have d1 : (Delta - Delta % 60) / 60 = Delta / 60 := by omega
  have d2 : (Delta - Delta % 3600) / 3600 = Delta / 3600 := by omega
  obtain ⟨s1, s2⟩ := tod_carry_all t.hour t.min t.sec Delta (secCarry t Delta) (minCarry t Delta)
    (hourCarry t Delta) hh hm hs rfl (by unfold minCarry; rw [d1]) (by unfold hourCarry; rw [d2])
  have hc := hourCarry_le t Delta
  refine ⟨?_, s2, by omega, alarmTarget_isSome t lpyr Delta⟩
  intro a h
  obtain ⟨maxDay, hmax, es, em, eh, ew, ed, _⟩ := alarmTarget_carries t lpyr Delta a h
  refine ⟨?_, by omega, by omega, by omega, by omega, by omega, by omega, ew, maxDay, hmax, ed⟩
  rw [es, em, eh, ← s1]
  push_cast
  ring

/-- C27, at a concrete input: 23:59:59 plus 86401 seconds (one day and one second,
more than a day) gives 00:00:00 with a carry into the day step. -/
theorem timeofday_addition_exact_witness :
    (∀ a, alarmTarget ⟨2024, 2, 4, 7, 23, 59, 59⟩ true 86401 = some a →
      a.hour * 3600 + a.min * 60 + a.sec = 0) ∧
    hourCarry ⟨2024, 2, 4, 7, 23, 59, 59⟩ 86401 = 1 ∧
    alarmTarget ⟨2024, 2, 4, 7, 23, 59, 59⟩ true 86401 = some ⟨0, 0, 0, 2, 6, 2, 2024⟩ := by
  have t := timeofday_addition_exact ⟨2024, 2, 4, 7, 23, 59, 59⟩ true 86401
    (by decide) (by decide) (by decide)
  refine ⟨fun a h => ?_, by decide, by decide⟩
  rw [(t.1 a h).1]
  decide

/-- The write loop of `setAlarm` reads the entries 0..5 of `AlarmTime` only: the bus it
leaves does not depend on the year entry `AlarmTime[6]`. -/
theorem setAlarm_loop_year (off : Nat) (s m h w d mo y1 y2 : Int) (b : Bus) :
    (List.range 6).foldl (setAlarmStep off [s, m, h, w, d, mo, y1]) b
      = (List.range 6).foldl (setAlarmStep off [s, m, h, w, d, mo, y2]) b := by
  rw [range6]
  rfl

/-- Registers `setAlarm` leaves alone: every register other than the control register
and the six registers of the slot. -/
theorem setAlarm_regs_frame (b : Bus) (Delta : Nat) (n : Bool) (r : Int × Bus)
    (h : setAlarm b Delta n = some r) (reg : Nat) (hc : reg ≠ Control)
    (hs : reg < slotOffset n ∨ slotOffset n + 5 < reg) : r.2.regs reg = b.regs reg := by
  obtain ⟨a, _, hr⟩ := setAlarm_some b Delta n r h
  rw [hr]
  simp only []
  rw [clearAlarm_regs_ne _ _ _ (by simp only [Regs.WeekDay]; omega),
    enableAlarm_regs_ne _ _ _ _ hc, range6]
  simp only [List.foldl, setAlarmStep]
  rw [writeByte_regs_ne _ _ _ _ (by simp only [Regs.Seconds]; omega),
    writeByte_regs_ne _ _ _ _ (by simp only [Regs.Seconds]; omega),
    writeByte_regs_ne _ _ _ _ (by simp only [Regs.Seconds]; omega),
    writeByte_regs_ne _ _ _ _ (by simp only [Regs.Seconds]; omega),
    writeByte_regs_ne _ _ _ _ (by simp only [Regs.Seconds]; omega),
    writeByte_regs_ne _ _ _ _ (by simp only [Regs.Seconds]; omega),
    enableAlarm_regs_ne _ _ _ _ hc]

/-- C25. Month step without year rollover: for every current month in 1..12, the month
`setAlarm` computes is the current month when the day step produced no carry and
((month + 1 - 1) mod 12) + 1 when it did, so it always lies in 1..12 and December with
a carry becomes January; the year entry stays the year read, and no year value is
written: the device after `setAlarm` is the same whatever the year entry holds, and the
register following the six registers of the slot, like the year register of the clock,
keeps its content. -/
theorem month_step_no_year_rollover (t : Timestamp) (lpyr : Bool) (Delta : Nat)
    (hm1 : 1 ≤ t.month) (hm12 : t.month ≤ 12) :
    (∃ a maxDay, alarmTarget t lpyr Delta = some a ∧
      tableAt (MonthDay lpyr) (t.month : Int) = some maxDay ∧
      maxDay = ((daysInMonth t.month lpyr : Nat) : Int) ∧
      ((t.mday : Int) + ((Delta / 86400 : Nat) : Int) + (hourCarry t Delta : Int) ≤ maxDay →
        a.month = (t.month : Int)) ∧
      (maxDay < (t.mday : Int) + ((Delta / 86400 : Nat) : Int) + (hourCarry t Delta : Int) →
        a.month = (((t.month + 1 - 1) % 12 + 1 : Nat) : Int)) ∧
      1 ≤ a.month ∧ a.month ≤ 12 ∧
      (t.month = 12 →
        maxDay < (t.mday : Int) + ((Delta / 86400 : Nat) : Int) + (hourCarry t Delta : Int) →
        a.month = 1) ∧
      a.year = (t.year : Int)) ∧
    (∀ (b : Bus) (n : Bool) (r : Int × Bus), setAlarm b Delta n = some r →
      (∃ a, alarmTarget (getRawTime b) (readBit b Regs.Month 5) (Delta % 4294967296) = some a ∧
        a.year = ((getRawTime b).year : Int) ∧
        ∀ y : Int, r.2 = (clearAlarm (enableAlarm ((List.range 6).foldl
            (setAlarmStep (slotOffset n) [a.sec, a.min, a.hour, a.wday, a.mday, a.month, y])
            (enableAlarm b false n).2) true n).2 n).2) ∧
      r.2.regs (Regs.Year + slotOffset n) = b.regs (Regs.Year + slotOffset n) ∧
      r.2.regs Regs.Year = b.regs Regs.Year) := by
  constructor
  · obtain ⟨a, ha⟩ := alarmTarget_isSome t lpyr Delta hm12
    obtain ⟨maxDay, hmax, _, _, _, _, _, emo, ey⟩ := alarmTarget_carries t lpyr Delta a ha
    have hd : maxDay = ((daysInMonth t.month lpyr : Nat) : Int) := by
      have := tableAt_MonthDay lpyr t.month hm1 hm12
      rw [hmax] at this
      exact Option.some.inj this
    refine ⟨a, maxDay, ha, hmax, hd, ?_, ?_, ?_, ?_, ?_, ey⟩
    · intro hc
      rw [emo, if_neg (by omega), Int.tmod_eq_emod (by omega) (by omega)]
      omega
    · intro hc
      rw [emo, if_pos (by omega), Int.tmod_eq_emod (by omega) (by omega)]
      omega
    · rw [emo, Int.tmod_eq_emod (by split_ifs <;> omega) (by omega)]
      omega
    · rw [emo, Int.tmod_eq_emod (by split_ifs <;> omega) (by omega)]
      omega
    · intro h12 hc
      rw [emo, if_pos (by omega), Int.tmod_eq_emod (by omega) (by omega)]
      omega
  · intro b n r h
    obtain ⟨a, ha, hr⟩ := setAlarm_some b Delta n r h
    obtain ⟨_, _, _, _, _, _, _, _, ey⟩ := alarmTarget_carries _ _ _ a ha
    refine ⟨⟨a, ha, ey, fun y => ?_⟩, ?_, ?_⟩
    · rw [hr]
      simp only []
      rw [setAlarm_loop_year (slotOffset n) a.sec a.min a.hour a.wday a.mday a.month a.year y]
    · exact setAlarm_regs_frame b Delta n r h _ (by cases n <;> decide)
        (Or.inr (by simp only [Regs.Year]; omega))
    · exact setAlarm_regs_frame b Delta n r h _ (by decide) (Or.inl (by cases n <;> decide))

/-- C25, at a concrete input: December 31, 23:59:59 plus one second gives month 1
(January) with the year entry still 2024. -/
theorem month_step_no_year_rollover_witness :
    alarmTarget ⟨2024, 12, 31, 2, 23, 59, 59⟩ true 1 = some ⟨0, 0, 0, 3, 1, 1, 2024⟩ ∧
    ∃ a maxDay, alarmTarget ⟨2024, 12, 31, 2, 23, 59, 59⟩ true 1 = some a ∧
      tableAt (MonthDay true) 12 = some maxDay ∧ a.month = 1 ∧ a.year = 2024 := by
  obtain ⟨a, maxDay, ha, hmax, hd, _, _, _, _, hdec, hy⟩ :=
    (month_step_no_year_rollover ⟨2024, 12, 31, 2, 23, 59, 59⟩ true 1
      (by decide) (by decide)).1
  refine ⟨by decide, a, maxDay, ha, hmax, hdec rfl ?_, hy⟩
  rw [hd]
  decide

/-! ## Decoding of the time registers -/

theorem agreeBelow_mod (k v w : Nat) (h : agreeBelow k v w) : w % 2 ^ k = v % 2 ^ k := by
  apply Nat.eq_of_testBit_eq
  intro i
  rw [Nat.testBit_mod_two_pow, Nat.testBit_mod_two_pow]
  by_cases hi : i < k
  · rw [h i hi]
  · simp [hi]

theorem agreeBelow_refl (k v : Nat) : agreeBelow k v v := fun _ _ => rfl

theorem agreeBelow_trans (k u v w : Nat) (h1 : agreeBelow k u v) (h2 : agreeBelow k v w) :
    agreeBelow k u w := fun i hi => (h2 i hi).trans (h1 i hi)

set_option maxRecDepth 100000 in
theorem decodeField_masked : ∀ v : Nat, v < 256 →
    decodeField 0 v = decodeField 0 (v % 2 ^ 7) ∧
    decodeField 1 v = decodeField 1 (v % 2 ^ 7) ∧
    decodeField 2 v = decodeField 2 (v % 2 ^ 6) ∧
    decodeField 3 v = decodeField 3 (v % 2 ^ 3) ∧
    decodeField 4 v = decodeField 4 (v % 2 ^ 6) ∧
    decodeField 5 v = decodeField 5 (v % 2 ^ 5) ∧
    decodeField 6 v = decodeField 6 (v % 2 ^ 8) := by
  decide

set_option maxRecDepth 100000 in
theorem decodeField_decode : ∀ v : Nat, v < 256 →
    decodeField 0 v = decode v 3 ∧
    decodeField 1 v = decode v 3 ∧
    decodeField 2 v = decode v 2 ∧
    decodeField 3 v = v &&& 0x07 ∧
    decodeField 4 v = decode v 2 ∧
    decodeField 5 v = decode v 1 ∧
    decodeField 6 v = decode v 4 := by
  decide

theorem decodeField_agree (i k : Nat) (b c : Bus) (r : Nat)
    (hk : ∀ v : Nat, v < 256 → decodeField i v = decodeField i (v % 2 ^ k))
    (h : agreeBelow k (readByte b r) (readByte c r)) :
    decodeField i (c.regs r % 256) = decodeField i (b.regs r % 256) := by
  have e := agreeBelow_mod k _ _ h
  unfold readByte at e
  rw [hk _ (Nat.mod_lt _ (by decide)), hk (b.regs r % 256) (Nat.mod_lt _ (by decide)), e]

/-- Buses whose time registers hold the same time-field bits decode to the same
Timestamp. -/
theorem getRawTime_sameTimeBits (b c : Bus) (h : sameTimeBits b c) :
    getRawTime c = getRawTime b := by
  obtain ⟨h0, h1, h2, h3, h4, h5, h6⟩ := h
  unfold getRawTime
  simp only []
  rw [decodeField_agree 0 7 b c 0 (fun v hv => (decodeField_masked v hv).1) h0,
    decodeField_agree 1 7 b c 1 (fun v hv => (decodeField_masked v hv).2.1) h1,
    decodeField_agree 2 6 b c 2 (fun v hv => (decodeField_masked v hv).2.2.1) h2,
    decodeField_agree 3 3 b c 3 (fun v hv => (decodeField_masked v hv).2.2.2.1) h3,
    decodeField_agree 4 6 b c 4 (fun v hv => (decodeField_masked v hv).2.2.2.2.1) h4,
    decodeField_agree 5 5 b c 5 (fun v hv => (decodeField_masked v hv).2.2.2.2.2.1) h5,
    decodeField_agree 6 8 b c 6 (fun v hv => (decodeField_masked v hv).2.2.2.2.2.2) h6]

set_option maxRecDepth 100000 in
theorem decode_lt : ∀ v : Nat, v < 256 →
    decode v 3 < 256 ∧ decode v 2 < 256 ∧ decode v 1 < 256 ∧ v &&& 0x07 < 256 ∧
    (decode v 4 + 2000) % 65536 = 2000 + (v &&& 0x0F) + 10 * (v >>> 4) := by
  decide

/-- C30. Decoding ignores status bits: the Timestamp returned by `getRawTime` is the same
for any two register contents that differ only in bit 7 of seconds, bit 7 of minutes,
bits 7..6 of hours, bits 7..3 of weekday, bits 7..6 of date or bits 7..5 of month; each
field is the units nibble plus 10 times the tens bits masked to widths 3, 3, 2, 2, 1
(seconds, minutes, hours, date, month), with day-of-week the low 3 bits. -/
theorem decoding_ignores_status_bits (b c : Bus) (h : sameTimeBits b c) :
    getRawTime c = getRawTime b ∧
    (getRawTime b).sec = decode (readByte b Regs.Seconds) 3 ∧
    (getRawTime b).min = decode (readByte b Regs.Minutes) 3 ∧
    (getRawTime b).hour = decode (readByte b Regs.Hours) 2 ∧
    (getRawTime b).mday = decode (readByte b Regs.Date) 2 ∧
    (getRawTime b).month = decode (readByte b Regs.Month) 1 ∧
    (getRawTime b).wday = readByte b Regs.WeekDay &&& 0x07 ∧
    (getRawTime b).year
      = 2000 + (readByte b Regs.Year &&& 0x0F) + 10 * (readByte b Regs.Year >>> 4) := by
  refine ⟨getRawTime_sameTimeBits b c h, ?_⟩
  clear h
  have l0 := decodeField_decode _ (readByte_lt b Regs.Seconds)
  have l1 := decodeField_decode _ (readByte_lt b Regs.Minutes)
  have l2 := decodeField_decode _ (readByte_lt b Regs.Hours)
  have l3 := decodeField_decode _ (readByte_lt b Regs.WeekDay)
  have l4 := decodeField_decode _ (readByte_lt b Regs.Date)
  have l5 := decodeField_decode _ (readByte_lt b Regs.Month)
  have l6 := decodeField_decode _ (readByte_lt b Regs.Year)
  have m0 := decode_lt _ (readByte_lt b Regs.Seconds)
  have m1 := decode_lt _ (readByte_lt b Regs.Minutes)
  have m2 := decode_lt _ (readByte_lt b Regs.Hours)
  have m3 := decode_lt _ (readByte_lt b Regs.WeekDay)
  have m4 := decode_lt _ (readByte_lt b Regs.Date)
  have m5 := decode_lt _ (readByte_lt b Regs.Month)
  have m6 := decode_lt _ (readByte_lt b Regs.Year)
  unfold readByte Regs.Seconds Regs.Minutes Regs.Hours Regs.WeekDay Regs.Date Regs.Month
    Regs.Year at *
  unfold getRawTime
  simp only []
  rw [l0.1, l1.2.1, l2.2.2.1, l3.2.2.2.1, l4.2.2.2.2.1, l5.2.2.2.2.2.1, l6.2.2.2.2.2.2]
  exact ⟨Nat.mod_eq_of_lt m0.1, Nat.mod_eq_of_lt m1.1, Nat.mod_eq_of_lt m2.2.1,
    Nat.mod_eq_of_lt m4.2.1, Nat.mod_eq_of_lt m5.2.2.1, Nat.mod_eq_of_lt m3.2.2.2.1,
    m6.2.2.2.2⟩

/-- C30, at a concrete input: the registers of 2024-02-29, Thursday (4), 23:59:58, once
with every status bit clear and once with every status bit set, decode alike. -/
theorem decoding_ignores_status_bits_witness :
    getRawTime ⟨fun r => [0xD8, 0xD9, 0xE3, 0xFC, 0xE9, 0xE2, 0x24].getD r 0, 0, fun _ => 0⟩
      = ⟨2024, 2, 29, 4, 23, 59, 58⟩ ∧
    getRawTime ⟨fun r => [0xD8, 0xD9, 0xE3, 0xFC, 0xE9, 0xE2, 0x24].getD r 0, 0, fun _ => 0⟩
      = getRawTime ⟨fun r => [0x58, 0x59, 0x23, 0x04, 0x29, 0x02, 0x24].getD r 0, 0, fun _ => 0⟩ :=
  ⟨by decide,
   (decoding_ignores_status_bits
      ⟨fun r => [0x58, 0x59, 0x23, 0x04, 0x29, 0x02, 0x24].getD r 0, 0, fun _ => 0⟩
      ⟨fun r => [0xD8, 0xD9, 0xE3, 0xFC, 0xE9, 0xE2, 0x24].getD r 0, 0, fun _ => 0⟩
      (by decide)).1⟩

/-! ## Status bits kept by `setTime` -/

theorem setTimeStep_regs_ne (stVal : Bool) (DoW : Int) (TimeDate : List Int) (acc : Int × Bus)
    (i r : Nat) (h : r ≠ i) : (setTimeStep stVal DoW TimeDate acc i).2.regs r = acc.2.regs r :=
  writeByte_regs_ne _ _ _ _ h

theorem setTimeStep_nWrites (stVal : Bool) (DoW : Int) (TimeDate : List Int) (acc : Int × Bus)
    (i : Nat) : (setTimeStep stVal DoW TimeDate acc i).2.nWrites = acc.2.nWrites + 1 := rfl

theorem setTimeStep_status (stVal : Bool) (DoW : Int) (TimeDate : List Int) (acc : Int × Bus)
    (i : Nat) : (setTimeStep stVal DoW TimeDate acc i).2.status = acc.2.status := rfl

/-- The seconds register after `setTime`, for any outcome of the write transactions. -/
theorem setTime_regs_seconds (b : Bus) (Year Month Day DoW Hour Min Sec : Int) :
    (setTime b Year Month Day DoW Hour Min Sec).2.regs 0 =
      if b.status b.nWrites = 0
      then toU8 (if readBit b 0 7 = true then Int.lor (packBCD Sec) 0x80 else packBCD Sec) % 256
      else b.regs 0 := by
  unfold setTime
  simp only [range7, List.foldl]
  rw [setTimeStep_regs_ne _ _ _ _ 6 0 (by decide), setTimeStep_regs_ne _ _ _ _ 5 0 (by decide),
    setTimeStep_regs_ne _ _ _ _ 4 0 (by decide), setTimeStep_regs_ne _ _ _ _ 3 0 (by decide),
    setTimeStep_regs_ne _ _ _ _ 2 0 (by decide), setTimeStep_regs_ne _ _ _ _ 1 0 (by decide)]
  unfold setTimeStep
  simp only [writeByte_regs_same]
  simp

/-- The weekday register after `setTime`, for any outcome of the write transactions. -/
theorem setTime_regs_weekday (b : Bus) (Year Month Day DoW Hour Min Sec : Int) :
    (setTime b Year Month Day DoW Hour Min Sec).2.regs 3 =
      if b.status (b.nWrites + 3) = 0
      then toU8 ((toU8 (Int.lor (((readByte b 3 &&& 0xF8 : Nat)) : Int) (Int.land DoW 0x07))
        : Nat) : Int) % 256
      else b.regs 3 := by
  unfold setTime
  simp only [range7, List.foldl]
  rw [setTimeStep_regs_ne _ _ _ _ 6 3 (by decide), setTimeStep_regs_ne _ _ _ _ 5 3 (by decide),
    setTimeStep_regs_ne _ _ _ _ 4 3 (by decide)]
  generalize hacc : setTimeStep (readBit b 0 7) DoW _ (setTimeStep (readBit b 0 7) DoW _
    (setTimeStep (readBit b 0 7) DoW _ (0, b) 0) 1) 2 = acc
  have hr : acc.2.regs 3 = b.regs 3 := by
    rw [← hacc, setTimeStep_regs_ne _ _ _ _ 2 3 (by decide),
      setTimeStep_regs_ne _ _ _ _ 1 3 (by decide), setTimeStep_regs_ne _ _ _ _ 0 3 (by decide)]
  have hn : acc.2.nWrites = b.nWrites + 3 := by
    rw [← hacc]; rfl
  have hst : acc.2.status = b.status := by
    rw [← hacc]; rfl
  unfold setTimeStep
  simp only [writeByte_regs_same, hn, hst, readByte, Regs.WeekDay, hr, if_true]

theorem land7_range (x : Int) : ∃ k : Nat, k < 8 ∧ Int.land x 0x07 = (k : Int) := by
  cases x with
  | ofNat m =>
    refine ⟨m &&& 7, ?_, rfl⟩
    have := @Nat.and_le_right m 7
    omega
  | negSucc m =>
    refine ⟨Nat.ldiff 7 m, ?_, rfl⟩
    have : Nat.ldiff 7 m < 2 ^ 3 := by
      apply Nat.lt_pow_two_of_testBit
      intro i hi
      rw [Nat.testBit_ldiff]
      have : Nat.testBit 7 i = false := by
        have h7 : (7 : Nat) < 2 ^ i := by
          calc (7 : Nat) < 2 ^ 3 := by decide
            _ ≤ 2 ^ i := Nat.pow_le_pow_right (by decide) hi
        exact Nat.testBit_lt_two_pow h7
      simp [this]
    omega

set_option maxRecDepth 100000 in
theorem readBit_testBit_byte : ∀ v : Nat, v < 256 → ∀ p : Nat, p < 8 →
    (((v >>> p) &&& 0x01) != 0) = v.testBit p := by
  decide

/-- A bit read by `readBit` is the bit of the register byte. -/
theorem readBit_testBit (b : Bus) (Reg Pos : Nat) (hp : Pos < 8) :
    readBit b Reg Pos = (readByte b Reg).testBit Pos :=
  readBit_testBit_byte _ (readByte_lt b Reg) Pos hp

set_option maxRecDepth 100000 in
theorem sec_byte_bit7 : ∀ s : Nat, s < 60 →
    (toU8 (packBCD s) % 256 % 256).testBit 7 = false ∧
    (toU8 (Int.lor (packBCD s) 0x80) % 256 % 256).testBit 7 = true := by
  decide

set_option maxRecDepth 100000 in
theorem wday_byte_bits : ∀ v : Nat, v < 256 → ∀ k : Nat, k < 8 →
    (toU8 ((toU8 (Int.lor (((v &&& 0xF8 : Nat)) : Int) (k : Int)) : Nat) : Int) % 256 % 256)
        &&& 0x07 = k ∧
    ∀ i : Nat, i < 8 → 3 ≤ i →
      (toU8 ((toU8 (Int.lor (((v &&& 0xF8 : Nat)) : Int) (k : Int)) : Nat) : Int) % 256
        % 256).testBit i = v.testBit i := by
  decide

/-- Bits 7..3 of the weekday register are kept by `setTime`, whatever the outcome of the
write transactions. -/
theorem setTime_weekday_high_bits (b : Bus) (Year Month Day DoW Hour Min Sec : Int)
    (i : Nat) (h3 : 3 ≤ i) (h8 : i < 8) :
    (readByte (setTime b Year Month Day DoW Hour Min Sec).2 Regs.WeekDay).testBit i
      = (readByte b Regs.WeekDay).testBit i := by
  obtain ⟨k, hk, hl⟩ := land7_range DoW
  unfold readByte Regs.WeekDay
  rw [setTime_regs_weekday, hl]
  by_cases hst : b.status (b.nWrites + 3) = 0
  · rw [if_pos hst]
    exact (wday_byte_bits _ (readByte_lt b 3) k hk).2 i h8 h3
  · rw [if_neg hst]

/-- C29. `setTime` preserves the status bits that share registers with time fields: for
every prior register content and every second in 0..59, after `setTime` bit 7 of the
seconds register (oscillator start bit) has the value it had before the call and bits
7..3 of the weekday/status register are unchanged, whatever the outcome of the write
transactions; the low three bits of that register equal DoW & 7 once the write of the
weekday register is acknowledged. -/
theorem setTime_preserves_status_bits (b : Bus) (Year Month Day DoW Hour Min Sec : Int)
    (hs0 : 0 ≤ Sec) (hs59 : Sec ≤ 59) :
    (readByte (setTime b Year Month Day DoW Hour Min Sec).2 Regs.Seconds).testBit 7
      = (readByte b Regs.Seconds).testBit 7 ∧
    (∀ i, 3 ≤ i → i < 8 →
      (readByte (setTime b Year Month Day DoW Hour Min Sec).2 Regs.WeekDay).testBit i
        = (readByte b Regs.WeekDay).testBit i) ∧
    (b.status (b.nWrites + 3) = 0 →
      (((readByte (setTime b Year Month Day DoW Hour Min Sec).2 Regs.WeekDay &&& 0x07 : Nat)) : Int)
        = Int.land DoW 0x07) := by
  refine ⟨?_, fun i h3 h8 => setTime_weekday_high_bits b Year Month Day DoW Hour Min Sec i h3 h8,
    ?_⟩
  · obtain ⟨s, hs⟩ : ∃ s : Nat, Sec = (s : Int) := ⟨Sec.toNat, by omega⟩
    subst hs
    have hb := sec_byte_bit7 s (by omega)
    unfold readByte Regs.Seconds
    rw [setTime_regs_seconds]
    by_cases hst : b.status b.nWrites = 0
    · rw [if_pos hst]
      have hbit : readBit b 0 7 = (b.regs 0 % 256).testBit 7 := readBit_testBit b 0 7 (by decide)
      by_cases h7 : readBit b 0 7 = true
      · rw [if_pos h7, hb.2, ← hbit, h7]
      · rw [if_neg h7, hb.1, ← hbit]
        simpa using h7
    · rw [if_neg hst]
  · intro hst
    obtain ⟨k, hk, hl⟩ := land7_range DoW
    unfold readByte Regs.WeekDay
    rw [setTime_regs_weekday, if_pos hst, hl, (wday_byte_bits _ (readByte_lt b 3) k hk).1]

/-- C29, at a concrete input: on a device whose registers all hold 0xFF, setting
2024-01-31 (day-of-week 3) 23:59:50 leaves 0xD0 in the seconds register and 0xFB in the
weekday register. -/
theorem setTime_preserves_status_bits_witness :
    readByte (setTime ⟨fun _ => 0xFF, 0, fun _ => 0⟩ 2024 1 31 3 23 59 50).2 Regs.Seconds = 0xD0 ∧
    readByte (setTime ⟨fun _ => 0xFF, 0, fun _ => 0⟩ 2024 1 31 3 23 59 50).2 Regs.WeekDay = 0xFB ∧
    (((readByte (setTime ⟨fun _ => 0xFF, 0, fun _ => 0⟩ 2024 1 31 3 23 59 50).2 Regs.WeekDay
        &&& 0x07 : Nat)) : Int) = Int.land 3 0x07 :=
  ⟨by decide, by decide,
   (setTime_preserves_status_bits ⟨fun _ => 0xFF, 0, fun _ => 0⟩ 2024 1 31 3 23 59 50
      (by decide) (by decide)).2.2 rfl⟩

/-! ## Initialization -/

theorem sameTimeBits_refl (b : Bus) : sameTimeBits b b :=
  ⟨agreeBelow_refl _ _, agreeBelow_refl _ _, agreeBelow_refl _ _, agreeBelow_refl _ _,
    agreeBelow_refl _ _, agreeBelow_refl _ _, agreeBelow_refl _ _⟩

theorem sameTimeBits_trans (a b c : Bus) (h1 : sameTimeBits a b) (h2 : sameTimeBits b c) :
    sameTimeBits a c :=
  ⟨agreeBelow_trans _ _ _ _ h1.1 h2.1, agreeBelow_trans _ _ _ _ h1.2.1 h2.2.1,
    agreeBelow_trans _ _ _ _ h1.2.2.1 h2.2.2.1, agreeBelow_trans _ _ _ _ h1.2.2.2.1 h2.2.2.2.1,
    agreeBelow_trans _ _ _ _ h1.2.2.2.2.1 h2.2.2.2.2.1,
    agreeBelow_trans _ _ _ _ h1.2.2.2.2.2.1 h2.2.2.2.2.2.1,
    agreeBelow_trans _ _ _ _ h1.2.2.2.2.2.2 h2.2.2.2.2.2.2⟩

/-- A write that changes at most one time register, and there only bits at or above
the width `k` of its time field, keeps the time-field bits. -/
theorem sameTimeBits_of_regs (b c : Bus) (Reg k : Nat)
    (hne : ∀ r, r ≠ Reg → c.regs r = b.regs r)
    (hk : agreeBelow k (readByte b Reg) (readByte c Reg))
    (hw : (Reg = 0 ∧ 7 ≤ k) ∨ (Reg = 1 ∧ 7 ≤ k) ∨ (Reg = 2 ∧ 6 ≤ k) ∨ (Reg = 3 ∧ 3 ≤ k) ∨
      (Reg = 4 ∧ 6 ≤ k) ∨ (Reg = 5 ∧ 5 ≤ k) ∨ (Reg = 6 ∧ 8 ≤ k) ∨ 7 ≤ Reg) :
    sameTimeBits b c := by
  have key : ∀ r w, r < 7 → (r = Reg → w ≤ k) → agreeBelow w (readByte b r) (readByte c r) := by
    intro r w _ hrw
    by_cases hr : r = Reg
    · subst hr
      exact fun i hi => hk i (by have := hrw rfl; omega)
    · unfold readByte
      rw [hne r hr]
      exact agreeBelow_refl _ _
  exact ⟨key 0 7 (by decide) (by omega),
    key 1 7 (by decide) (by omega),
    key 2 6 (by decide) (by omega),
    key 3 3 (by decide) (by omega),
    key 4 6 (by decide) (by omega),
    key 5 5 (by decide) (by omega),
    key 6 8 (by decide) (by omega)⟩

theorem sameTimeBits_writeByte (b : Bus) (Reg Val : Nat) (h : 7 ≤ Reg) :
    sameTimeBits b (writeByte b Reg Val).2 :=
  sameTimeBits_of_regs b _ Reg 0 (fun r hr => writeByte_regs_ne b Reg Val r hr)
    (fun _ hi => absurd hi (by omega)) (by omega)

theorem agreeBelow_setBit (b : Bus) (Reg Pos : Nat) (hp : Pos < 8) :
    agreeBelow Pos (readByte b Reg) (readByte (setBit b Reg Pos).2 Reg) := by
  intro i hi
  rw [readByte_setBit_same]
  split_ifs
  · exact byte_set_keeps _ (readByte_lt b Reg) Pos hp i (by omega) (by omega)
  · rfl

theorem agreeBelow_clearBit (b : Bus) (Reg Pos : Nat) (hp : Pos < 8) :
    agreeBelow Pos (readByte b Reg) (readByte (clearBit b Reg Pos).2 Reg) := by
  intro i hi
  rw [readByte_clearBit_same]
  split_ifs
  · exact byte_clear_keeps _ (readByte_lt b Reg) Pos hp i (by omega) (by omega)
  · rfl

set_option maxRecDepth 100000 in
theorem byte_or_st : ∀ v : Nat, v < 256 → ∀ i : Nat, i < 7 →
    ((v ||| 0x80) % 256 % 256 % 256).testBit i = v.testBit i := by
  decide

theorem sameTimeBits_startOsc (b : Bus) : sameTimeBits b (startOsc b).2 := by
  unfold startOsc
  simp only []
  have e : readByte (writeByte b Control (readByte b Control &&& 0xF7)).2 Regs.Seconds
      = readByte b Regs.Seconds := readByte_writeByte_ne b _ _ _ (by decide)
  refine sameTimeBits_trans _ (writeByte b Control (readByte b Control &&& 0xF7)).2 _
    (sameTimeBits_writeByte b Control _ (by decide)) ?_
  refine sameTimeBits_of_regs _ _ Regs.Seconds 7
    (fun r hr => writeByte_regs_ne _ _ _ r hr) ?_ (Or.inl ⟨rfl, by decide⟩)
  intro i hi
  rw [← e]
  simp only [readByte, writeByte_regs_same]
  split_ifs
  · exact byte_or_st _ (Nat.mod_lt _ (by decide)) i hi
  · rfl

/-- The part of `begin` after the check of the time read: from the bus `b1` it finds
there, `begin` changes no time-field bit. -/
theorem begin_tail_sameTimeBits (b1 : Bus) (UseExtOsc : Bool) :
    sameTimeBits b1
      (if UseExtOsc = false then
        (startOsc (writeByte (writeByte (setBit b1 Regs.WeekDay 3).2 Control 0x00).2
          (Control + 1) 0x00).2).2
      else
        (setBit (clearBit (writeByte (writeByte (setBit b1 Regs.WeekDay 3).2 Control 0x00).2
          (Control + 1) 0x00).2 0 7).2 Control 3).2) := by
  have s1 : sameTimeBits b1 (setBit b1 Regs.WeekDay 3).2 :=
    sameTimeBits_of_regs _ _ Regs.WeekDay 3 (fun r hr => setBit_regs_ne _ _ _ r hr)
      (agreeBelow_setBit b1 Regs.WeekDay 3 (by decide)) (Or.inr (Or.inr (Or.inr (Or.inl
        ⟨rfl, by decide⟩))))
  have s2 := sameTimeBits_writeByte (setBit b1 Regs.WeekDay 3).2 Control 0x00 (by decide)
  have s3 := sameTimeBits_writeByte (writeByte (setBit b1 Regs.WeekDay 3).2 Control 0x00).2
    (Control + 1) 0x00 (by decide)
  have s123 := sameTimeBits_trans _ _ _ (sameTimeBits_trans _ _ _ s1 s2) s3
  cases UseExtOsc
  · simp only [if_true]
    exact sameTimeBits_trans _ _ _ s123 (sameTimeBits_startOsc _)
  · simp only [Bool.true_eq_false, if_false]
    refine sameTimeBits_trans _ _ _ s123 (sameTimeBits_trans _
      (clearBit (writeByte (writeByte (setBit b1 Regs.WeekDay 3).2 Control 0x00).2
        (Control + 1) 0x00).2 0 7).2 _ ?_ ?_)
    · exact sameTimeBits_of_regs _ _ 0 7 (fun r hr => clearBit_regs_ne _ _ _ r hr)
        (agreeBelow_clearBit _ 0 7 (by decide)) (Or.inl ⟨rfl, by decide⟩)
    · exact sameTimeBits_of_regs _ _ Control 0 (fun r hr => setBit_regs_ne _ _ _ r hr)
        (fun _ hi => absurd hi (by omega)) (by decide)

/-- The bus `begin` leaves, from the bus `b1` it finds after the check of the time. -/
theorem begin_bus (RTC_POWER_LOSS : Nat) (b : Bus) (log : ErrorLog) (UseExtOsc : Bool) :
    sameTimeBits
      (if ((getRawTime b).year == 2000 || (getRawTime b).month == 0 || (getRawTime b).mday == 0)
          = true
        then (setTimeNoDoW b 2001 1 1 0 0 0).2 else b)
      (begin RTC_POWER_LOSS b log UseExtOsc).2.1 := by
  have h := begin_tail_sameTimeBits
    (if ((getRawTime b).year == 2000 || (getRawTime b).month == 0 || (getRawTime b).mday == 0)
          = true
        then (setTimeNoDoW b 2001 1 1 0 0 0).2 else b) UseExtOsc
  unfold begin
  simp only []
  cases UseExtOsc
  · simp only [if_true] at h ⊢
    exact h
  · simp only [Bool.true_eq_false, if_false] at h ⊢
    exact h

/-- Bit 3 of the weekday register when `begin` tests it is the bit the device held at
the call: the rewrite of the clock keeps it. -/
theorem begin_power_bit (b : Bus) (c : Bool) :
    readBit (if c = true then (setTimeNoDoW b 2001 1 1 0 0 0).2 else b) Regs.WeekDay 3
      = readBit b Regs.WeekDay 3 := by
  cases c
  · rfl
  · simp only [if_true]
    rw [readBit_testBit _ _ _ (by decide), readBit_testBit _ _ _ (by decide)]
    exact setTime_weekday_high_bits b 2001 1 1 0 0 0 0 3 (by decide) (by decide)

/-- The error log `begin` leaves. -/
theorem begin_log (RTC_POWER_LOSS : Nat) (b : Bus) (log : ErrorLog) (UseExtOsc : Bool) :
    (begin RTC_POWER_LOSS b log UseExtOsc).2.2
      = throwAll log (beginCodes RTC_POWER_LOSS (getRawTime b) (!readBit b Regs.WeekDay 3)) := by
  have hp := begin_power_bit b
    ((getRawTime b).year == 2000 || (getRawTime b).month == 0 || (getRawTime b).mday == 0)
  unfold begin
  simp only []
  rw [hp]
  unfold beginCodes throwAll
  cases UseExtOsc <;> cases readBit b Regs.WeekDay 3 <;>
    by_cases h1 : (getRawTime b).year < 2022 <;>
    by_cases h2 : (getRawTime b).year = 2000 <;>
    by_cases h3 : (getRawTime b).month = 0 <;>
    by_cases h4 : (getRawTime b).mday = 0 <;>
    simp [h1, h2, h3, h4]

/-- The fallback time `begin` writes, read back when every write transaction succeeds. -/
theorem getRawTime_fallback (b : Bus) (hb : b.allOk) :
    getRawTime (setTimeNoDoW b 2001 1 1 0 0 0).2 = ⟨2001, 1, 1, 0, 0, 0, 0⟩ := by
  unfold setTimeNoDoW
  rw [getRawTime_setTime b hb]
  have hyear : (if (2001 : Int) > 999 then (2001 : Int) - 2000 else (2001 : Int))
      = ((1 : Nat) : Int) := by decide
  rw [hyear, roundtrip_year 1 (by decide)]
  have hm := roundtrip_month 1 (by decide)
  have hd := roundtrip_mday 1 (by decide)
  have hw := roundtrip_wday (b.regs 3 % 256) (Nat.mod_lt _ (by decide)) 0 (by decide)
  have hh := roundtrip_hour 0 (by decide)
  have hmi := roundtrip_min 0 (by decide)
  have hs := roundtrip_sec 0 (by decide) (readBit b 0 7)
  simp only [Nat.cast_one, Nat.cast_zero, Nat.cast_ofNat] at hm hd hw hh hmi hs
  rw [hm, hd, hw, hh, hmi, hs]

/-- C22. Initialization fault detection: `begin` records ANCIENT_TIME in the error log
exactly when the year read from the device is below 2022, and records NONREAL_TIME
exactly when the day, month or year register reads as zero (mday = 0, month = 0 or
year = 2000); the codes are recorded in that order, followed by the power-loss code when
bit 3 of the weekday register is clear.  In the NONREAL_TIME case it rewrites the clock
so that, the write transactions succeeding, the time registers then decode to
2001-01-01 00:00:00; in no other case does it write the time fields: the time-field bits
of the registers, and the time they decode to, are then as before the call.  The code
`RTC_POWER_LOSS`, which the sources at hand do not declare, is a parameter, taken to
differ from the two other codes. -/
theorem begin_fault_detection (RTC_POWER_LOSS : Nat) (b : Bus) (log : ErrorLog)
    (UseExtOsc : Bool) (hPa : RTC_POWER_LOSS ≠ ANCIENT_TIME)
    (hPn : RTC_POWER_LOSS ≠ NONREAL_TIME) :
    (begin RTC_POWER_LOSS b log UseExtOsc).2.2
      = throwAll log (beginCodes RTC_POWER_LOSS (getRawTime b) (!readBit b Regs.WeekDay 3)) ∧
    (ANCIENT_TIME ∈ beginCodes RTC_POWER_LOSS (getRawTime b) (!readBit b Regs.WeekDay 3) ↔
      (getRawTime b).year < 2022) ∧
    (NONREAL_TIME ∈ beginCodes RTC_POWER_LOSS (getRawTime b) (!readBit b Regs.WeekDay 3) ↔
      ((getRawTime b).mday = 0 ∨ (getRawTime b).month = 0 ∨ (getRawTime b).year = 2000)) ∧
    (((getRawTime b).mday = 0 ∨ (getRawTime b).month = 0 ∨ (getRawTime b).year = 2000) →
      b.allOk →
      getRawTime (begin RTC_POWER_LOSS b log UseExtOsc).2.1 = ⟨2001, 1, 1, 0, 0, 0, 0⟩) ∧
    (¬ ((getRawTime b).mday = 0 ∨ (getRawTime b).month = 0 ∨ (getRawTime b).year = 2000) →
      sameTimeBits b (begin RTC_POWER_LOSS b log UseExtOsc).2.1 ∧
      getRawTime (begin RTC_POWER_LOSS b log UseExtOsc).2.1 = getRawTime b) := by
  have hbus := begin_bus RTC_POWER_LOSS b log UseExtOsc
  have hne : ANCIENT_TIME ≠ NONREAL_TIME := by decide
  refine ⟨begin_log RTC_POWER_LOSS b log UseExtOsc, ?_, ?_, ?_, ?_⟩
  · unfold beginCodes
    by_cases h1 : (getRawTime b).year < 2022 <;>
      by_cases h2 : ((getRawTime b).year = 2000 ∨ (getRawTime b).month = 0
        ∨ (getRawTime b).mday = 0) <;>
      cases readBit b Regs.WeekDay 3 <;>
      simp [h1, h2, hne, hPa.symm]
  · unfold beginCodes
    have e : ((getRawTime b).mday = 0 ∨ (getRawTime b).month = 0 ∨ (getRawTime b).year = 2000)
        ↔ ((getRawTime b).year = 2000 ∨ (getRawTime b).month = 0 ∨ (getRawTime b).mday = 0) := by
      constructor <;> intro h <;> omega
    rw [e]
    by_cases h1 : (getRawTime b).year < 2022 <;>
      by_cases h2 : ((getRawTime b).year = 2000 ∨ (getRawTime b).month = 0
        ∨ (getRawTime b).mday = 0) <;>
      cases readBit b Regs.WeekDay 3 <;>
      simp [h1, h2, hne.symm, hPn.symm]
  · intro hz hb
    have hc : ((getRawTime b).year == 2000 || (getRawTime b).month == 0
        || (getRawTime b).mday == 0) = true := by
      simp only [Bool.or_eq_true, beq_iff_eq]
      omega
    rw [if_pos hc] at hbus
    rw [getRawTime_sameTimeBits _ _ hbus, getRawTime_fallback b hb]
  · intro hz
    have hc : ¬ ((getRawTime b).year == 2000 || (getRawTime b).month == 0
        || (getRawTime b).mday == 0) = true := by
      simp only [Bool.or_eq_true, beq_iff_eq]
      omega
    rw [if_neg hc] at hbus
    exact ⟨hbus, getRawTime_sameTimeBits _ _ hbus⟩

/-- C22, at a concrete input: on a device whose registers all hold 0 (year 2000, month 0,
day 0, power-loss bit clear) and with 1 for the power-loss code, `begin` records
ANCIENT_TIME, NONREAL_TIME and the power-loss code in this order, and the clock then
reads 2001-01-01 00:00:00. -/
theorem begin_fault_detection_witness :
    getRawTime (begin 1 ⟨fun _ => 0, 0, fun _ => 0⟩ ErrorLog.init false).2.1
      = ⟨2001, 1, 1, 0, 0, 0, 0⟩ ∧
    (begin 1 ⟨fun _ => 0, 0, fun _ => 0⟩ ErrorLog.init false).2.2
      = throwAll ErrorLog.init [ANCIENT_TIME, NONREAL_TIME, 1] ∧
    (begin 1 ⟨fun _ => 0, 0, fun _ => 0⟩ ErrorLog.init false).2.2.numErrors = 3 := by
  have t := begin_fault_detection 1 ⟨fun _ => 0, 0, fun _ => 0⟩ ErrorLog.init false
    (by decide) (by decide)
  exact ⟨t.2.2.2.1 (Or.inl (by decide)) (fun _ => rfl), t.1, by decide⟩

/-! ## Location of the leap-year flag -/

/-- C26 (amended). Leap-year flag location: the February length used by `setAlarm` is 29
exactly when bit 5 of the month register (address 0x05) is set, and 28 otherwise; the
content of the weekday/status register (address 0x03) above its three day-of-week bits,
bit 5 included, has no influence on the alarm time computed. -/
theorem february_length_flag (b : Bus) (Delta : Nat) (n : Bool) (r : Int × Bus)
    (h : setAlarm b Delta n = some r) :
    ∃ a, alarmTarget (getRawTime b) (readBit b Regs.Month 5) (Delta % 4294967296) = some a ∧
      r.2 = (clearAlarm (enableAlarm ((List.range 6).foldl
              (setAlarmStep (slotOffset n) [a.sec, a.min, a.hour, a.wday, a.mday, a.month, a.year])
              (enableAlarm b false n).2) true n).2 n).2 ∧
      (tableAt (MonthDay (readBit b Regs.Month 5)) 2 = some 29 ↔
        (readByte b 0x05).testBit 5 = true) ∧
      (tableAt (MonthDay (readBit b Regs.Month 5)) 2 = some 28 ↔
        (readByte b 0x05).testBit 5 = false) ∧
      (∀ c : Bus, (∀ reg, reg ≠ 0x03 → c.regs reg = b.regs reg) →
        agreeBelow 3 (readByte b 0x03) (readByte c 0x03) →
        alarmTarget (getRawTime c) (readBit c Regs.Month 5) (Delta % 4294967296) = some a) := by
  obtain ⟨a, ha, hr⟩ := setAlarm_some b Delta n r h
  have hbit : readBit b Regs.Month 5 = (readByte b 0x05).testBit 5 :=
    readBit_testBit b Regs.Month 5 (by decide)
  refine ⟨a, ha, by rw [hr], ?_, ?_, ?_⟩
  · rw [← hbit]
    cases readBit b Regs.Month 5 <;> decide
  · rw [← hbit]
    cases readBit b Regs.Month 5 <;> decide
  · intro c hne h3
    have hs : sameTimeBits b c :=
      sameTimeBits_of_regs b c 0x03 3 hne h3 (Or.inr (Or.inr (Or.inr (Or.inl ⟨rfl, by decide⟩))))
    rw [getRawTime_sameTimeBits b c hs, readBit_congr b c Regs.Month 5 (hne 5 (by decide))]
    exact ha

/-- C26 (amended), at a concrete input: 2024-02-28 23:59:59 with bit 5 of the month
register set; one second later is February 29. -/
theorem february_length_flag_witness :
    ∃ r, setAlarm ⟨fun r => [0x59, 0x59, 0x23, 0x03, 0x28, 0x22, 0x24].getD r 0, 0, fun _ => 0⟩
        1 false = some r ∧
      ∃ a, alarmTarget
          (getRawTime ⟨fun r => [0x59, 0x59, 0x23, 0x03, 0x28, 0x22, 0x24].getD r 0, 0, fun _ => 0⟩)
          (readBit ⟨fun r => [0x59, 0x59, 0x23, 0x03, 0x28, 0x22, 0x24].getD r 0, 0, fun _ => 0⟩
            Regs.Month 5) (1 % 4294967296) = some a ∧
        a = ⟨0, 0, 0, 4, 29, 2, 2024⟩ := by
  obtain ⟨r, hr⟩ := setAlarm_isSome
    ⟨fun r => [0x59, 0x59, 0x23, 0x03, 0x28, 0x22, 0x24].getD r 0, 0, fun _ => 0⟩ 1 false
    (by decide)
  obtain ⟨a, ha, _⟩ := february_length_flag _ 1 false r hr
  refine ⟨r, hr, a, ha, ?_⟩
  have e : alarmTarget
      (getRawTime ⟨fun r => [0x59, 0x59, 0x23, 0x03, 0x28, 0x22, 0x24].getD r 0, 0, fun _ => 0⟩)
      (readBit ⟨fun r => [0x59, 0x59, 0x23, 0x03, 0x28, 0x22, 0x24].getD r 0, 0, fun _ => 0⟩
        Regs.Month 5) (1 % 4294967296) = some ⟨0, 0, 0, 4, 29, 2, 2024⟩ := by decide
  rw [e] at ha
  exact (Option.some.inj ha).symm

/-- C26 as stated fails: with bit 5 of the weekday/status register (0x03) set and bit 5
of the month register clear, on 2023-02-28 at 23:59:59 an alarm one second ahead is
computed for March 1, and 0x01 and 0x03 are written to the date and month registers of
the alarm: the February length used is 28.  With bit 5 of register 0x03 clear and bit 5
of the month register set, on 2024-02-28 the alarm is computed for February 29: the
length used is 29. -/
theorem february_length_flag_counterexample :
    (readByte ⟨fun r => [0x59, 0x59, 0x23, 0x22, 0x28, 0x02, 0x23].getD r 0, 0, fun _ => 0⟩
      0x03).testBit 5 = true ∧
    tableAt (MonthDay
      (readBit ⟨fun r => [0x59, 0x59, 0x23, 0x22, 0x28, 0x02, 0x23].getD r 0, 0, fun _ => 0⟩
        Regs.Month 5)) 2 = some 28 ∧
    (setAlarm ⟨fun r => [0x59, 0x59, 0x23, 0x22, 0x28, 0x02, 0x23].getD r 0, 0, fun _ => 0⟩
      1 false).map (fun r => (readByte r.2 0x0E, readByte r.2 0x0F)) = some (0x01, 0x03) ∧
    (readByte ⟨fun r => [0x59, 0x59, 0x23, 0x03, 0x28, 0x22, 0x24].getD r 0, 0, fun _ => 0⟩
      0x03).testBit 5 = false ∧
    tableAt (MonthDay
      (readBit ⟨fun r => [0x59, 0x59, 0x23, 0x03, 0x28, 0x22, 0x24].getD r 0, 0, fun _ => 0⟩
        Regs.Month 5)) 2 = some 29 ∧
    (setAlarm ⟨fun r => [0x59, 0x59, 0x23, 0x03, 0x28, 0x22, 0x24].getD r 0, 0, fun _ => 0⟩
      1 false).map (fun r => (readByte r.2 0x0E, readByte r.2 0x0F)) = some (0x29, 0x02) := by
  decide

/-! ## Day of year -/

theorem stardateLeap_eq_isLeapYear (year : Nat) (h1 : 2000 ≤ year) (h2 : year ≤ 2099) :
    stardateLeap year = isLeapYear year := by
  have h := isLeapYear_iff year
  by_cases hl : isLeapYear year = true
  · rw [hl]
    unfold stardateLeap
    simp only [beq_iff_eq]
    exact (h.1 hl).1
  · have hf : isLeapYear year = false := by simpa using hl
    rw [hf]
    unfold stardateLeap
    have : ¬ year % 4 = 0 := by
      intro h4
      exact hl (h.2 ⟨h4, by omega⟩)
    simpa using this

/-- The loop of `getTime` adds the lengths of the months before `m` to the day. -/
theorem dayOfYearLoop_table (l : Bool) (m : Nat) (h1 : 1 ≤ m) (h12 : m ≤ 12) (d : Int) :
    dayOfYearLoop [0, 31, if l then 29 else 28, 31, 30, 31, 30, 31, 31, 30, 31, 30, 31]
      (m - 1) 1 d = some (d + ((daysBeforeMonth l m : Nat) : Int)) := by
  interval_cases m <;> cases l <;>
    simp [dayOfYearLoop, tableAt, daysBeforeMonth, daysInMonth] <;> omega

theorem daysBeforeMonth_sum : ∀ l : Bool, ∀ m : Nat, m < 13 → 1 ≤ m →
    daysBeforeMonth l m = ((List.range (m - 1)).map (fun i => daysInMonth (i + 1) l)).sum := by
  decide

theorem daysBeforeMonth_next : ∀ l : Bool, ∀ m : Nat, m < 13 → ∀ m2 : Nat, m2 < 13 →
    1 ≤ m → m < m2 → daysBeforeMonth l m + daysInMonth m l ≤ daysBeforeMonth l m2 := by
  decide

/-- The day of year printed by `getTime` for a valid date of the years 2000..2099. -/
theorem stardateDayOfYear_eq (t : Timestamp) (hv : t.valid) (hy : t.year ≤ 2099) :
    stardateDayOfYear t = some ((dayOfYear t.year t.month t.mday : Nat) : Int) := by
  obtain ⟨h2000, ⟨hm1, hm12, hd1, hd⟩, _⟩ := hv
  unfold stardateDayOfYear stardateMonthDay dayOfYear
  rw [stardateLeap_eq_isLeapYear t.year h2000 hy, dayOfYearLoop_table _ t.month hm1 hm12]
  congr 1
  push_cast
  ring

/-- C21 (amended). Day of year: for every valid Timestamp of the years 2000..2099, the
day-of-year computed for the Stardate format equals the sum of the lengths of all months
before the timestamp's month plus its day-of-month; it is 1 for January 1 and 365 (366
in a leap year) for December 31, and it is strictly increasing in the date within one
year. -/
theorem stardate_day_of_year (t : Timestamp) (hv : t.valid) (hy : t.year ≤ 2099) :
    stardateDayOfYear t = some ((dayOfYear t.year t.month t.mday : Nat) : Int) ∧
    dayOfYear t.year t.month t.mday
      = ((List.range (t.month - 1)).map (fun i => daysInMonth (i + 1) (isLeapYear t.year))).sum
        + t.mday ∧
    (t.month = 1 → t.mday = 1 → stardateDayOfYear t = some 1) ∧
    (t.month = 12 → t.mday = 31 →
      stardateDayOfYear t = some (if isLeapYear t.year then 366 else 365)) ∧
    (∀ u : Timestamp, u.valid → u.year = t.year →
      dateBefore t.month t.mday u.month u.mday →
      stardateDayOfYear u = some ((dayOfYear u.year u.month u.mday : Nat) : Int) ∧
      dayOfYear t.year t.month t.mday < dayOfYear u.year u.month u.mday) := by
  have e := stardateDayOfYear_eq t hv hy
  obtain ⟨h2000, ⟨hm1, hm12, hd1, hd⟩, _⟩ := hv
  refine ⟨e, ?_, ?_, ?_, ?_⟩
  · unfold dayOfYear
    rw [daysBeforeMonth_sum _ t.month (by omega) hm1]
  · intro h1 hday
    rw [e, h1, hday]
    unfold dayOfYear
    cases isLeapYear t.year <;> rfl
  · intro h12 hday
    rw [e, h12, hday]
    unfold dayOfYear
    cases isLeapYear t.year <;> rfl
  · intro u hu hyear hlt
    have eu := stardateDayOfYear_eq u hu (by omega)
    obtain ⟨_, ⟨um1, um12, ud1, ud⟩, _⟩ := hu
    refine ⟨eu, ?_⟩
    unfold dayOfYear
    rw [hyear]
    rcases hlt with hlt | ⟨hmeq, hdlt⟩
    · have := daysBeforeMonth_next (isLeapYear t.year) t.month (by omega) u.month (by omega)
        hm1 hlt
      omega
    · rw [hmeq]
      omega

/-- C21 (amended), at a concrete input: 2024-12-31 is day 366, and 2024-02-29 (day 60)
comes before 2024-03-01 (day 61). -/
theorem stardate_day_of_year_witness :
    stardateDayOfYear ⟨2024, 12, 31, 2, 0, 0, 0⟩ = some 366 ∧
    stardateDayOfYear ⟨2024, 2, 29, 4, 0, 0, 0⟩ = some 60 ∧
    stardateDayOfYear ⟨2024, 3, 1, 5, 0, 0, 0⟩ = some 61 ∧
    dayOfYear 2024 2 29 < dayOfYear 2024 3 1 :=
  ⟨(stardate_day_of_year ⟨2024, 12, 31, 2, 0, 0, 0⟩ (by decide) (by decide)).2.2.2.1 rfl rfl,
   by decide, by decide,
   ((stardate_day_of_year ⟨2024, 2, 29, 4, 0, 0, 0⟩ (by decide) (by decide)).2.2.2.2
      ⟨2024, 3, 1, 5, 0, 0, 0⟩ (by decide) rfl (by decide)).2⟩

/-- C21 as stated fails: a year register holding 0xA0 is read as the year 2100, which is
not a leap year; for the valid Timestamp 2100-12-31 the day of year computed is 366,
although the lengths of the months before December add up to 334 and the year has 365
days. -/
theorem stardate_day_of_year_counterexample :
    (getRawTime ⟨fun r => [0x00, 0x00, 0x00, 0x05, 0x31, 0x12, 0xA0].getD r 0, 0,
      fun _ => 0⟩) = ⟨2100, 12, 31, 5, 0, 0, 0⟩ ∧
    Timestamp.valid ⟨2100, 12, 31, 5, 0, 0, 0⟩ ∧
    isLeapYear 2100 = false ∧
    stardateDayOfYear ⟨2100, 12, 31, 5, 0, 0, 0⟩ = some 366 ∧
    ((List.range 11).map (fun i => daysInMonth (i + 1) (isLeapYear 2100))).sum + 31 = 365 := by
  decide

/-! ## Codes returned by a drain -/

/-- Entry `i` written by a drain after recording the codes `cs`: the code at the last
record index congruent to `i` modulo 10. -/
theorem drain_entry (s : ErrorLog) (hs : s.numErrors = 0) (cs : List Nat)
    (hc : ∀ c ∈ cs, c < 4294967296) (hlen : cs.length < 256) (out : Nat → Nat)
    (i : Nat) (hi : i < min 10 cs.length) :
    (getErrorsArray (throwAll s cs) out).2.2 i
      = cs.getD (cs.length - 1 - (cs.length - 1 - i) % 10) 0 := by
  obtain ⟨_, _, h3, _⟩ := drain_after_throwAll s hs cs hlen out
  have hk : cs.length - 1 - (cs.length - 1 - i) % 10 < cs.length := by omega
  have h := h3 (cs.length - 1 - (cs.length - 1 - i) % 10) hk (by omega)
  have hmod : (cs.length - 1 - (cs.length - 1 - i) % 10) % 10 = i := by omega
  rw [hmod] at h
  rw [h]
  apply Nat.mod_eq_of_lt
  rw [List.getD_eq_getElem _ _ hk]
  exact hc _ (List.getElem_mem _)

/-- C28. Which codes a drain returns: for every sequence of n codes (32-bit values)
recorded since the last drain with n < 256, entry out[i] written by `getErrorsArray`
(for i < min(10, n)) is the most recently recorded code whose 0-based record index is
congruent to i modulo 10; hence for n <= 10 the output is exactly the recorded sequence
in order, and for n > 10 it is a permutation of the last 10 recorded codes. -/
theorem drain_returned_codes (s : ErrorLog) (hs : s.numErrors = 0) (cs : List Nat)
    (hc : ∀ c ∈ cs, c < 4294967296) (hlen : cs.length < 256) (out : Nat → Nat) :
    (∀ i, i < min 10 cs.length →
      ∃ k, k < cs.length ∧ k % 10 = i ∧
        (∀ j, j < cs.length → j % 10 = i → j ≤ k) ∧
        (getErrorsArray (throwAll s cs) out).2.2 i = cs.getD k 0) ∧
    (cs.length ≤ 10 →
      (List.range cs.length).map (getErrorsArray (throwAll s cs) out).2.2 = cs) ∧
    (10 < cs.length →
      List.Perm ((List.range 10).map (getErrorsArray (throwAll s cs) out).2.2)
        (cs.drop (cs.length - 10))) := by
  refine ⟨?_, ?_, ?_⟩
  · intro i hi
    refine ⟨cs.length - 1 - (cs.length - 1 - i) % 10, by omega, by omega, ?_,
      drain_entry s hs cs hc hlen out i hi⟩
    intro j hj hji
    omega
  · intro h10
    apply List.ext_getElem
    · simp
    · intro i h1 h2
      simp only [List.length_map, List.length_range] at h1
      rw [List.getElem_map, List.getElem_range,
        drain_entry s hs cs hc hlen out i (by omega)]
      have : cs.length - 1 - (cs.length - 1 - i) % 10 = i := by omega
      rw [this, List.getD_eq_getElem _ _ h1]
  · intro h10
    have hrot : (List.range 10).map (getErrorsArray (throwAll s cs) out).2.2
        = (cs.drop (cs.length - 10)).rotate (10 - cs.length % 10) := by
      apply List.ext_getElem
      · simp
        omega
      · intro i h1 h2
        simp only [List.length_map, List.length_range] at h1
        rw [List.getElem_map, List.getElem_range,
          drain_entry s hs cs hc hlen out i (by omega), List.getElem_rotate, List.getElem_drop]
        have hk : cs.length - 1 - (cs.length - 1 - i) % 10 < cs.length := by omega
        rw [List.getD_eq_getElem _ _ hk]
        congr 1
        simp only [List.length_drop]
        have hl : cs.length - (cs.length - 10) = 10 := by omega
        rw [hl]
        omega
    rw [hrot]
    exact List.rotate_perm _ _

/-- C28, at a concrete input: after recording the twelve codes 101..112 on a fresh log,
the drain returns 111, 112, 103, ..., 110, a permutation of the last ten codes. -/
theorem drain_returned_codes_witness :
    (List.range 10).map (getErrorsArray (throwAll ErrorLog.init
        [101, 102, 103, 104, 105, 106, 107, 108, 109, 110, 111, 112]) (fun _ => 0)).2.2
      = [111, 112, 103, 104, 105, 106, 107, 108, 109, 110] ∧
    List.Perm ((List.range 10).map (getErrorsArray (throwAll ErrorLog.init
        [101, 102, 103, 104, 105, 106, 107, 108, 109, 110, 111, 112]) (fun _ => 0)).2.2)
      [103, 104, 105, 106, 107, 108, 109, 110, 111, 112] :=
  ⟨by decide,
   (drain_returned_codes ErrorLog.init rfl
      [101, 102, 103, 104, 105, 106, 107, 108, 109, 110, 111, 112] (by decide) (by decide)
      (fun _ => 0)).2.2 (by decide)⟩

/-! ## Totality of the day step -/

/-- C31. The day step of `setAlarm` is total on valid months: for every current Timestamp
with month in 1..12, every day-of-month, every leap-flag value and every delta, the
month-length lookup indexes inside the 13-entry table (it gives the length of the
current month), the modulus (month length + 1) is positive so no division by zero
occurs, the computation gives a result, and the resulting day-of-month lies in
1..length of the current month; `setAlarm` itself returns on every device whose month
reads in 1..12. -/
theorem day_step_total (t : Timestamp) (lpyr : Bool) (Delta : Nat)
    (hm1 : 1 ≤ t.month) (hm12 : t.month ≤ 12) :
    (MonthDay lpyr).length = 13 ∧ 0 ≤ (t.month : Int) ∧
    (t.month : Int).toNat < (MonthDay lpyr).length ∧
    (∃ maxDay a, tableAt (MonthDay lpyr) (t.month : Int) = some maxDay ∧
      maxDay = ((daysInMonth t.month lpyr : Nat) : Int) ∧
      0 < maxDay + 1 ∧
      alarmTarget t lpyr Delta = some a ∧
      a.mday = (if ((t.mday : Int) + ((Delta / 86400 : Nat) : Int)
                    + (hourCarry t Delta : Int)).tmod (maxDay + 1) = 0
                then 1
                else ((t.mday : Int) + ((Delta / 86400 : Nat) : Int)
                    + (hourCarry t Delta : Int)).tmod (maxDay + 1)) ∧
      1 ≤ a.mday ∧ a.mday ≤ maxDay) ∧
    (∀ (b : Bus) (n : Bool), getRawTime b = t → ∃ r, setAlarm b Delta n = some r) := by
  refine ⟨by cases lpyr <;> rfl, by omega, ?_, ?_, ?_⟩
  · have : (MonthDay lpyr).length = 13 := by cases lpyr <;> rfl
    rw [this]
    omega
  · obtain ⟨a, ha⟩ := alarmTarget_isSome t lpyr Delta hm12
    obtain ⟨maxDay, hmax, _, _, _, _, ed, _⟩ := alarmTarget_carries t lpyr Delta a ha
    have hd : maxDay = ((daysInMonth t.month lpyr : Nat) : Int) := by
      have := tableAt_MonthDay lpyr t.month hm1 hm12
      rw [hmax] at this
      exact Option.some.inj this
    have hb := daysInMonth_bounds lpyr t.month hm1 hm12
    have hpos : 0 < maxDay + 1 := by omega
    refine ⟨maxDay, a, hmax, hd, hpos, ha, ed, ?_, ?_⟩
    · rw [ed]
      split_ifs with h0
      · decide
      · rw [Int.tmod_eq_emod (by omega) (by omega)] at h0 ⊢
        have := Int.emod_nonneg ((t.mday : Int) + ((Delta / 86400 : Nat) : Int)
          + (hourCarry t Delta : Int)) (by omega : maxDay + 1 ≠ 0)
        omega
    · rw [ed]
      split_ifs with h0
      · omega
      · rw [Int.tmod_eq_emod (by omega) (by omega)]
        have := Int.emod_lt_of_pos ((t.mday : Int) + ((Delta / 86400 : Nat) : Int)
          + (hourCarry t Delta : Int)) hpos
        omega
  · intro b n hb
    exact setAlarm_isSome b Delta n (by rw [hb]; exact hm12)

/-- C31, at a concrete input: January 31, 23:59:59 plus one second; the lookup gives 31,
the modulus is 32 and the day computed is 1. -/
theorem day_step_total_witness :
    tableAt (MonthDay false) 1 = some 31 ∧
    alarmTarget ⟨2023, 1, 31, 2, 23, 59, 59⟩ false 1 = some ⟨0, 0, 0, 3, 1, 2, 2023⟩ ∧
    ∃ maxDay a, alarmTarget ⟨2023, 1, 31, 2, 23, 59, 59⟩ false 1 = some a ∧
      0 < maxDay + 1 ∧ 1 ≤ a.mday ∧ a.mday ≤ maxDay := by
  obtain ⟨maxDay, a, _, _, hpos, ha, _, h1, h2⟩ :=
    (day_step_total ⟨2023, 1, 31, 2, 23, 59, 59⟩ false 1 (by decide) (by decide)).2.2.2.1
  exact ⟨by decide, by decide, maxDay, a, ha, hpos, h1, h2⟩

end MCP79412
